import Mathlib

/-! Transport catalogue: route graph, shortest-path solver and route queries.

A shallow embedding of the transit network store (`transport_catalogue.cpp`),
the route graph builder and route query service (`transport_router.cpp`), the
loader of base requests and the `Route` branch of the stat-request handler
(`json_reader.cpp`) and the JSON builder (`json_builder.cpp`).

Conventions of the embedding

* `double` values are exact rationals (`ℚ`); `int` values are `Int`. Where the
  rounding of `double` arithmetic is at issue, `roundToDouble` gives the value an
  operation returns (IEEE 754 binary64, round to nearest, ties to even); the `int`
  accumulator of `GetBusInfo` wraps modulo `2 ^ 32`. A division by
  zero follows the convention of `ℚ` (the quotient is `0`), where IEEE arithmetic
  gives an infinity or a NaN: statements on travel times are meant for a velocity
  other than zero.
* A `const Stop*` is the position of the stop in the `stops_` deque (a deque never
  moves its elements, and a `Stop` is never modified after `AddStop`), a
  `const Bus*` the position of the bus in `buses_`.
* An `unordered_map` is an association list: `m[k] = v` puts the pair in front,
  `find`/`at`/`count` return the first pair with the key.
* Code that can throw or dereference an invalid pointer returns `Except Fault`.
* The `size_t` arithmetic of `GetBusInfo` is modulo `2 ^ 64`.
-/

/-- The ways in which an operation of the program can fail to return normally. -/
inductive Fault where
  | out_of_range
  | bad_pointer
  | bad_variant_access
  | logic_error (msg : String)
deriving DecidableEq, Repr

deriving instance DecidableEq for Except

/-- The assignment `m[k] = v` of an `unordered_map`. -/
def mapAssign {κ ν : Type} (m : List (κ × ν)) (k : κ) (v : ν) : List (κ × ν) :=
  (k, v) :: m

/-- The lookup `m.find(k)` of an `unordered_map`: `none` stands for `end()`. -/
def mapFind {κ ν : Type} [DecidableEq κ] (k : κ) : List (κ × ν) → Option ν
  | [] => none
  | (k', v) :: m => if k' = k then some v else mapFind k m

/-- The checked lookup `m.at(k)`, which throws `std::out_of_range` on a missing key. -/
def mapAt {κ ν : Type} [DecidableEq κ] (m : List (κ × ν)) (k : κ) : Except Fault ν :=
  match mapFind k m with
  | some v => .ok v
  | none => .error .out_of_range

/-- The element access `v[i]` of a vector; an index outside the vector is a fault. -/
def vecAt {α : Type} (v : List α) (i : Nat) : Except Fault α :=
  match v[i]? with
  | some a => .ok a
  | none => .error .bad_pointer

/-- The dereference of a `unique_ptr`; a null pointer is a fault. -/
def derefPtr {α : Type} (p : Option α) : Except Fault α :=
  match p with
  | some a => .ok a
  | none => .error .bad_pointer

/-- The conversion `static_cast<int>(x)` of a `double`: truncation towards zero. -/
def truncToInt (q : ℚ) : Int :=
  if 0 ≤ q then ⌊q⌋ else ⌈q⌉

/-- The value that 32-bit `int` arithmetic gives for the exact result `x`: the two's
complement representative in `[-2^31, 2^31)` (an overflow of a signed `int` is
undefined in C++; this is what the compiled code computes). -/
def wrapInt32 (x : Int) : Int :=
  (x + 2147483648) % 4294967296 - 2147483648

def INT_MIN : Int := -2147483648

def INT_MAX : Int := 2147483647

/-- The position of the leading binary digit of `n` (`0` for `n ≤ 1`), by halving at
most `fuel` times. -/
def floorLog2Fuel : Nat → Nat → Nat
  | 0, _ => 0
  | fuel + 1, n => if 2 ≤ n then floorLog2Fuel fuel (n / 2) + 1 else 0

def floorLog2 (n : Nat) : Nat := floorLog2Fuel n n

/-- The power `2 ^ e` of an integer exponent. -/
def pow2 : Int → ℚ
  | Int.ofNat n => ((2 ^ n : Nat) : ℚ)
  | Int.negSucc n => 1 / ((2 ^ (n + 1) : Nat) : ℚ)

/-- The exponent `e` with `2 ^ e ≤ |q| < 2 ^ (e + 1)` of a number other than `0`. -/
def binade (q : ℚ) : Int :=
  let e : Int := (floorLog2 q.num.natAbs : Int) - (floorLog2 q.den : Int)
  if pow2 e ≤ |q| then e else e - 1

/-- Rounding to the nearest integer, a tie going to the even one. -/
def roundHalfEven (x : ℚ) : Int :=
  let n := ⌊x⌋
  let f := x - n
  if f < 1 / 2 then n
  else if 1 / 2 < f then n + 1
  else if n % 2 = 0 then n else n + 1

/-- The `double` nearest to a real number (IEEE 754 binary64: 53 significant binary
digits, round to nearest, ties to even, gradual underflow below `2 ^ (-1022)`); the
result of a `double` operation is this rounding of the exact result. Numbers of
magnitude `2 ^ 1024` and more, which round to an infinity, are outside the model. -/
def roundToDouble (q : ℚ) : ℚ :=
  if q = 0 then 0
  else
    let e := max (binade q) (-1022)
    let ulp := pow2 (e - 52)
    (roundHalfEven (q / ulp) : ℚ) * ulp

namespace transport_catalogue

/-- Modelled from the spec: `geo.h` is not among the sources; a stop has geographic
coordinates, and the geometric distance `ComputeDistance` between two of them is a
parameter of the definitions that use it. -/
structure Coordinates where
  lat : ℚ
  lng : ℚ
deriving DecidableEq, Repr, Inhabited

structure Stop where
  name : String
  coordinates : Coordinates
deriving DecidableEq, Repr, Inhabited

structure Bus where
  name : String
  stops : List Nat
  is_roundtrip : Bool
deriving DecidableEq, Repr

structure TransportCatalogue where
  stops_ : List Stop := []
  buses_ : List Bus := []
  stopname_to_stop_ : List (String × Nat) := []
  busname_to_bus_ : List (String × Nat) := []
  stop_to_buses_ : List (Nat × List Nat) := []
  distances_ : List ((Nat × Nat) × Int) := []
deriving DecidableEq, Repr

namespace TransportCatalogue

/-- Lookup `FindStop`: the pointer registered under the name, `none` for `nullptr`. -/
def FindStop (c : TransportCatalogue) (name : String) : Option Nat :=
  mapFind name c.stopname_to_stop_

/-- Lookup `FindBus`: the pointer registered under the name, `none` for `nullptr`. -/
def FindBus (c : TransportCatalogue) (name : String) : Option Nat :=
  mapFind name c.busname_to_bus_

/-- Operation `AddStop`: appends the stop and (re)binds its name to the new element. -/
def AddStop (c : TransportCatalogue) (name : String) (coord : Coordinates) :
    TransportCatalogue :=
  { c with
    stops_ := c.stops_ ++ [{ name := name, coordinates := coord }]
    stopname_to_stop_ := mapAssign c.stopname_to_stop_ name c.stops_.length }

/-- The insertion `stop_to_buses_[stop].insert(bus)` into an `unordered_set`. -/
def insertBusOfStop (m : List (Nat × List Nat)) (stop bus : Nat) : List (Nat × List Nat) :=
  let old := (mapFind stop m).getD []
  mapAssign m stop (if bus ∈ old then old else bus :: old)

/-- Operation `AddBus`: keeps the names that `FindStop` knows, in order, and stores the bus. -/
def AddBus (c : TransportCatalogue) (name : String) (stop_names : List String)
    (is_roundtrip : Bool) : TransportCatalogue :=
  let bus_stops := stop_names.filterMap c.FindStop
  let bus_ptr := c.buses_.length
  { c with
    buses_ := c.buses_ ++ [{ name := name, stops := bus_stops, is_roundtrip := is_roundtrip }]
    busname_to_bus_ := mapAssign c.busname_to_bus_ name bus_ptr
    stop_to_buses_ := bus_stops.foldl (fun m stop => insertBusOfStop m stop bus_ptr)
      c.stop_to_buses_ }

/-- Operation `SetDistance`: `distances_[{from, to}] = distance`. -/
def SetDistance (c : TransportCatalogue) (from_ to_ : Nat) (distance : Int) :
    TransportCatalogue :=
  { c with distances_ := mapAssign c.distances_ (from_, to_) distance }

/-- Lookup `GetDistance`: the forward pair, else the reverse pair, else `0`. -/
def GetDistance (c : TransportCatalogue) (from_ to_ : Nat) : Int :=
  match mapFind (from_, to_) c.distances_ with
  | some d => d
  | none =>
    match mapFind (to_, from_) c.distances_ with
    | some d => d
    | none => 0

def GetBuses (c : TransportCatalogue) : List Bus := c.buses_

def GetStops (c : TransportCatalogue) : List Stop := c.stops_

/-- The dereference `p->` of a `const Stop*`. -/
def stopOf (c : TransportCatalogue) (p : Nat) : Except Fault Stop :=
  vecAt c.stops_ p

end TransportCatalogue

end transport_catalogue

namespace graph

/-- Modelled from the spec: the `Edge` of the missing `graph.h`, a directed edge with
its weight. -/
structure Edge where
  from_ : Nat
  to_ : Nat
  weight : ℚ
deriving DecidableEq, Repr

/-- Modelled from the spec: `graph.h` (`DirectedWeightedGraph`) is not among the
sources. The route graph is the fixed number of vertices given at construction and
the edges in the order they were added; an edge's id is its position. -/
structure DirectedWeightedGraph where
  vertex_count : Nat
  edges_ : List Edge
deriving DecidableEq, Repr

namespace DirectedWeightedGraph

/-- Modelled from the spec: `AddEdge` of the missing `graph.h`; appends the edge and
returns its id. -/
def AddEdge (g : DirectedWeightedGraph) (e : Edge) : DirectedWeightedGraph × Nat :=
  ({ g with edges_ := g.edges_ ++ [e] }, g.edges_.length)

/-- Modelled from the spec: `GetEdge` of the missing `graph.h`. -/
def GetEdge (g : DirectedWeightedGraph) (edge_id : Nat) : Except Fault Edge :=
  vecAt g.edges_ edge_id

end DirectedWeightedGraph

/-- Modelled from the spec: the solver's answer (`RouteInfo` of the missing `router.h`),
the total weight and the ordered list of edge ids. -/
structure RouteInfo where
  weight : ℚ
  edges : List Nat
deriving DecidableEq, Repr

/-- Modelled from the spec: `router.h` (`Router`) is not among the sources. The
solver is built once from an immutable graph. -/
structure Router where
  graph_ : DirectedWeightedGraph
deriving DecidableEq, Repr

/-- Modelled from the spec: the relaxation of one edge `e` with id `edge_id` from the
vertex `u` whose final label is `ru`: the label of the edge's head is replaced when
going through `u` and `e` is strictly better. -/
def relaxOne (u : Nat) (ru : RouteInfo) (edge_id : Nat) (e : Edge)
    (lab : Nat → Option RouteInfo) : Nat → Option RouteInfo :=
  let cand : RouteInfo := { weight := ru.weight + e.weight, edges := ru.edges ++ [edge_id] }
  if e.from_ = u then
    match lab e.to_ with
    | none => Function.update lab e.to_ (some cand)
    | some old =>
      if cand.weight < old.weight then Function.update lab e.to_ (some cand) else lab
  else lab

/-- Modelled from the spec: "relax outgoing edges" of the vertex `u`; `edge_id` is the
id of the first edge of the list. -/
def relaxEdges (u : Nat) (ru : RouteInfo) :
    Nat → List Edge → (Nat → Option RouteInfo) → (Nat → Option RouteInfo)
  | _, [], lab => lab
  | edge_id, e :: es, lab =>
    relaxEdges u ru (edge_id + 1) es (relaxOne u ru edge_id e lab)

/-- Modelled from the spec: the next vertex to explore, one that is labelled, not yet
finalized and of least tentative distance among the candidates. -/
def pickMin (lab : Nat → Option RouteInfo) (done : List Nat) :
    List Nat → Option (Nat × RouteInfo)
  | [] => none
  | v :: vs =>
    let rest := pickMin lab done vs
    if v ∈ done then rest
    else
      match lab v with
      | none => rest
      | some rv =>
        match rest with
        | none => some (v, rv)
        | some (u, ru) => if rv.weight ≤ ru.weight then some (v, rv) else some (u, ru)

/-- Modelled from the spec: "explore vertices in increasing tentative-distance order,
relax outgoing edges, stop early once the target is finalized". Each round finalizes
one vertex, so `vertex_count` rounds are all a search can use. -/
def dijkstra (g : DirectedWeightedGraph) (target : Nat) :
    Nat → (Nat → Option RouteInfo) → List Nat → Option RouteInfo
  | 0, _, _ => none
  | fuel + 1, lab, done =>
    match pickMin lab done (List.range g.vertex_count) with
    | none => none
    | some (u, ru) =>
      if u = target then some ru
      else dijkstra g target fuel (relaxEdges u ru 0 g.edges_ lab) (u :: done)

/-- Modelled from the spec: "Query(source vertex, target vertex) → either a path
(ordered edge list + total weight) or unreachable". -/
def Router.BuildRoute (r : Router) (from_ to_ : Nat) : Option RouteInfo :=
  dijkstra r.graph_ to_ r.graph_.vertex_count
    (fun v => if v = from_ then some { weight := 0, edges := [] } else none) []

/-- The edge ids `p` form a walk of the graph from `u` to `v`. -/
def IsPath (g : DirectedWeightedGraph) : Nat → Nat → List Nat → Prop
  | u, v, [] => u = v
  | u, v, e :: es => ∃ ed, g.edges_[e]? = some ed ∧ ed.from_ = u ∧ IsPath g ed.to_ v es

/-- The total weight of a list of edge ids. -/
def pathWeight (g : DirectedWeightedGraph) (p : List Nat) : ℚ :=
  (p.map (fun e => ((g.edges_[e]?).map Edge.weight).getD 0)).sum

/-- The invariant of the search from `s`: labels are realised by walks from `s`, the
finalized vertices are labelled, have relaxed outgoing edges and are no farther than
any other vertex, and only vertices of the graph are labelled. -/
structure SearchInv (g : DirectedWeightedGraph) (s : Nat) (lab : Nat → Option RouteInfo)
    (done : List Nat) : Prop where
  real : ∀ v r, lab v = some r → IsPath g s v r.edges ∧ pathWeight g r.edges = r.weight
  src : ∃ r0, lab s = some r0 ∧ r0.weight ≤ 0
  labelled : ∀ u ∈ done, ∃ ru, lab u = some ru
  relaxed : ∀ u ∈ done, ∀ e ∈ g.edges_, e.from_ = u → ∀ ru, lab u = some ru →
    ∃ rv, lab e.to_ = some rv ∧ rv.weight ≤ ru.weight + e.weight
  mono : ∀ u ∈ done, ∀ v, v ∉ done → ∀ ru rv, lab u = some ru → lab v = some rv →
    ru.weight ≤ rv.weight
  bound : ∀ v r, lab v = some r → v < g.vertex_count

end graph

namespace transport

open transport_catalogue graph

structure RoutingSettings where
  bus_wait_time : ℚ := 0
  bus_velocity : ℚ := 0
deriving DecidableEq, Repr

structure BusEdge where
  from_stop : String
  to_stop : String
  bus_name : String
  span_count : Int
  time : ℚ
deriving DecidableEq, Repr

inductive RouteItem.Type where
  | WAIT
  | BUS
deriving DecidableEq, Repr

structure RouteItem where
  type : RouteItem.Type
  stop_name : String
  bus_name : String
  time : ℚ
  span_count : Int
deriving DecidableEq, Repr

structure RouteInfo where
  total_time : ℚ
  items : List RouteItem
deriving DecidableEq, Repr

/-- The state of a `TransportRouter`; the catalogue it refers to is passed to the
operations that read it. The two `unique_ptr` members are `none` when null. -/
structure TransportRouter where
  settings_ : RoutingSettings
  stops_ : List String := []
  stop_ids_ : List (String × Nat) := []
  graph_ : Option DirectedWeightedGraph := none
  router_ : Option Router := none
  edges_ : List BusEdge := []
  edge_to_bus_info_ : List (Nat × BusEdge) := []
deriving DecidableEq, Repr

/-- The constant `VELOCITY_COEF = 1000.0 / 60.0`, as the exact quotient (the `double`
is `roundToDouble (1000 / 60)`, see `travelTimeDouble`). -/
def VELOCITY_COEF : ℚ := 1000 / 60

/-- The expression `total_distance / (settings_.bus_velocity * VELOCITY_COEF)` of the
three loop bodies as `double` arithmetic evaluates it, for a velocity other than `0`:
the constant `1000.0 / 60.0`, the product and the quotient are each rounded. -/
def travelTimeDouble (total_distance : Int) (bus_velocity : ℚ) : ℚ :=
  roundToDouble
    ((total_distance : ℚ) / roundToDouble (bus_velocity * roundToDouble (1000 / 60)))

namespace TransportRouter

/-- The first loop of `InitializeStops`: number the stops in catalogue order. -/
def registerStops (r : TransportRouter) (all_stops : List Stop) : TransportRouter :=
  all_stops.foldl
    (fun r stop =>
      { r with
        stop_ids_ := mapAssign r.stop_ids_ stop.name r.stops_.length
        stops_ := r.stops_ ++ [stop.name] })
    r

/-- The second loop of `InitializeStops`: one wait edge `2i → 2i+1` per stop. -/
def addWaitEdges (wait_time : ℚ) (g : DirectedWeightedGraph) (n : Nat) :
    DirectedWeightedGraph :=
  (List.range n).foldl
    (fun g i => (g.AddEdge { from_ := 2 * i, to_ := 2 * i + 1, weight := wait_time }).1)
    g

def InitializeStops (cat : TransportCatalogue) (r : TransportRouter) : TransportRouter :=
  let r1 := registerStops r cat.GetStops
  let vertex_count := r1.stops_.length * 2
  { r1 with
    graph_ := some (addWaitEdges r1.settings_.bus_wait_time
      { vertex_count := vertex_count, edges_ := [] } r1.stops_.length) }

section
variable (ComputeDistance : Coordinates → Coordinates → ℚ)

/-- The distance of the unit segment `a → b`, as each of the three loops computes it:
`GetDistance`, replaced by the truncated geometric distance when it is `0`. -/
def segmentDistance (cat : TransportCatalogue) (a b : Nat) : Except Fault Int :=
  let segment_distance := cat.GetDistance a b
  if segment_distance = 0 then do
    let sa ← cat.stopOf a
    let sb ← cat.stopOf b
    pure (truncToInt (ComputeDistance sa.coordinates sb.coordinates))
  else pure segment_distance

/-- The tail of each loop body: convert the accumulated distance to a time, add the
edge `board(stops[i]) → wait(stops[j])` and record its `BusEdge`. -/
def addTravelEdge (cat : TransportCatalogue) (bus : Bus) (i j : Nat) (span_count : Int)
    (total_distance : Int) (r : TransportRouter) : Except Fault TransportRouter := do
  let time : ℚ := (total_distance : ℚ) / (r.settings_.bus_velocity * VELOCITY_COEF)
  let si ← cat.stopOf (← vecAt bus.stops i)
  let sj ← cat.stopOf (← vecAt bus.stops j)
  let from_vertex := (← mapAt r.stop_ids_ si.name) * 2 + 1
  let to_vertex := (← mapAt r.stop_ids_ sj.name) * 2
  let g ← derefPtr r.graph_
  let (g', edge_id) := g.AddEdge { from_ := from_vertex, to_ := to_vertex, weight := time }
  let edge : BusEdge :=
    { from_stop := si.name, to_stop := sj.name, bus_name := bus.name,
      span_count := span_count, time := time }
  pure { r with
    graph_ := some g'
    edges_ := r.edges_ ++ [edge]
    edge_to_bus_info_ := mapAssign r.edge_to_bus_info_ edge_id edge }

/-- One round of the inner forward loop (`j` from `i + 1` up). -/
def forwardStep (cat : TransportCatalogue) (bus : Bus) (i : Nat)
    (st : Int × TransportRouter) (j : Nat) : Except Fault (Int × TransportRouter) := do
  let segment_distance ← segmentDistance ComputeDistance cat
    (← vecAt bus.stops (j - 1)) (← vecAt bus.stops j)
  let total_distance := st.1 + segment_distance
  let r ← addTravelEdge cat bus i j ((j : Int) - (i : Int)) total_distance st.2
  pure (total_distance, r)

/-- The forward double loop shared by `ProcessRoundTripBus` and `ProcessLinearBus`:
`for i in [0, n)`, `total_distance = 0`, `for j in [i + 1, n)`. -/
def forwardLoops (cat : TransportCatalogue) (bus : Bus) (r : TransportRouter) :
    Except Fault TransportRouter :=
  let stop_count := bus.stops.length
  (List.range stop_count).foldlM
    (fun r i => do
      let st ← (List.range' (i + 1) (stop_count - (i + 1))).foldlM
        (forwardStep ComputeDistance cat bus i) ((0 : Int), r)
      pure st.2)
    r

/-- One round of the inner backward loop (`j` from `i - 1` down to `0`). -/
def backwardStep (cat : TransportCatalogue) (bus : Bus) (i : Nat)
    (st : Int × TransportRouter) (j : Nat) : Except Fault (Int × TransportRouter) := do
  let segment_distance ← segmentDistance ComputeDistance cat
    (← vecAt bus.stops (j + 1)) (← vecAt bus.stops j)
  let total_distance := st.1 + segment_distance
  let r ← addTravelEdge cat bus i j ((i : Int) - (j : Int)) total_distance st.2
  pure (total_distance, r)

/-- The backward double loop of `ProcessLinearBus`: `for i = n - 1; i > 0; --i`,
`total_distance = 0`, `for j = i - 1; j < i; --j` with `break` after `j == 0`. -/
def backwardLoops (cat : TransportCatalogue) (bus : Bus) (r : TransportRouter) :
    Except Fault TransportRouter :=
  let stop_count := bus.stops.length
  (List.range' 1 (stop_count - 1)).reverse.foldlM
    (fun r i => do
      let st ← (List.range i).reverse.foldlM
        (backwardStep ComputeDistance cat bus i) ((0 : Int), r)
      pure st.2)
    r

def ProcessRoundTripBus (cat : TransportCatalogue) (bus : Bus) (r : TransportRouter) :
    Except Fault TransportRouter :=
  forwardLoops ComputeDistance cat bus r

def ProcessLinearBus (cat : TransportCatalogue) (bus : Bus) (r : TransportRouter) :
    Except Fault TransportRouter := do
  let r ← forwardLoops ComputeDistance cat bus r
  backwardLoops ComputeDistance cat bus r

def ProcessBusRoutes (cat : TransportCatalogue) (r : TransportRouter) :
    Except Fault TransportRouter :=
  cat.GetBuses.foldlM
    (fun r bus =>
      if bus.stops.isEmpty then pure r
      else if bus.is_roundtrip then ProcessRoundTripBus ComputeDistance cat bus r
      else ProcessLinearBus ComputeDistance cat bus r)
    r

def BuildGraph (cat : TransportCatalogue) (r : TransportRouter) :
    Except Fault TransportRouter := do
  let r0 : TransportRouter :=
    { r with
      stops_ := [], stop_ids_ := [], edges_ := [], edge_to_bus_info_ := []
      graph_ := none, router_ := none }
  let r1 := InitializeStops cat r0
  let r2 ← ProcessBusRoutes ComputeDistance cat r1
  let g ← derefPtr r2.graph_
  pure { r2 with router_ := some { graph_ := g } }

end

/-- One round of the reconstruction loop of `FindRoute`. -/
def routeItemStep (r : TransportRouter) (items : List RouteItem) (edge_id : Nat) :
    Except Fault (List RouteItem) := do
  let g ← derefPtr r.graph_
  let edge ← g.GetEdge edge_id
  if edge.from_ % 2 = 0 ∧ edge.to_ = edge.from_ + 1 then do
    let stop_name ← vecAt r.stops_ (edge.from_ / 2)
    pure (items ++ [{ type := .WAIT, stop_name := stop_name, bus_name := "",
                      time := edge.weight, span_count := 0 }])
  else
    match mapFind edge_id r.edge_to_bus_info_ with
    | some bus_edge =>
      pure (items ++ [{ type := .BUS, stop_name := "", bus_name := bus_edge.bus_name,
                        time := bus_edge.time, span_count := bus_edge.span_count }])
    | none => pure items

/-- The query `FindRoute`; `none` is the empty optional. -/
def FindRoute (r : TransportRouter) (from_ to_ : String) :
    Except Fault (Option RouteInfo) :=
  if from_ = to_ then pure (some { total_time := 0, items := [] })
  else if (mapFind from_ r.stop_ids_).isNone || (mapFind to_ r.stop_ids_).isNone then
    pure none
  else do
    let from_vertex := (← mapAt r.stop_ids_ from_) * 2
    let to_vertex := (← mapAt r.stop_ids_ to_) * 2
    let router ← derefPtr r.router_
    match router.BuildRoute from_vertex to_vertex with
    | none => pure none
    | some route =>
      let items ← route.edges.foldlM (routeItemStep r) []
      pure (some { total_time := route.weight, items := items })

end TransportRouter

end transport


/-! ## Closed form of the built router -/

namespace transport

open transport_catalogue graph

/-- Every stop pointer stored in a bus designates an element of `stops_`. -/
def PointersValid (cat : TransportCatalogue) : Prop :=
  ∀ bus ∈ cat.buses_, ∀ p ∈ bus.stops, p < cat.stops_.length

/-- The stop that position `i` of the bus's stop list points to. -/
def stopAt (cat : TransportCatalogue) (bus : Bus) (i : Nat) : Stop :=
  cat.stops_.getD (bus.stops.getD i 0) default

/-- The id that the stop index table gives to a name (`0` when it has none). -/
def idOf (ids : List (String × Nat)) (name : String) : Nat :=
  (mapFind name ids).getD 0

/-- The stop index table after `InitializeStops`: stop number `k` bound in front of
the earlier ones. -/
def stopIds : Nat → List Stop → List (String × Nat) → List (String × Nat)
  | _, [], acc => acc
  | k, s :: ss, acc => stopIds (k + 1) ss ((s.name, k) :: acc)

/-- The wait edges `2i → 2i+1`, one per stop, in stop order. -/
def waitEdges (wait_time : ℚ) (n : Nat) : List Edge :=
  (List.range n).map (fun i => { from_ := 2 * i, to_ := 2 * i + 1, weight := wait_time })

section
variable (ComputeDistance : Coordinates → Coordinates → ℚ)

/-- The distance the builder uses for the unit segment between two stop pointers. -/
def seg (cat : TransportCatalogue) (a b : Nat) : Int :=
  if cat.GetDistance a b = 0 then
    truncToInt (ComputeDistance (cat.stops_.getD a default).coordinates
      (cat.stops_.getD b default).coordinates)
  else cat.GetDistance a b

/-- The sum of the unit segments `s[k-1] → s[k]` for `k` in `(i, j]`. -/
def fwdDist (cat : TransportCatalogue) (bus : Bus) (i j : Nat) : Int :=
  ((List.range' (i + 1) (j - i)).map
    (fun k => seg ComputeDistance cat (bus.stops.getD (k - 1) 0) (bus.stops.getD k 0))).sum

/-- The sum of the unit segments `s[k+1] → s[k]` for `k` in `[j, i)`. -/
def bwdDist (cat : TransportCatalogue) (bus : Bus) (i j : Nat) : Int :=
  ((List.range' j (i - j)).map
    (fun k => seg ComputeDistance cat (bus.stops.getD (k + 1) 0) (bus.stops.getD k 0))).sum

end

/-- The graph edge and the metadata of a ride from position `i` to position `j` of a
bus over an accumulated distance. -/
def travelEdge (ids : List (String × Nat)) (velocity : ℚ) (cat : TransportCatalogue)
    (bus : Bus) (i j : Nat) (span_count : Int) (total_distance : Int) : Edge × BusEdge :=
  let time : ℚ := (total_distance : ℚ) / (velocity * VELOCITY_COEF)
  ({ from_ := idOf ids (stopAt cat bus i).name * 2 + 1,
     to_ := idOf ids (stopAt cat bus j).name * 2, weight := time },
   { from_stop := (stopAt cat bus i).name, to_stop := (stopAt cat bus j).name,
     bus_name := bus.name, span_count := span_count, time := time })

section
variable (ComputeDistance : Coordinates → Coordinates → ℚ)

/-- The ride of a bus from position `i` forward to position `j`. -/
def fwdEdge (ids : List (String × Nat)) (velocity : ℚ) (cat : TransportCatalogue)
    (bus : Bus) (i j : Nat) : Edge × BusEdge :=
  travelEdge ids velocity cat bus i j ((j : Int) - (i : Int)) (fwdDist ComputeDistance cat bus i j)

/-- The ride of a bus from position `i` back to position `j`. -/
def bwdEdge (ids : List (String × Nat)) (velocity : ℚ) (cat : TransportCatalogue)
    (bus : Bus) (i j : Nat) : Edge × BusEdge :=
  travelEdge ids velocity cat bus i j ((i : Int) - (j : Int)) (bwdDist ComputeDistance cat bus i j)

/-- The travel edges of the forward loops, in the order they are added. -/
def fwdList (ids : List (String × Nat)) (velocity : ℚ) (cat : TransportCatalogue)
    (bus : Bus) : List (Edge × BusEdge) :=
  (List.range bus.stops.length).flatMap (fun i =>
    (List.range' (i + 1) (bus.stops.length - (i + 1))).map
      (fun j => fwdEdge ComputeDistance ids velocity cat bus i j))

/-- The travel edges of the backward loops, in the order they are added. -/
def bwdList (ids : List (String × Nat)) (velocity : ℚ) (cat : TransportCatalogue)
    (bus : Bus) : List (Edge × BusEdge) :=
  (List.range' 1 (bus.stops.length - 1)).reverse.flatMap (fun i =>
    (List.range i).reverse.map (fun j => bwdEdge ComputeDistance ids velocity cat bus i j))

/-- The travel edges of one bus, in the order they are added. -/
def busList (ids : List (String × Nat)) (velocity : ℚ) (cat : TransportCatalogue)
    (bus : Bus) : List (Edge × BusEdge) :=
  if bus.stops.isEmpty then []
  else if bus.is_roundtrip then fwdList ComputeDistance ids velocity cat bus
  else fwdList ComputeDistance ids velocity cat bus ++ bwdList ComputeDistance ids velocity cat bus

/-- The travel edges of the whole catalogue, in the order they are added. -/
def allTravel (settings : RoutingSettings) (cat : TransportCatalogue) :
    List (Edge × BusEdge) :=
  cat.buses_.flatMap
    (busList ComputeDistance (stopIds 0 cat.stops_ []) settings.bus_velocity cat)

end

/-- The metadata table after the travel edges `L` were added to a graph that had `n`
edges: the newest entry in front. -/
def infoTable (n : Nat) (L : List (Edge × BusEdge)) : List (Nat × BusEdge) :=
  ((L.map Prod.snd).enumFrom n).reverse

/-- The router after `InitializeStops` and the addition of the travel edges `L`. -/
def routerWith (settings : RoutingSettings) (cat : TransportCatalogue)
    (L : List (Edge × BusEdge)) : TransportRouter :=
  { settings_ := settings
    stops_ := cat.stops_.map Stop.name
    stop_ids_ := stopIds 0 cat.stops_ []
    graph_ := some
      { vertex_count := cat.stops_.length * 2
        edges_ := waitEdges settings.bus_wait_time cat.stops_.length ++ L.map Prod.fst }
    router_ := none
    edges_ := L.map Prod.snd
    edge_to_bus_info_ := infoTable cat.stops_.length L }

section
variable (ComputeDistance : Coordinates → Coordinates → ℚ)

/-- The graph that `BuildGraph` produces: the wait edges, then the travel edges. -/
def builtGraph (settings : RoutingSettings) (cat : TransportCatalogue) :
    DirectedWeightedGraph :=
  { vertex_count := cat.stops_.length * 2
    edges_ := waitEdges settings.bus_wait_time cat.stops_.length ++
      (allTravel ComputeDistance settings cat).map Prod.fst }

/-- The router that `BuildGraph` produces. -/
def builtRouter (settings : RoutingSettings) (cat : TransportCatalogue) : TransportRouter :=
  { routerWith settings cat (allTravel ComputeDistance settings cat) with
    router_ := some { graph_ := builtGraph ComputeDistance settings cat } }

end

end transport

/-! ## The JSON builder and the stat-request handler -/

namespace json

/-- Modelled from the spec: `json.h` (`Node`) is not among the sources. A node holds
one alternative of `Node::Value`; a `Dict` is the list of its keys, each once, with
their values. -/
inductive Node where
  | null
  | array (a : List Node)
  | dict (d : List (String × Node))
  | bool (b : Bool)
  | int (i : Int)
  | double (x : ℚ)
  | string (s : String)
deriving Repr, Inhabited

/-- Modelled from the spec: the test `IsNull` of the missing `json.h`. -/
def Node.IsNull : Node → Bool
  | .null => true
  | _ => false

/-- Modelled from the spec: the lookup of a key in a `Dict` of the missing `json.h`. -/
def dictFind (k : String) : List (String × Node) → Option Node
  | [] => none
  | (k', v) :: d => if k' = k then some v else dictFind k d

/-- Modelled from the spec: the assignment `dict[k] = v` of a `Dict` of the missing
`json.h`; the value of a present key is replaced, a new key is added. -/
def dictAssign (k : String) (v : Node) : List (String × Node) → List (String × Node)
  | [] => [(k, v)]
  | (k', v') :: d => if k' = k then (k, v) :: d else (k', v') :: dictAssign k v d

/-- One step of the way from `root_` to a node: into an element of an array or into
the value of a key of a dict. A `Node*` of the builder is a list of such steps. -/
inductive Step where
  | index (i : Nat)
  | key (k : String)
deriving DecidableEq, Repr

/-- The node that a pointer designates. -/
def Node.getAt : List Step → Node → Except Fault Node
  | [], n => .ok n
  | .index i :: rest, .array a =>
    match a[i]? with
    | some c => Node.getAt rest c
    | none => .error .bad_pointer
  | .key k :: rest, .dict d =>
    match dictFind k d with
    | some c => Node.getAt rest c
    | none => .error .bad_pointer
  | _ :: _, _ => .error .bad_pointer

/-- The update of the node that a pointer designates. -/
def Node.modifyAt (f : Node → Except Fault Node) : List Step → Node → Except Fault Node
  | [], n => f n
  | .index i :: rest, .array a =>
    match a[i]? with
    | some c => do
      let c' ← Node.modifyAt f rest c
      pure (.array (a.set i c'))
    | none => .error .bad_pointer
  | .key k :: rest, .dict d =>
    match dictFind k d with
    | some c => do
      let c' ← Node.modifyAt f rest c
      pure (.dict (dictAssign k c' d))
    | none => .error .bad_pointer
  | _ :: _, _ => .error .bad_pointer

inductive Builder.State where
  | EMPTY
  | ARRAY
  | DICT
  | KEY
deriving DecidableEq, Repr

/-- The state of a `json::Builder`; the top of each stack is the head of the list. -/
structure Builder where
  root_ : Node := .null
  state_stack_ : List Builder.State := []
  node_stack_ : List (List Step) := []
  current_key_ : String := ""
  built_ : Bool := false
deriving Repr

namespace Builder

def CheckState (b : Builder) (expected : Builder.State) (method_name : String) :
    Except Fault Unit :=
  match b.state_stack_ with
  | [] => .error (.logic_error (method_name ++ " called in wrong context"))
  | top :: _ =>
    if top ≠ expected then .error (.logic_error (method_name ++ " called in wrong context"))
    else pure ()

def CheckNotBuilt (b : Builder) : Except Fault Unit :=
  if b.built_ then .error (.logic_error "Build already called") else pure ()

def CurrentNode (b : Builder) : Except Fault (List Step) :=
  match b.node_stack_ with
  | [] => .error (.logic_error "No current container")
  | top :: _ => pure top

/-- The access `std::get<Array>(node.GetValue())` followed by `emplace_back`. -/
def pushBack (node : Node) : Node → Except Fault Node
  | .array a => pure (.array (a ++ [node]))
  | _ => .error .bad_variant_access

/-- The access `std::get<Dict>(node.GetValue())[key] = value`. -/
def setKey (key : String) (node : Node) : Node → Except Fault Node
  | .dict d => pure (.dict (dictAssign key node d))
  | _ => .error .bad_variant_access

/-- The number of elements of the array that a pointer designates. -/
def arraySize (root : Node) (p : List Step) : Except Fault Nat := do
  match ← Node.getAt p root with
  | .array a => pure a.length
  | _ => .error .bad_variant_access

def AddKey (b : Builder) (key : String) : Except Fault Builder := do
  b.CheckNotBuilt
  b.CheckState .DICT "Key"
  if b.current_key_ ≠ "" then .error (.logic_error "Key already set")
  else pure { b with current_key_ := key, state_stack_ := .KEY :: b.state_stack_ }

def AddValue (b : Builder) (value : Node) : Except Fault Builder := do
  b.CheckNotBuilt
  match b.state_stack_ with
  | [] =>
    if !b.root_.IsNull then .error (.logic_error "Multiple root values")
    else pure { b with root_ := value }
  | state :: rest_states => do
    let current ← b.CurrentNode
    if state = .ARRAY then do
      let root ← Node.modifyAt (pushBack value) current b.root_
      pure { b with root_ := root }
    else if state = .KEY then do
      let root ← Node.modifyAt (setKey b.current_key_ value) current b.root_
      pure { b with root_ := root, state_stack_ := rest_states, current_key_ := "" }
    else .error (.logic_error "Invalid state for Value")

/-- The common body of `StartDictImpl` and `StartArrayImpl`: `new_node` is the empty
container, `new_state` the state pushed for it, `error_message` the text of the
`logic_error` thrown in a state that admits no value. -/
def startContainer (b : Builder) (new_node : Node) (new_state : Builder.State)
    (error_message : String) : Except Fault Builder := do
  b.CheckNotBuilt
  match b.state_stack_ with
  | [] =>
    if !b.root_.IsNull then .error (.logic_error "Multiple root values")
    else pure { b with root_ := new_node, state_stack_ := [new_state], node_stack_ := [[]] }
  | state :: rest_states => do
    let current ← b.CurrentNode
    if state = .ARRAY then do
      let size ← arraySize b.root_ current
      let root ← Node.modifyAt (pushBack new_node) current b.root_
      pure { b with
        root_ := root
        node_stack_ := (current ++ [.index size]) :: b.node_stack_
        state_stack_ := new_state :: b.state_stack_ }
    else if state = .KEY then do
      let root ← Node.modifyAt (setKey b.current_key_ new_node) current b.root_
      pure { b with
        root_ := root
        node_stack_ := (current ++ [.key b.current_key_]) :: b.node_stack_
        current_key_ := ""
        state_stack_ := new_state :: rest_states }
    else .error (.logic_error error_message)

def StartDictImpl (b : Builder) : Except Fault Builder :=
  startContainer b (.dict []) .DICT "StartDict in invalid state"

def StartArrayImpl (b : Builder) : Except Fault Builder :=
  startContainer b (.array []) .ARRAY "StartArray in invalid state"

def EndDictImpl (b : Builder) : Except Fault Builder := do
  b.CheckNotBuilt
  b.CheckState .DICT "EndDict"
  pure { b with state_stack_ := b.state_stack_.tail, node_stack_ := b.node_stack_.tail }

def EndArrayImpl (b : Builder) : Except Fault Builder := do
  b.CheckNotBuilt
  b.CheckState .ARRAY "EndArray"
  pure { b with state_stack_ := b.state_stack_.tail, node_stack_ := b.node_stack_.tail }

/-- The operation `Value` of the contexts (`KeyContext::Value`, `ArrayContext::Value`):
a call of `AddValue` on the builder the context refers to. -/
def Value (b : Builder) (value : Node) : Except Fault Builder := b.AddValue value

/-- The operation `Key` of `DictContext`: a call of `AddKey` on the builder the context
refers to. -/
def Key (b : Builder) (key : String) : Except Fault Builder := b.AddKey key

def StartDict (b : Builder) : Except Fault Builder := b.StartDictImpl

def StartArray (b : Builder) : Except Fault Builder := b.StartArrayImpl

def EndDict (b : Builder) : Except Fault Builder := b.EndDictImpl

def EndArray (b : Builder) : Except Fault Builder := b.EndArrayImpl

def Build (b : Builder) : Except Fault (Node × Builder) := do
  b.CheckNotBuilt
  if !b.state_stack_.isEmpty || !b.node_stack_.isEmpty then
    .error (.logic_error "Build called on incomplete JSON")
  else if b.root_.IsNull then .error (.logic_error "No root node set")
  else pure (b.root_, { b with built_ := true })

/-- One call on a builder, through the builder itself or through one of its contexts. -/
inductive Op where
  | Value (value : Node)
  | Key (key : String)
  | StartDict
  | StartArray
  | EndDict
  | EndArray
deriving Repr

/-- The effect of one call. -/
def apply (b : Builder) : Op → Except Fault Builder
  | .Value value => b.Value value
  | .Key key => b.Key key
  | .StartDict => b.StartDict
  | .StartArray => b.StartArray
  | .EndDict => b.EndDict
  | .EndArray => b.EndArray

/-- A sequence of calls on a fresh builder followed by `Build`: the node returned, or
the first fault. -/
def run (ops : List Op) : Except Fault Node := do
  let b ← ops.foldlM apply {}
  let result ← b.Build
  pure result.1

end Builder

end json

namespace JsonReader

open json transport

/-- The loop body of the `Route` branch of `ParsingStatRequests` for one item. -/
def routeItemToJson (b : Builder) (item : RouteItem) : Except Fault Builder :=
  if item.type = .WAIT then do
    let b ← b.StartDict
    let b ← b.Key "type"
    let b ← b.Value (.string "Wait")
    let b ← b.Key "stop_name"
    let b ← b.Value (.string item.stop_name)
    let b ← b.Key "time"
    let b ← b.Value (.double item.time)
    b.EndDict
  else do
    let b ← b.StartDict
    let b ← b.Key "type"
    let b ← b.Value (.string "Bus")
    let b ← b.Key "bus"
    let b ← b.Value (.string item.bus_name)
    let b ← b.Key "span_count"
    let b ← b.Value (.int item.span_count)
    let b ← b.Key "time"
    let b ← b.Value (.double item.time)
    b.EndDict

/-- The part of the `Route` branch of `ParsingStatRequests` that follows the call of
`FindRoute`: the response built from the optional `route_info`. -/
def routeResponse (b : Builder) (request_id : Int) (route_info : Option RouteInfo) :
    Except Fault Builder :=
  match route_info with
  | some info => do
    let b ← b.StartDict
    let b ← b.Key "request_id"
    let b ← b.Value (.int request_id)
    let b ← b.Key "total_time"
    let b ← b.Value (.double info.total_time)
    let b ← b.Key "items"
    let b ← b.StartArray
    let b ← info.items.foldlM routeItemToJson b
    let b ← b.EndArray
    b.EndDict
  | none => do
    let b ← b.StartDict
    let b ← b.Key "request_id"
    let b ← b.Value (.int request_id)
    let b ← b.Key "error_message"
    let b ← b.Value (.string "not found")
    b.EndDict

/-- The `Route` branch of `ParsingStatRequests`. -/
def processRouteRequest (router : TransportRouter) (b : Builder) (request_id : Int)
    (from_ to_ : String) : Except Fault Builder := do
  let route_info ← router.FindRoute from_ to_
  routeResponse b request_id route_info

/-- The handler `ParsingStatRequests` on an array of `Route` requests, each given by
its `id`, `from` and `to`: the document it returns. -/
def ParsingRouteRequests (router : TransportRouter)
    (stat_requests : List (Int × String × String)) : Except Fault Node := do
  let b ← ({} : Builder).StartArray
  let b ← stat_requests.foldlM
    (fun b request => processRouteRequest router b request.1 request.2.1 request.2.2) b
  let b ← b.EndArray
  let (root, _) ← b.Build
  pure root

end JsonReader

namespace transport

open transport_catalogue graph

/-- The edges that the graph of the router `after` has beyond those of `before`. -/
def generatedEdges (before after : TransportRouter) : List Edge :=
  match before.graph_, after.graph_ with
  | some g, some g' => g'.edges_.drop g.edges_.length
  | _, _ => []

end transport

/-! ## Loading of the base requests and invariants of the catalogue -/

namespace transport_catalogue

/-- Every pointer registered in `stopname_to_stop_` designates a stop of `stops_` that
has the name it is registered under. -/
def NamesValid (cat : TransportCatalogue) : Prop :=
  ∀ entry ∈ cat.stopname_to_stop_, (cat.stops_[entry.2]?).map Stop.name = some entry.1

end transport_catalogue

namespace JsonReader

open transport_catalogue

/-- A base request as `ParsingBaseRequests` reads it: a `Stop` request with its name,
coordinates and, when the key is present, its `road_distances` (the entries of the
dict in iteration order); a `Bus` request with its name, stop names and roundtrip
flag; a request of any other type. -/
inductive BaseRequest where
  | Stop (name : String) (latitude longitude : ℚ)
      (road_distances : Option (List (String × Int)))
  | Bus (name : String) (stops : List String) (is_roundtrip : Bool)
  | Other (type : String)
deriving DecidableEq, Repr

def ProcessStop (c : TransportCatalogue) (name : String) (latitude longitude : ℚ) :
    TransportCatalogue :=
  c.AddStop name { lat := latitude, lng := longitude }

/-- The function `ProcessRoadDistances` on the name and the `road_distances` of a
`Stop` request. -/
def ProcessRoadDistances (c : TransportCatalogue) (name : String)
    (road_distances : List (String × Int)) : TransportCatalogue :=
  let from_stop := c.FindStop name
  road_distances.foldl
    (fun c kv =>
      match from_stop, c.FindStop kv.1 with
      | some from_, some to_ => c.SetDistance from_ to_ kv.2
      | _, _ => c)
    c

/-- The table entries of the road distances of a `Stop` request whose source name and
destination name are both known to `FindStop`, in the order of the request. -/
def knownDistances (c : TransportCatalogue) (name : String)
    (road_distances : List (String × Int)) : List ((Nat × Nat) × Int) :=
  road_distances.filterMap (fun kv =>
    match c.FindStop name, c.FindStop kv.1 with
    | some from_, some to_ => some ((from_, to_), kv.2)
    | _, _ => none)

def ProcessBus (c : TransportCatalogue) (name : String) (stops : List String)
    (is_roundtrip : Bool) : TransportCatalogue :=
  c.AddBus name stops is_roundtrip

/-- The first loop of `ParsingBaseRequests`: stops are added at once, the requests with
road distances and the bus requests are put aside in order. -/
def collectRequests :
    TransportCatalogue × List (String × List (String × Int)) ×
        List (String × List String × Bool) →
      BaseRequest →
      TransportCatalogue × List (String × List (String × Int)) ×
        List (String × List String × Bool)
  | (c, stops_with_distances, buses), .Stop name latitude longitude road_distances =>
    let c := ProcessStop c name latitude longitude
    match road_distances with
    | some d => (c, stops_with_distances ++ [(name, d)], buses)
    | none => (c, stops_with_distances, buses)
  | (c, stops_with_distances, buses), .Bus name stops is_roundtrip =>
    (c, stops_with_distances, buses ++ [(name, stops, is_roundtrip)])
  | st, .Other _ => st

def ParsingBaseRequests (c : TransportCatalogue) (base_requests : List BaseRequest) :
    TransportCatalogue :=
  let st := base_requests.foldl collectRequests (c, [], [])
  let c := st.2.1.foldl (fun c request => ProcessRoadDistances c request.1 request.2) st.1
  st.2.2.foldl (fun c request => ProcessBus c request.1 request.2.1 request.2.2) c

end JsonReader

namespace transport

open transport_catalogue graph

/-- The item that the reconstruction owes to the edge with id `edge_id` of the graph
`g`: its time is the edge's weight; for a wait edge `2k → 2k+1` it is a `WAIT` item
with the name of stop `k`; for an edge from an odd vertex (to an even one) it is a
`BUS` item with the bus name and span count of the metadata entry recorded under the
edge's id. -/
def ItemOfEdge (cat : TransportCatalogue) (r : TransportRouter) (g : DirectedWeightedGraph)
    (edge_id : Nat) (item : RouteItem) : Prop :=
  ∃ edge, g.edges_[edge_id]? = some edge ∧ item.time = edge.weight ∧
    ((∃ k s, edge.from_ = 2 * k ∧ edge.to_ = 2 * k + 1 ∧ cat.stops_[k]? = some s ∧
        item.type = .WAIT ∧ item.stop_name = s.name) ∨
      (edge.from_ % 2 = 1 ∧ edge.to_ % 2 = 0 ∧
        ∃ info, mapFind edge_id r.edge_to_bus_info_ = some info ∧ item.type = .BUS ∧
          item.bus_name = info.bus_name ∧ item.span_count = info.span_count ∧
          info.time = edge.weight))

end transport

namespace transport_catalogue

/-- The number of values of `size_t`: its arithmetic is modulo `2 ^ 64`. -/
def SIZE_MODULUS : Nat := 18446744073709551616

structure BusInfo where
  stop_count : Nat := 0
  unique_stop_count : Nat := 0
  route_length : ℚ := 0
  geo_length : ℚ := 0
  curvature : ℚ := 0
  found : Bool := false
deriving DecidableEq, Repr

/-- The loop `for (size_t i = start; i > 0; --i) body(i)`. -/
def countDown {σ : Type} (body : Nat → σ → Except Fault σ) : Nat → σ → Except Fault σ
  | 0, st => pure st
  | i + 1, st => do
    let st ← body (i + 1) st
    countDown body i st

namespace TransportCatalogue

section
variable (ComputeDistance : Coordinates → Coordinates → ℚ)

/-- The body shared by the loops of `GetBusInfo`: reads positions `i` and `j` of the
stop list, adds `GetDistance(stops[i], stops[j])` to the `int road` and the geometric
distance of the two stops to `geo`. -/
def lengthStep (c : TransportCatalogue) (bus : Bus) (i j : Nat) (st : Int × ℚ) :
    Except Fault (Int × ℚ) := do
  let a ← vecAt bus.stops i
  let b ← vecAt bus.stops j
  let sa ← c.stopOf a
  let sb ← c.stopOf b
  pure (wrapInt32 (st.1 + c.GetDistance a b),
    st.2 + ComputeDistance sa.coordinates sb.coordinates)

/-- The loop `for (size_t i = 1; i < stops.size(); ++i)` of `GetBusInfo` (no round for
fewer than two stops). -/
def forwardLength (c : TransportCatalogue) (bus : Bus) (st : Int × ℚ) :
    Except Fault (Int × ℚ) :=
  (List.range' 1 (bus.stops.length - 1)).foldlM
    (fun st i => lengthStep ComputeDistance c bus (i - 1) i st) st

/-- The loop `for (size_t i = stops.size() - 1; i > 0; --i)` of `GetBusInfo`; the start
value is computed in `size_t`. -/
def backwardLength (c : TransportCatalogue) (bus : Bus) (st : Int × ℚ) :
    Except Fault (Int × ℚ) :=
  countDown (fun i st => lengthStep ComputeDistance c bus i (i - 1) st)
    ((bus.stops.length + SIZE_MODULUS - 1) % SIZE_MODULUS) st

/-- The values that the loops of `GetBusInfo` add to `road`, in the order in which
they are added: `GetDistance(stops[i - 1], stops[i])` for `i = 1 .. N - 1`, and for a
bus that is not a roundtrip then `GetDistance(stops[i], stops[i - 1])` for
`i = N - 1 .. 1`. -/
def roadTerms (c : TransportCatalogue) (bus : Bus) : List Int :=
  (List.range' 1 (bus.stops.length - 1)).map (fun i =>
      c.GetDistance (bus.stops.getD (i - 1) 0) (bus.stops.getD i 0)) ++
    if bus.is_roundtrip then []
    else (List.range' 1 (bus.stops.length - 1)).reverse.map (fun i =>
      c.GetDistance (bus.stops.getD i 0) (bus.stops.getD (i - 1) 0))

/-- The loops of `GetBusInfo` that accumulate `road` and `geo`, from `0` and `0.0`: the
forward loop for a roundtrip bus, the forward loop and then the backward loop for any
other bus. -/
def accumulateLengths (c : TransportCatalogue) (bus : Bus) : Except Fault (Int × ℚ) :=
  if bus.is_roundtrip then forwardLength ComputeDistance c bus ((0 : Int), (0 : ℚ))
  else do
    let st ← forwardLength ComputeDistance c bus ((0 : Int), (0 : ℚ))
    backwardLength ComputeDistance c bus st

/-- Query `GetBusInfo`: `none` stands for `std::nullopt`. -/
def GetBusInfo (c : TransportCatalogue) (bus_name : String) : Except Fault (Option BusInfo) :=
  match c.FindBus bus_name with
  | none => pure none
  | some p => do
    let bus ← vecAt c.buses_ p
    let st ← accumulateLengths ComputeDistance c bus
    pure (some
      { stop_count :=
          if bus.is_roundtrip then bus.stops.length
          else ((bus.stops.length * 2) % SIZE_MODULUS + SIZE_MODULUS - 1) % SIZE_MODULUS
        unique_stop_count := bus.stops.dedup.length
        route_length := (st.1 : ℚ)
        geo_length := st.2
        curvature := if st.2 > 0 then (st.1 : ℚ) / st.2 else 0 })

end

end TransportCatalogue

/-- A call of the populating interface of the catalogue: `AddStop`, `AddBus`, or
`SetDistance` on two stop pointers. -/
inductive CatalogueCall where
  | AddStop (name : String) (coord : Coordinates)
  | AddBus (name : String) (stop_names : List String) (is_roundtrip : Bool)
  | SetDistance (from_ to_ : Nat) (distance : Int)
deriving DecidableEq, Repr

def CatalogueCall.run (c : TransportCatalogue) : CatalogueCall → TransportCatalogue
  | .AddStop name coord => c.AddStop name coord
  | .AddBus name stop_names is_roundtrip => c.AddBus name stop_names is_roundtrip
  | .SetDistance from_ to_ distance => c.SetDistance from_ to_ distance

/-- The catalogue that a sequence of calls leaves, starting from the empty one. -/
def populate (calls : List CatalogueCall) : TransportCatalogue :=
  calls.foldl CatalogueCall.run {}

end transport_catalogue

namespace JsonReader

open transport_catalogue

/-- The test `type == "Stop"` on a request. -/
def BaseRequest.isStop : BaseRequest → Bool
  | .Stop _ _ _ _ => true
  | _ => false

/-- The test `type == "Bus"` on a request. -/
def BaseRequest.isBus : BaseRequest → Bool
  | .Bus _ _ _ => true
  | _ => false

/-- The effect of a request on the catalogue in the first loop of
`ParsingBaseRequests`: a `Stop` request adds its stop. -/
def BaseRequest.stopStep (c : TransportCatalogue) : BaseRequest → TransportCatalogue
  | .Stop name latitude longitude _ => ProcessStop c name latitude longitude
  | _ => c

/-- The entry that a request adds to `stops_with_distances`. -/
def BaseRequest.distancesOf : BaseRequest → Option (String × List (String × Int))
  | .Stop name _ _ (some d) => some (name, d)
  | _ => none

/-- The entry that a request adds to `buses`. -/
def BaseRequest.busOf : BaseRequest → Option (String × List String × Bool)
  | .Bus name stops is_roundtrip => some (name, stops, is_roundtrip)
  | _ => none

end JsonReader

/-! ## Concrete networks -/

namespace transport.Examples

open transport_catalogue graph

/-- A stand-in for the geometric distance of the missing `geo.h`: the taxicab distance
between the coordinates, in units of 100 km per degree. -/
def taxicab (a b : Coordinates) : ℚ :=
  (|a.lat - b.lat| + |a.lng - b.lng|) * 100000

/-- The network of the worked example: stops `A`, `B`, `C`, the roundtrip bus `1`
through them, and the road distances `A → B = 1000` and `B → C = 1000`. -/
def catABC : TransportCatalogue :=
  ((((({} : TransportCatalogue).AddStop "A" { lat := 0, lng := 0 }).AddStop "B"
    { lat := 0, lng := 1 }).AddStop "C" { lat := 0, lng := 2 }).SetDistance 0 1 1000
    |>.SetDistance 1 2 1000).AddBus "1" ["A", "B", "C"] true

/-- A router with the settings of the worked example, before any build. -/
def router5x60 : TransportRouter :=
  { settings_ := { bus_wait_time := 5, bus_velocity := 60 } }

/-- A network whose roundtrip bus `2` returns to its first stop: stops `A`, `B` and
the stop list `A, B, A`. -/
def catABA : TransportCatalogue :=
  ((({} : TransportCatalogue).AddStop "A" { lat := 0, lng := 0 }).AddStop "B"
    { lat := 0, lng := 1 }).AddBus "2" ["A", "B", "A"] true

/-- A network with the linear bus `3` through `A`, `B`, `C` and road distances that
differ with the direction: `A → B = 1000`, `B → A = 2000`, `B → C = 3000`. -/
def catLinear : TransportCatalogue :=
  (((((({} : TransportCatalogue).AddStop "A" { lat := 0, lng := 0 }).AddStop "B"
    { lat := 0, lng := 1 }).AddStop "C" { lat := 0, lng := 2 }).SetDistance 0 1 1000
    |>.SetDistance 1 0 2000) |>.SetDistance 1 2 3000).AddBus "3" ["A", "B", "C"] false

/-- A network in which the road distance `X → Y` is recorded as `0`: stops `X`, `Y`
one degree apart and the roundtrip bus `4` from `X` to `Y`. -/
def catZero : TransportCatalogue :=
  (((({} : TransportCatalogue).AddStop "X" { lat := 0, lng := 0 }).AddStop "Y"
    { lat := 0, lng := 1 }).SetDistance 0 1 0).AddBus "4" ["X", "Y"] true

/-- The linear bus `3` as `catLinear` stores it. -/
def bus3 : Bus := { name := "3", stops := [0, 1, 2], is_roundtrip := false }

/-- A router with default-constructed settings (`bus_wait_time = 0`,
`bus_velocity = 0`), before any build. -/
def routerDefault : TransportRouter :=
  { settings_ := {} }

/-- A network with buses of every size: the roundtrip bus `1` through `A`, `B`, `C`,
the linear bus `5` whose only stop name is unknown (no stop stored), the linear bus
`6` through `A`, `B` and the roundtrip bus `7` with the single stop `A`. -/
def catMixed : TransportCatalogue :=
  ((((((({} : TransportCatalogue).AddStop "A" { lat := 0, lng := 0 }).AddStop "B"
    { lat := 0, lng := 1 }).AddStop "C" { lat := 0, lng := 2 }).AddBus "1" ["A", "B", "C"]
    true).AddBus "5" ["Z"] false).AddBus "6" ["A", "B"] false).AddBus "7" ["A"] true

/-- A network with a long road: stops `A`, `B`, the road distance
`A → B = 2000000000` and the linear bus `8` through `A`, `B`. -/
def catFar : TransportCatalogue :=
  (((({} : TransportCatalogue).AddStop "A" { lat := 0, lng := 0 }).AddStop "B"
    { lat := 0, lng := 1 }).SetDistance 0 1 2000000000).AddBus "8" ["A", "B"] false

/-- The calls that populate `catMixed`. -/
def callsMixed : List CatalogueCall :=
  [.AddStop "A" { lat := 0, lng := 0 }, .AddStop "B" { lat := 0, lng := 1 },
   .AddStop "C" { lat := 0, lng := 2 }, .AddBus "1" ["A", "B", "C"] true,
   .AddBus "5" ["Z"] false, .AddBus "6" ["A", "B"] false, .AddBus "7" ["A"] true]

/-- A network of two stops `A`, `B` without any bus. -/
def catStops : TransportCatalogue :=
  (({} : TransportCatalogue).AddStop "A" { lat := 0, lng := 0 }).AddStop "B"
    { lat := 0, lng := 1 }

end transport.Examples

/-! ## Lemmas on the embedding -/

namespace transport

open transport_catalogue graph

theorem registerStops_eq (all_stops : List Stop) (r : TransportRouter) :
    TransportRouter.registerStops r all_stops =
      { r with
        stop_ids_ := stopIds r.stops_.length all_stops r.stop_ids_
        stops_ := r.stops_ ++ all_stops.map Stop.name } := by
  induction all_stops generalizing r with
  | nil => simp [TransportRouter.registerStops, stopIds]
  | cons s ss ih =>
    have := ih { r with
        stop_ids_ := mapAssign r.stop_ids_ s.name r.stops_.length
        stops_ := r.stops_ ++ [s.name] }
    simp only [TransportRouter.registerStops, List.foldl_cons] at this ⊢
    rw [this]
    simp [stopIds, mapAssign]

theorem addWaitEdges_eq (w : ℚ) (n : Nat) (g : DirectedWeightedGraph) :
    TransportRouter.addWaitEdges w g n =
      { g with edges_ := g.edges_ ++ waitEdges w n } := by
  induction n with
  | zero => simp [TransportRouter.addWaitEdges, waitEdges]
  | succ n ih =>
    simp only [TransportRouter.addWaitEdges, waitEdges] at ih ⊢
    rw [List.range_succ, List.foldl_append, ih]
    simp [DirectedWeightedGraph.AddEdge]

theorem InitializeStops_eq (settings : RoutingSettings) (cat : TransportCatalogue) :
    TransportRouter.InitializeStops cat { settings_ := settings } =
      routerWith settings cat [] := by
  simp [TransportRouter.InitializeStops, registerStops_eq, addWaitEdges_eq, routerWith,
    TransportCatalogue.GetStops, infoTable]

theorem stopIds_find_some (name : String) (a : Nat) :
    ∀ (ss : List Stop) (k : Nat) (acc : List (String × Nat)),
      mapFind name (stopIds k ss acc) = some a →
        mapFind name acc = some a ∨
          (k ≤ a ∧ a < k + ss.length ∧ ∃ s, ss[a - k]? = some s ∧ s.name = name) := by
  intro ss
  induction ss with
  | nil => intro k acc h; exact Or.inl h
  | cons s ss ih =>
    intro k acc h
    rcases ih (k + 1) ((s.name, k) :: acc) h with h1 | ⟨h1, h2, t, h3, h4⟩
    · simp only [mapFind] at h1
      split at h1
      · rename_i hn
        right
        simp only [Option.some.injEq] at h1
        subst h1
        exact ⟨le_refl _, by simp, s, by simp, hn⟩
      · exact Or.inl h1
    · right
      refine ⟨by omega, by simp only [List.length_cons]; omega, t, ?_, h4⟩
      have : a - k = (a - (k + 1)) + 1 := by omega
      rw [this, List.getElem?_cons_succ]
      exact h3

theorem stopIds_find_isSome (name : String) :
    ∀ (ss : List Stop) (k : Nat) (acc : List (String × Nat)),
      ((mapFind name acc).isSome ∨ ∃ s ∈ ss, s.name = name) →
        (mapFind name (stopIds k ss acc)).isSome := by
  intro ss
  induction ss with
  | nil =>
    intro k acc h
    rcases h with h | ⟨s, hs, _⟩
    · exact h
    · cases hs
  | cons s ss ih =>
    intro k acc h
    apply ih (k + 1) ((s.name, k) :: acc)
    by_cases hn : s.name = name
    · left; simp [mapFind, hn]
    · rcases h with h | ⟨t, ht, htn⟩
      · left; simp [mapFind, hn, h]
      · rcases List.mem_cons.1 ht with rfl | ht
        · exact absurd htn hn
        · exact Or.inr ⟨t, ht, htn⟩

/-- Every id of the stop index table is the position of a stop with that name. -/
theorem stopIds_bound (stops : List Stop) (name : String) (a : Nat)
    (h : mapFind name (stopIds 0 stops []) = some a) :
    a < stops.length ∧ ∃ s, stops[a]? = some s ∧ s.name = name := by
  rcases stopIds_find_some name a stops 0 [] h with h1 | ⟨_, h2, s, h3, h4⟩
  · simp [mapFind] at h1
  · exact ⟨by omega, s, by simpa using h3, h4⟩

/-- Every stop of the catalogue has an id in the stop index table. -/
theorem stopIds_mem (stops : List Stop) (s : Stop) (hs : s ∈ stops) :
    ∃ a, mapFind s.name (stopIds 0 stops []) = some a ∧ a < stops.length := by
  have h := stopIds_find_isSome s.name stops 0 [] (Or.inr ⟨s, hs, rfl⟩)
  rcases Option.isSome_iff_exists.1 h with ⟨a, ha⟩
  exact ⟨a, ha, (stopIds_bound stops s.name a ha).1⟩

theorem mapFind_enumFrom_reverse {ν : Type} (xs : List ν) (n e : Nat) :
    mapFind e (xs.enumFrom n).reverse = if n ≤ e then xs[e - n]? else none := by
  induction xs using List.reverseRecOn with
  | nil => simp [mapFind]
  | append_singleton xs x ih =>
    rw [List.enumFrom_append, List.reverse_append]
    simp only [List.enumFrom_singleton, List.reverse_cons, List.reverse_nil, List.nil_append,
      List.singleton_append, mapFind]
    split
    · rename_i he
      have : n ≤ e := by omega
      simp only [this, if_true]
      have h2 : e - n = xs.length := by omega
      rw [h2]; simp
    · rename_i he
      show mapFind e (List.enumFrom n xs).reverse = _
      rw [ih]
      split
      · rename_i hle
        by_cases hlt : e - n < xs.length
        · rw [List.getElem?_append_left hlt]
        · have : xs.length < e - n := by omega
          rw [List.getElem?_eq_none (by omega), List.getElem?_eq_none (by simp; omega)]
      · rfl

theorem infoTable_find (n : Nat) (L : List (Edge × BusEdge)) (e : Nat) :
    mapFind e (infoTable n L) = if n ≤ e then (L.map Prod.snd)[e - n]? else none :=
  mapFind_enumFrom_reverse _ n e

theorem vecAt_ok {α : Type} (v : List α) (i : Nat) (d : α) (h : i < v.length) :
    vecAt v i = .ok (v.getD i d) := by
  rw [List.getD_eq_getElem _ _ h]
  simp [vecAt, List.getElem?_eq_getElem h]

theorem stopOf_ok (cat : TransportCatalogue) (p : Nat) (h : p < cat.stops_.length) :
    cat.stopOf p = .ok (cat.stops_.getD p default) :=
  vecAt_ok _ _ _ h

theorem getD_mem_of_lt {α : Type} (v : List α) (i : Nat) (d : α) (h : i < v.length) :
    v.getD i d ∈ v := by
  rw [List.getD_eq_getElem _ _ h]
  exact List.getElem_mem h

theorem mapAt_stopIds (stops : List Stop) (s : Stop) (hs : s ∈ stops) :
    mapAt (stopIds 0 stops []) s.name = .ok (idOf (stopIds 0 stops []) s.name) := by
  rcases stopIds_mem stops s hs with ⟨a, ha, _⟩
  simp [mapAt, idOf, ha]

theorem waitEdges_length (w : ℚ) (n : Nat) : (waitEdges w n).length = n := by
  simp [waitEdges]

theorem infoTable_snoc (n : Nat) (L : List (Edge × BusEdge)) (x : Edge × BusEdge) :
    infoTable n (L ++ [x]) = (n + L.length, x.2) :: infoTable n L := by
  simp [infoTable, List.enumFrom_append]

/-- The stop that position `i` of a bus points to is a stop of the catalogue. -/
theorem stopAt_mem (cat : TransportCatalogue) (bus : Bus) (i : Nat)
    (hv : ∀ p ∈ bus.stops, p < cat.stops_.length) (hi : i < bus.stops.length) :
    stopAt cat bus i ∈ cat.stops_ :=
  getD_mem_of_lt _ _ _ (hv _ (getD_mem_of_lt _ _ _ hi))

theorem addTravelEdge_routerWith (settings : RoutingSettings) (cat : TransportCatalogue)
    (bus : Bus) (i j : Nat) (span : Int) (total : Int) (L : List (Edge × BusEdge))
    (hv : ∀ p ∈ bus.stops, p < cat.stops_.length)
    (hi : i < bus.stops.length) (hj : j < bus.stops.length) :
    TransportRouter.addTravelEdge cat bus i j span total (routerWith settings cat L) =
      .ok (routerWith settings cat
        (L ++ [travelEdge (stopIds 0 cat.stops_ []) settings.bus_velocity cat bus i j
          span total])) := by
  have hpi := hv _ (getD_mem_of_lt bus.stops i 0 hi)
  have hpj := hv _ (getD_mem_of_lt bus.stops j 0 hj)
  have hsi := mapAt_stopIds cat.stops_ _ (stopAt_mem cat bus i hv hi)
  have hsj := mapAt_stopIds cat.stops_ _ (stopAt_mem cat bus j hv hj)
  simp only [stopAt] at hsi hsj
  simp only [TransportRouter.addTravelEdge, vecAt_ok bus.stops i 0 hi,
    vecAt_ok bus.stops j 0 hj, stopOf_ok cat _ hpi, stopOf_ok cat _ hpj, routerWith,
    bind, Except.bind, hsi, hsj, derefPtr, pure, Except.pure, DirectedWeightedGraph.AddEdge,
    travelEdge, stopAt, mapAssign, infoTable_snoc, List.length_append, waitEdges_length,
    List.length_map, List.map_append, List.map_cons, List.map_nil, List.append_assoc]

section
variable (ComputeDistance : Coordinates → Coordinates → ℚ)

theorem segmentDistance_ok (cat : TransportCatalogue) (a b : Nat)
    (ha : a < cat.stops_.length) (hb : b < cat.stops_.length) :
    TransportRouter.segmentDistance ComputeDistance cat a b =
      .ok (seg ComputeDistance cat a b) := by
  simp only [TransportRouter.segmentDistance, seg, stopOf_ok cat a ha, stopOf_ok cat b hb]
  split <;> rfl

theorem fwdDist_self (cat : TransportCatalogue) (bus : Bus) (i : Nat) :
    fwdDist ComputeDistance cat bus i i = 0 := by
  simp [fwdDist]

theorem fwdDist_succ (cat : TransportCatalogue) (bus : Bus) (i j : Nat) (h : i < j) :
    fwdDist ComputeDistance cat bus i j =
      fwdDist ComputeDistance cat bus i (j - 1) +
        seg ComputeDistance cat (bus.stops.getD (j - 1) 0) (bus.stops.getD j 0) := by
  have h1 : j - i = (j - 1 - i) + 1 := by omega
  simp only [fwdDist]
  rw [h1, List.range'_concat]
  have h2 : i + 1 + 1 * (j - 1 - i) = j := by omega
  rw [h2]
  simp

theorem bwdDist_self (cat : TransportCatalogue) (bus : Bus) (i : Nat) :
    bwdDist ComputeDistance cat bus i i = 0 := by
  simp [bwdDist]

theorem bwdDist_pred (cat : TransportCatalogue) (bus : Bus) (i j : Nat) (h : j < i) :
    bwdDist ComputeDistance cat bus i j =
      bwdDist ComputeDistance cat bus i (j + 1) +
        seg ComputeDistance cat (bus.stops.getD (j + 1) 0) (bus.stops.getD j 0) := by
  have h1 : i - j = (i - (j + 1)) + 1 := by omega
  simp only [bwdDist]
  rw [h1, List.range'_succ]
  simp [add_comm]

theorem forwardStep_routerWith (settings : RoutingSettings) (cat : TransportCatalogue)
    (bus : Bus) (i j : Nat) (L : List (Edge × BusEdge))
    (hv : ∀ p ∈ bus.stops, p < cat.stops_.length)
    (hij : i < j) (hj : j < bus.stops.length) :
    TransportRouter.forwardStep ComputeDistance cat bus i
        (fwdDist ComputeDistance cat bus i (j - 1), routerWith settings cat L) j =
      .ok (fwdDist ComputeDistance cat bus i j,
        routerWith settings cat
          (L ++ [fwdEdge ComputeDistance (stopIds 0 cat.stops_ []) settings.bus_velocity
            cat bus i j])) := by
  have hj1 : j - 1 < bus.stops.length := by omega
  have hp1 := hv _ (getD_mem_of_lt bus.stops (j - 1) 0 hj1)
  have hp2 := hv _ (getD_mem_of_lt bus.stops j 0 hj)
  simp only [TransportRouter.forwardStep, vecAt_ok bus.stops (j - 1) 0 hj1,
    vecAt_ok bus.stops j 0 hj, bind, Except.bind,
    segmentDistance_ok ComputeDistance cat _ _ hp1 hp2,
    addTravelEdge_routerWith settings cat bus i j _ _ L hv (by omega) hj,
    ← fwdDist_succ ComputeDistance cat bus i j hij, pure, Except.pure, fwdEdge]

theorem backwardStep_routerWith (settings : RoutingSettings) (cat : TransportCatalogue)
    (bus : Bus) (i j : Nat) (L : List (Edge × BusEdge))
    (hv : ∀ p ∈ bus.stops, p < cat.stops_.length)
    (hji : j < i) (hi : i < bus.stops.length) :
    TransportRouter.backwardStep ComputeDistance cat bus i
        (bwdDist ComputeDistance cat bus i (j + 1), routerWith settings cat L) j =
      .ok (bwdDist ComputeDistance cat bus i j,
        routerWith settings cat
          (L ++ [bwdEdge ComputeDistance (stopIds 0 cat.stops_ []) settings.bus_velocity
            cat bus i j])) := by
  have hj1 : j + 1 < bus.stops.length := by omega
  have hj : j < bus.stops.length := by omega
  have hp1 := hv _ (getD_mem_of_lt bus.stops (j + 1) 0 hj1)
  have hp2 := hv _ (getD_mem_of_lt bus.stops j 0 hj)
  simp only [TransportRouter.backwardStep, vecAt_ok bus.stops (j + 1) 0 hj1,
    vecAt_ok bus.stops j 0 hj, bind, Except.bind,
    segmentDistance_ok ComputeDistance cat _ _ hp1 hp2,
    addTravelEdge_routerWith settings cat bus i j _ _ L hv hi hj,
    ← bwdDist_pred ComputeDistance cat bus i j hji, pure, Except.pure, bwdEdge]

theorem forwardInner_routerWith (settings : RoutingSettings) (cat : TransportCatalogue)
    (bus : Bus) (i : Nat) (hv : ∀ p ∈ bus.stops, p < cat.stops_.length) :
    ∀ (m j : Nat) (L : List (Edge × BusEdge)), i < j → j + m ≤ bus.stops.length →
      (List.range' j m).foldlM (TransportRouter.forwardStep ComputeDistance cat bus i)
          (fwdDist ComputeDistance cat bus i (j - 1), routerWith settings cat L) =
        .ok (fwdDist ComputeDistance cat bus i (j + m - 1),
          routerWith settings cat
            (L ++ (List.range' j m).map
              (fwdEdge ComputeDistance (stopIds 0 cat.stops_ []) settings.bus_velocity
                cat bus i))) := by
  intro m
  induction m with
  | zero => intro j L _ _; simp [pure, Except.pure]
  | succ m ih =>
    intro j L hij hjm
    rw [List.range'_succ, List.foldlM_cons,
      forwardStep_routerWith ComputeDistance settings cat bus i j L hv hij (by omega)]
    have := ih (j + 1) (L ++ [fwdEdge ComputeDistance (stopIds 0 cat.stops_ [])
      settings.bus_velocity cat bus i j]) (by omega) (by omega)
    simp only [Nat.add_sub_cancel] at this
    simp only [bind, Except.bind]
    rw [this]
    have h3 : j + 1 + m - 1 = j + (m + 1) - 1 := by omega
    simp [h3]

theorem backwardInner_routerWith (settings : RoutingSettings) (cat : TransportCatalogue)
    (bus : Bus) (i : Nat) (hv : ∀ p ∈ bus.stops, p < cat.stops_.length)
    (hi : i < bus.stops.length) :
    ∀ (m : Nat) (L : List (Edge × BusEdge)), m ≤ i →
      (List.range m).reverse.foldlM (TransportRouter.backwardStep ComputeDistance cat bus i)
          (bwdDist ComputeDistance cat bus i m, routerWith settings cat L) =
        .ok (bwdDist ComputeDistance cat bus i 0,
          routerWith settings cat
            (L ++ (List.range m).reverse.map
              (bwdEdge ComputeDistance (stopIds 0 cat.stops_ []) settings.bus_velocity
                cat bus i))) := by
  intro m
  induction m with
  | zero => intro L _; simp [pure, Except.pure]
  | succ m ih =>
    intro L hm
    rw [List.range_succ, List.reverse_append, List.reverse_singleton, List.singleton_append,
      List.foldlM_cons,
      backwardStep_routerWith ComputeDistance settings cat bus i m L hv (by omega) hi]
    simp only [bind, Except.bind]
    rw [ih _ (by omega)]
    simp

end

section
variable (ComputeDistance : Coordinates → Coordinates → ℚ)

theorem forwardOuter_routerWith (settings : RoutingSettings) (cat : TransportCatalogue)
    (bus : Bus) (hv : ∀ p ∈ bus.stops, p < cat.stops_.length) :
    ∀ (is : List Nat) (L : List (Edge × BusEdge)), (∀ i ∈ is, i < bus.stops.length) →
      is.foldlM
          (fun r i => do
            let st ← (List.range' (i + 1) (bus.stops.length - (i + 1))).foldlM
              (TransportRouter.forwardStep ComputeDistance cat bus i) ((0 : Int), r)
            pure st.2)
          (routerWith settings cat L) =
        .ok (routerWith settings cat
          (L ++ is.flatMap (fun i =>
            (List.range' (i + 1) (bus.stops.length - (i + 1))).map
              (fwdEdge ComputeDistance (stopIds 0 cat.stops_ []) settings.bus_velocity
                cat bus i)))) := by
  intro is
  induction is with
  | nil => intro L _; simp [pure, Except.pure]
  | cons i is ih =>
    intro L h
    have hi : i < bus.stops.length := h i (List.mem_cons_self _ _)
    have hin := forwardInner_routerWith ComputeDistance settings cat bus i hv
      (bus.stops.length - (i + 1)) (i + 1) L (by omega) (by omega)
    simp only [Nat.add_sub_cancel, fwdDist_self] at hin
    rw [List.foldlM_cons]
    simp only [bind, Except.bind, hin, pure, Except.pure]
    have := ih (L ++ (List.range' (i + 1) (bus.stops.length - (i + 1))).map
      (fwdEdge ComputeDistance (stopIds 0 cat.stops_ []) settings.bus_velocity cat bus i))
      (fun k hk => h k (List.mem_cons_of_mem _ hk))
    simp only [bind, Except.bind, pure, Except.pure] at this
    rw [this]
    simp

theorem backwardOuter_routerWith (settings : RoutingSettings) (cat : TransportCatalogue)
    (bus : Bus) (hv : ∀ p ∈ bus.stops, p < cat.stops_.length) :
    ∀ (is : List Nat) (L : List (Edge × BusEdge)), (∀ i ∈ is, i < bus.stops.length) →
      is.foldlM
          (fun r i => do
            let st ← (List.range i).reverse.foldlM
              (TransportRouter.backwardStep ComputeDistance cat bus i) ((0 : Int), r)
            pure st.2)
          (routerWith settings cat L) =
        .ok (routerWith settings cat
          (L ++ is.flatMap (fun i =>
            (List.range i).reverse.map
              (bwdEdge ComputeDistance (stopIds 0 cat.stops_ []) settings.bus_velocity
                cat bus i)))) := by
  intro is
  induction is with
  | nil => intro L _; simp [pure, Except.pure]
  | cons i is ih =>
    intro L h
    have hi : i < bus.stops.length := h i (List.mem_cons_self _ _)
    have hin := backwardInner_routerWith ComputeDistance settings cat bus i hv hi i L
      (le_refl _)
    simp only [bwdDist_self] at hin
    rw [List.foldlM_cons]
    simp only [bind, Except.bind, hin, pure, Except.pure]
    have := ih (L ++ (List.range i).reverse.map
      (bwdEdge ComputeDistance (stopIds 0 cat.stops_ []) settings.bus_velocity cat bus i))
      (fun k hk => h k (List.mem_cons_of_mem _ hk))
    simp only [bind, Except.bind, pure, Except.pure] at this
    rw [this]
    simp

theorem forwardLoops_routerWith (settings : RoutingSettings) (cat : TransportCatalogue)
    (bus : Bus) (hv : ∀ p ∈ bus.stops, p < cat.stops_.length) (L : List (Edge × BusEdge)) :
    TransportRouter.forwardLoops ComputeDistance cat bus (routerWith settings cat L) =
      .ok (routerWith settings cat
        (L ++ fwdList ComputeDistance (stopIds 0 cat.stops_ []) settings.bus_velocity
          cat bus)) :=
  forwardOuter_routerWith ComputeDistance settings cat bus hv _ L
    (fun _ hi => List.mem_range.1 hi)

theorem backwardLoops_routerWith (settings : RoutingSettings) (cat : TransportCatalogue)
    (bus : Bus) (hv : ∀ p ∈ bus.stops, p < cat.stops_.length) (L : List (Edge × BusEdge)) :
    TransportRouter.backwardLoops ComputeDistance cat bus (routerWith settings cat L) =
      .ok (routerWith settings cat
        (L ++ bwdList ComputeDistance (stopIds 0 cat.stops_ []) settings.bus_velocity
          cat bus)) :=
  backwardOuter_routerWith ComputeDistance settings cat bus hv _ L
    (fun i hi => by
      rcases List.mem_range'.1 (List.mem_reverse.1 hi) with ⟨k, hk, rfl⟩
      omega)

theorem processBus_routerWith (settings : RoutingSettings) (cat : TransportCatalogue)
    (bus : Bus) (hv : ∀ p ∈ bus.stops, p < cat.stops_.length) (L : List (Edge × BusEdge)) :
    (if bus.stops.isEmpty then (pure (routerWith settings cat L) : Except Fault TransportRouter)
      else if bus.is_roundtrip then
        TransportRouter.ProcessRoundTripBus ComputeDistance cat bus (routerWith settings cat L)
      else
        TransportRouter.ProcessLinearBus ComputeDistance cat bus (routerWith settings cat L)) =
      .ok (routerWith settings cat
        (L ++ busList ComputeDistance (stopIds 0 cat.stops_ []) settings.bus_velocity
          cat bus)) := by
  unfold busList
  by_cases he : bus.stops.isEmpty = true
  · simp [he, pure, Except.pure]
  · by_cases hr : bus.is_roundtrip = true
    · simp only [he, hr, if_true, Bool.false_eq_true, if_false,
        TransportRouter.ProcessRoundTripBus,
        forwardLoops_routerWith ComputeDistance settings cat bus hv L]
    · simp only [he, hr, Bool.false_eq_true, if_false, TransportRouter.ProcessLinearBus,
        forwardLoops_routerWith ComputeDistance settings cat bus hv L, bind, Except.bind,
        backwardLoops_routerWith ComputeDistance settings cat bus hv, List.append_assoc]

theorem processBuses_routerWith (settings : RoutingSettings) (cat : TransportCatalogue) :
    ∀ (buses : List Bus) (L : List (Edge × BusEdge)),
      (∀ bus ∈ buses, ∀ p ∈ bus.stops, p < cat.stops_.length) →
      buses.foldlM
          (fun r bus =>
            if bus.stops.isEmpty then (pure r : Except Fault TransportRouter)
            else if bus.is_roundtrip then
              TransportRouter.ProcessRoundTripBus ComputeDistance cat bus r
            else TransportRouter.ProcessLinearBus ComputeDistance cat bus r)
          (routerWith settings cat L) =
        .ok (routerWith settings cat
          (L ++ buses.flatMap
            (busList ComputeDistance (stopIds 0 cat.stops_ []) settings.bus_velocity cat))) := by
  intro buses
  induction buses with
  | nil => intro L _; simp [pure, Except.pure]
  | cons bus buses ih =>
    intro L h
    rw [List.foldlM_cons,
      processBus_routerWith ComputeDistance settings cat bus (h bus (List.mem_cons_self _ _)) L]
    simp only [bind, Except.bind]
    rw [ih _ (fun b hb => h b (List.mem_cons_of_mem _ hb))]
    simp

/-- The exact result of `BuildGraph`: it never faults on a catalogue with valid stop
pointers, and its result depends on the settings and the catalogue only. -/
theorem BuildGraph_eq (cat : TransportCatalogue) (r : TransportRouter)
    (hv : PointersValid cat) :
    TransportRouter.BuildGraph ComputeDistance cat r =
      .ok (builtRouter ComputeDistance r.settings_ cat) := by
  have h0 := InitializeStops_eq r.settings_ cat
  have h1 := processBuses_routerWith ComputeDistance r.settings_ cat cat.buses_ [] hv
  simp only [List.nil_append] at h1
  simp only [TransportRouter.BuildGraph, TransportRouter.ProcessBusRoutes,
    TransportCatalogue.GetBuses, bind, Except.bind]
  rw [h0, h1]
  rfl

end

end transport

/-! ## The shortest-path solver -/

namespace graph

theorem IsPath_append (g : DirectedWeightedGraph) (v w : Nat) (q : List Nat) :
    ∀ (p : List Nat) (u : Nat), IsPath g u v p → IsPath g v w q → IsPath g u w (p ++ q) := by
  intro p
  induction p with
  | nil => intro u h1 h2; simp only [IsPath] at h1; subst h1; simpa using h2
  | cons e es ih =>
    intro u h1 h2
    rcases h1 with ⟨ed, h3, h4, h5⟩
    exact ⟨ed, h3, h4, ih _ h5 h2⟩

theorem pathWeight_append (g : DirectedWeightedGraph) (p q : List Nat) :
    pathWeight g (p ++ q) = pathWeight g p + pathWeight g q := by
  simp [pathWeight]

theorem pathWeight_cons (g : DirectedWeightedGraph) (e : Nat) (ed : Edge) (p : List Nat)
    (h : g.edges_[e]? = some ed) : pathWeight g (e :: p) = ed.weight + pathWeight g p := by
  simp [pathWeight, h]

theorem pathWeight_nonneg (g : DirectedWeightedGraph) (hw : ∀ e ∈ g.edges_, 0 ≤ e.weight)
    (p : List Nat) : 0 ≤ pathWeight g p := by
  induction p with
  | nil => simp [pathWeight]
  | cons e es ih =>
    cases h : g.edges_[e]? with
    | none =>
      have : pathWeight g (e :: es) = pathWeight g es := by simp [pathWeight, h]
      rw [this]; exact ih
    | some ed =>
      rw [pathWeight_cons g e ed es h]
      have := hw ed (List.getElem?_mem h)
      linarith

theorem relaxOne_mono (u : Nat) (ru : RouteInfo) (k : Nat) (e : Edge)
    (lab : Nat → Option RouteInfo) (v : Nat) (r : RouteInfo) (h : lab v = some r) :
    ∃ r', relaxOne u ru k e lab v = some r' ∧ r'.weight ≤ r.weight := by
  unfold relaxOne
  by_cases hu : e.from_ = u
  · simp only [hu, if_true]
    cases hl : lab e.to_ with
    | none =>
      have hne : v ≠ e.to_ := by intro hv; rw [hv, hl] at h; cases h
      exact ⟨r, by simp [Function.update, hne, h], le_refl _⟩
    | some old =>
      simp only
      by_cases hc : ru.weight + e.weight < old.weight
      · simp only [hc, if_true]
        by_cases hv : v = e.to_
        · subst hv
          rw [hl] at h
          cases h
          exact ⟨{ weight := ru.weight + e.weight, edges := ru.edges ++ [k] },
            by simp [Function.update], le_of_lt hc⟩
        · exact ⟨r, by simp [Function.update, hv, h], le_refl _⟩
      · simp only [hc, if_false]
        exact ⟨r, h, le_refl _⟩
  · simp only [hu, if_false]
    exact ⟨r, h, le_refl _⟩

theorem relaxOne_origin (u : Nat) (ru : RouteInfo) (k : Nat) (e : Edge)
    (lab : Nat → Option RouteInfo) (v : Nat) (r' : RouteInfo)
    (h : relaxOne u ru k e lab v = some r') :
    lab v = some r' ∨
      (e.from_ = u ∧ e.to_ = v ∧
        r' = { weight := ru.weight + e.weight, edges := ru.edges ++ [k] } ∧
        ∀ r, lab v = some r → r'.weight < r.weight) := by
  unfold relaxOne at h
  by_cases hu : e.from_ = u
  · simp only [hu, if_true] at h
    cases hl : lab e.to_ with
    | none =>
      rw [hl] at h
      simp only at h
      by_cases hv : v = e.to_
      · subst hv
        simp only [Function.update_same, Option.some.injEq] at h
        right
        refine ⟨hu, rfl, h.symm, ?_⟩
        intro r hr
        rw [hl] at hr; cases hr
      · left; simpa [Function.update, hv] using h
    | some old =>
      rw [hl] at h
      simp only at h
      by_cases hc : ru.weight + e.weight < old.weight
      · simp only [hc, if_true] at h
        by_cases hv : v = e.to_
        · subst hv
          simp only [Function.update_same, Option.some.injEq] at h
          right
          refine ⟨hu, rfl, h.symm, ?_⟩
          intro r hr
          rw [hl] at hr
          cases hr
          rw [← h]; exact hc
        · left; simpa [Function.update, hv] using h
      · simp only [hc, if_false] at h
        exact Or.inl h
  · simp only [hu, if_false] at h
    exact Or.inl h

theorem relaxOne_relaxed (u : Nat) (ru : RouteInfo) (k : Nat) (e : Edge)
    (lab : Nat → Option RouteInfo) (hu : e.from_ = u) :
    ∃ r', relaxOne u ru k e lab e.to_ = some r' ∧ r'.weight ≤ ru.weight + e.weight := by
  unfold relaxOne
  simp only [hu, if_true]
  cases hl : lab e.to_ with
  | none =>
    exact ⟨{ weight := ru.weight + e.weight, edges := ru.edges ++ [k] },
      by simp [Function.update], le_refl _⟩
  | some old =>
    simp only
    by_cases hc : ru.weight + e.weight < old.weight
    · simp only [hc, if_true]
      exact ⟨{ weight := ru.weight + e.weight, edges := ru.edges ++ [k] },
        by simp [Function.update], le_refl _⟩
    · simp only [hc, if_false]
      exact ⟨old, hl, le_of_not_lt hc⟩

theorem relaxEdges_mono (u : Nat) (ru : RouteInfo) :
    ∀ (es : List Edge) (k : Nat) (lab : Nat → Option RouteInfo) (v : Nat) (r : RouteInfo),
      lab v = some r → ∃ r', relaxEdges u ru k es lab v = some r' ∧ r'.weight ≤ r.weight := by
  intro es
  induction es with
  | nil => intro k lab v r h; exact ⟨r, h, le_refl _⟩
  | cons e es ih =>
    intro k lab v r h
    rcases relaxOne_mono u ru k e lab v r h with ⟨r1, h1, h2⟩
    rcases ih (k + 1) _ v r1 h1 with ⟨r2, h3, h4⟩
    exact ⟨r2, h3, le_trans h4 h2⟩

theorem relaxEdges_origin (u : Nat) (ru : RouteInfo) :
    ∀ (es : List Edge) (k : Nat) (lab : Nat → Option RouteInfo) (v : Nat) (r' : RouteInfo),
      relaxEdges u ru k es lab v = some r' →
        lab v = some r' ∨
          ∃ i e, es[i]? = some e ∧ e.from_ = u ∧ e.to_ = v ∧
            r' = { weight := ru.weight + e.weight, edges := ru.edges ++ [k + i] } ∧
            ∀ r, lab v = some r → r'.weight < r.weight := by
  intro es
  induction es with
  | nil => intro k lab v r' h; exact Or.inl h
  | cons e es ih =>
    intro k lab v r' h
    rcases ih (k + 1) _ v r' h with h1 | ⟨i, e', h1, h2, h3, h4, h5⟩
    · rcases relaxOne_origin u ru k e lab v r' h1 with h6 | ⟨h6, h7, h8, h9⟩
      · exact Or.inl h6
      · exact Or.inr ⟨0, e, by simp, h6, h7, by simpa using h8, h9⟩
    · right
      refine ⟨i + 1, e', by simpa using h1, h2, h3, ?_, ?_⟩
      · rw [h4]; simp [Nat.add_assoc, Nat.add_comm 1 i]
      · intro r hr
        rcases relaxOne_mono u ru k e lab v r hr with ⟨r1, h6, h7⟩
        exact lt_of_lt_of_le (h5 r1 h6) h7

theorem relaxEdges_relaxed (u : Nat) (ru : RouteInfo) :
    ∀ (es : List Edge) (k : Nat) (lab : Nat → Option RouteInfo) (e : Edge),
      e ∈ es → e.from_ = u →
        ∃ r', relaxEdges u ru k es lab e.to_ = some r' ∧ r'.weight ≤ ru.weight + e.weight := by
  intro es
  induction es with
  | nil => intro k lab e h; cases h
  | cons e0 es ih =>
    intro k lab e h hu
    rcases List.mem_cons.1 h with rfl | h
    · rcases relaxOne_relaxed u ru k e lab hu with ⟨r1, h1, h2⟩
      rcases relaxEdges_mono u ru es (k + 1) _ e.to_ r1 h1 with ⟨r2, h3, h4⟩
      exact ⟨r2, h3, le_trans h4 h2⟩
    · exact ih (k + 1) _ e h hu

theorem pickMin_none (lab : Nat → Option RouteInfo) (done : List Nat) :
    ∀ (cands : List Nat), pickMin lab done cands = none →
      ∀ v ∈ cands, v ∉ done → lab v = none := by
  intro cands
  induction cands with
  | nil => intro _ v hv; cases hv
  | cons c cs ih =>
    intro h v hv hvd
    simp only [pickMin] at h
    by_cases hd : c ∈ done
    · simp only [hd, if_true] at h
      rcases List.mem_cons.1 hv with rfl | hv
      · exact absurd hd hvd
      · exact ih h v hv hvd
    · simp only [hd, if_false] at h
      cases hl : lab c with
      | none =>
        rw [hl] at h
        simp only at h
        rcases List.mem_cons.1 hv with rfl | hv
        · exact hl
        · exact ih h v hv hvd
      | some rc =>
        rw [hl] at h
        simp only at h
        cases hp : pickMin lab done cs with
        | none => rw [hp] at h; simp at h
        | some q =>
          rw [hp] at h
          simp only at h
          split at h <;> cases h

theorem pickMin_spec (lab : Nat → Option RouteInfo) (done : List Nat) :
    ∀ (cands : List Nat) (u : Nat) (ru : RouteInfo), pickMin lab done cands = some (u, ru) →
      u ∈ cands ∧ u ∉ done ∧ lab u = some ru ∧
        ∀ v ∈ cands, v ∉ done → ∀ rv, lab v = some rv → ru.weight ≤ rv.weight := by
  intro cands
  induction cands with
  | nil => intro u ru h; simp [pickMin] at h
  | cons c cs ih =>
    intro u ru h
    simp only [pickMin] at h
    by_cases hd : c ∈ done
    · simp only [hd, if_true] at h
      rcases ih u ru h with ⟨h1, h2, h3, h4⟩
      refine ⟨List.mem_cons_of_mem _ h1, h2, h3, ?_⟩
      intro v hv hvd rv hrv
      rcases List.mem_cons.1 hv with rfl | hv
      · exact absurd hd hvd
      · exact h4 v hv hvd rv hrv
    · simp only [hd, if_false] at h
      cases hl : lab c with
      | none =>
        rw [hl] at h
        simp only at h
        rcases ih u ru h with ⟨h1, h2, h3, h4⟩
        refine ⟨List.mem_cons_of_mem _ h1, h2, h3, ?_⟩
        intro v hv hvd rv hrv
        rcases List.mem_cons.1 hv with rfl | hv
        · rw [hl] at hrv; cases hrv
        · exact h4 v hv hvd rv hrv
      | some rc =>
        rw [hl] at h
        simp only at h
        cases hp : pickMin lab done cs with
        | none =>
          rw [hp] at h
          simp only [Option.some.injEq, Prod.mk.injEq] at h
          rcases h with ⟨rfl, rfl⟩
          refine ⟨List.mem_cons_self _ _, hd, hl, ?_⟩
          intro v hv hvd rv hrv
          rcases List.mem_cons.1 hv with rfl | hv
          · rw [hl] at hrv; cases hrv; exact le_refl _
          · have := pickMin_none lab done cs hp v hv hvd
            rw [this] at hrv; cases hrv
        | some q =>
          obtain ⟨u', ru'⟩ := q
          rw [hp] at h
          simp only at h
          rcases ih u' ru' hp with ⟨h1, h2, h3, h4⟩
          by_cases hc : rc.weight ≤ ru'.weight
          · simp only [hc, if_true, Option.some.injEq, Prod.mk.injEq] at h
            rcases h with ⟨rfl, rfl⟩
            refine ⟨List.mem_cons_self _ _, hd, hl, ?_⟩
            intro v hv hvd rv hrv
            rcases List.mem_cons.1 hv with rfl | hv
            · rw [hl] at hrv; cases hrv; exact le_refl _
            · exact le_trans hc (h4 v hv hvd rv hrv)
          · simp only [hc, if_false, Option.some.injEq, Prod.mk.injEq] at h
            rcases h with ⟨rfl, rfl⟩
            refine ⟨List.mem_cons_of_mem _ h1, h2, h3, ?_⟩
            intro v hv hvd rv hrv
            rcases List.mem_cons.1 hv with rfl | hv
            · rw [hl] at hrv; cases hrv; exact le_of_lt (lt_of_not_le hc)
            · exact h4 v hv hvd rv hrv

/-- Every walk from a labelled vertex either ends in a vertex whose label is no
greater than the walk through it, or is no shorter than the label of a vertex that is
not finalized yet. -/
theorem SearchInv.frontier {g : DirectedWeightedGraph} {s : Nat}
    {lab : Nat → Option RouteInfo} {done : List Nat} (inv : SearchInv g s lab done)
    (hw : ∀ e ∈ g.edges_, 0 ≤ e.weight) :
    ∀ (q : List Nat) (x v : Nat) (rx : RouteInfo), lab x = some rx → IsPath g x v q →
      (∃ rv, lab v = some rv ∧ rv.weight ≤ rx.weight + pathWeight g q) ∨
        (∃ u ru, u ∉ done ∧ lab u = some ru ∧ ru.weight ≤ rx.weight + pathWeight g q) := by
  intro q
  induction q with
  | nil =>
    intro x v rx hx hp
    simp only [IsPath] at hp
    subst hp
    exact Or.inl ⟨rx, hx, by simp [pathWeight]⟩
  | cons e es ih =>
    intro x v rx hx hp
    rcases hp with ⟨ed, h1, h2, h3⟩
    have hnn := pathWeight_nonneg g hw (e :: es)
    by_cases hd : x ∈ done
    · rcases inv.relaxed x hd ed (List.getElem?_mem h1) h2 rx hx with ⟨ry, hy, hle⟩
      rw [pathWeight_cons g e ed es h1]
      rcases ih ed.to_ v ry hy h3 with ⟨rv, h4, h5⟩ | ⟨u, ru, h4, h5, h6⟩
      · exact Or.inl ⟨rv, h4, by linarith⟩
      · exact Or.inr ⟨u, ru, h4, h5, by linarith⟩
    · exact Or.inr ⟨x, rx, hd, hx, by linarith⟩

theorem SearchInv.init (g : DirectedWeightedGraph) (s : Nat) (hs : s < g.vertex_count) :
    SearchInv g s (fun v => if v = s then some { weight := 0, edges := [] } else none) [] where
  real := by
    intro v r h
    by_cases hv : v = s
    · simp only [hv, if_true, Option.some.injEq] at h
      subst h; subst hv
      simp [IsPath, pathWeight]
    · simp [hv] at h
  src := ⟨{ weight := 0, edges := [] }, by simp, le_refl _⟩
  labelled := by intro u hu; cases hu
  relaxed := by intro u hu; cases hu
  mono := by intro u hu; cases hu
  bound := by
    intro v r h
    by_cases hv : v = s
    · rw [hv]; exact hs
    · simp [hv] at h

/-- A finalized vertex, and the vertex being finalized, keep their label through the
relaxation of the latter's outgoing edges. -/
theorem SearchInv.keep {g : DirectedWeightedGraph} {s : Nat}
    {lab : Nat → Option RouteInfo} {done : List Nat} (inv : SearchInv g s lab done)
    (hw : ∀ e ∈ g.edges_, 0 ≤ e.weight) (u : Nat) (ru : RouteInfo) (hu : lab u = some ru)
    (hud : u ∉ done) (x : Nat) (hx : x ∈ u :: done) :
    relaxEdges u ru 0 g.edges_ lab x = lab x := by
  have hxl : ∃ rx, lab x = some rx ∧ rx.weight ≤ ru.weight := by
    rcases List.mem_cons.1 hx with rfl | hx
    · exact ⟨ru, hu, le_refl _⟩
    · rcases inv.labelled x hx with ⟨rx, hrx⟩
      exact ⟨rx, hrx, inv.mono x hx u hud rx ru hrx hu⟩
  rcases hxl with ⟨rx, hrx, hle⟩
  rcases relaxEdges_mono u ru g.edges_ 0 lab x rx hrx with ⟨r', h1, _⟩
  rcases relaxEdges_origin u ru g.edges_ 0 lab x r' h1 with h2 | ⟨i, e, h2, _, _, h5, h6⟩
  · rw [h1, h2]
  · exfalso
    have h7 := h6 rx hrx
    have h8 := hw e (List.getElem?_mem h2)
    rw [h5] at h7
    simp only at h7
    linarith

/-- One round of the search keeps the invariant. -/
theorem SearchInv.step {g : DirectedWeightedGraph} {s : Nat}
    {lab : Nat → Option RouteInfo} {done : List Nat} (inv : SearchInv g s lab done)
    (hw : ∀ e ∈ g.edges_, 0 ≤ e.weight) (hto : ∀ e ∈ g.edges_, e.to_ < g.vertex_count)
    (u : Nat) (ru : RouteInfo)
    (hp : pickMin lab done (List.range g.vertex_count) = some (u, ru)) :
    SearchInv g s (relaxEdges u ru 0 g.edges_ lab) (u :: done) := by
  rcases pickMin_spec lab done _ u ru hp with ⟨_, hud, hu, hmin⟩
  have keep := inv.keep hw u ru hu hud
  refine ⟨?_, ?_, ?_, ?_, ?_, ?_⟩
  · intro v r' h
    rcases relaxEdges_origin u ru g.edges_ 0 lab v r' h with h1 | ⟨i, e, h1, h2, h3, h4, _⟩
    · exact inv.real v r' h1
    · rcases inv.real u ru hu with ⟨h5, h6⟩
      rw [h4]
      simp only [Nat.zero_add]
      constructor
      · apply IsPath_append g u v [i] ru.edges s h5
        exact ⟨e, h1, h2, h3⟩
      · rw [pathWeight_append, h6, pathWeight_cons g i e [] h1]
        simp [pathWeight]
  · rcases inv.src with ⟨r0, h0, h1⟩
    rcases relaxEdges_mono u ru g.edges_ 0 lab s r0 h0 with ⟨r', h2, h3⟩
    exact ⟨r', h2, le_trans h3 h1⟩
  · intro x hx
    rw [keep x hx]
    rcases List.mem_cons.1 hx with rfl | hx
    · exact ⟨ru, hu⟩
    · exact inv.labelled x hx
  · intro x hx e he hfrom rx hrx
    rw [keep x hx] at hrx
    rcases List.mem_cons.1 hx with hxu | hx
    · rw [hxu] at hrx hfrom
      rw [hu] at hrx
      cases hrx
      exact relaxEdges_relaxed u ru g.edges_ 0 lab e he hfrom
    · rcases inv.relaxed x hx e he hfrom rx hrx with ⟨rv, h1, h2⟩
      rcases relaxEdges_mono u ru g.edges_ 0 lab e.to_ rv h1 with ⟨rv', h3, h4⟩
      exact ⟨rv', h3, le_trans h4 h2⟩
  · intro x hx v hv rx rv hrx hrv
    rw [keep x hx] at hrx
    have hvu : v ≠ u := fun h => hv (h ▸ List.mem_cons_self _ _)
    have hvd : v ∉ done := fun h => hv (List.mem_cons_of_mem _ h)
    have hxu : rx.weight ≤ ru.weight := by
      rcases List.mem_cons.1 hx with hxu | hx
      · rw [hxu, hu] at hrx; cases hrx; exact le_refl _
      · exact inv.mono x hx u hud rx ru hrx hu
    rcases relaxEdges_origin u ru g.edges_ 0 lab v rv hrv with h1 | ⟨i, e, h1, _, _, h4, _⟩
    · have hvn := inv.bound v rv h1
      exact le_trans hxu (hmin v (List.mem_range.2 hvn) hvd rv h1)
    · have h8 := hw e (List.getElem?_mem h1)
      rw [h4]
      simp only
      linarith
  · intro v r' h
    rcases relaxEdges_origin u ru g.edges_ 0 lab v r' h with h1 | ⟨i, e, h1, _, h3, _, _⟩
    · exact inv.bound v r' h1
    · rw [← h3]; exact hto e (List.getElem?_mem h1)

/-- A label returned by the search is realised by a walk and is a lower bound of the
weight of every walk from the source to the target. -/
theorem dijkstra_correct (g : DirectedWeightedGraph) (s t : Nat)
    (hw : ∀ e ∈ g.edges_, 0 ≤ e.weight) (hto : ∀ e ∈ g.edges_, e.to_ < g.vertex_count) :
    ∀ (fuel : Nat) (lab : Nat → Option RouteInfo) (done : List Nat) (r : RouteInfo),
      SearchInv g s lab done → dijkstra g t fuel lab done = some r →
        IsPath g s t r.edges ∧ pathWeight g r.edges = r.weight ∧
          ∀ p, IsPath g s t p → r.weight ≤ pathWeight g p := by
  intro fuel
  induction fuel with
  | zero => intro lab done r _ h; simp [dijkstra] at h
  | succ fuel ih =>
    intro lab done r inv h
    simp only [dijkstra] at h
    cases hp : pickMin lab done (List.range g.vertex_count) with
    | none => rw [hp] at h; simp at h
    | some q =>
      obtain ⟨u, ru⟩ := q
      rw [hp] at h
      simp only at h
      by_cases hut : u = t
      · simp only [hut, if_true, Option.some.injEq] at h
        subst h
        subst hut
        rcases pickMin_spec lab done _ u ru hp with ⟨_, hud, hu, hmin⟩
        rcases inv.real u ru hu with ⟨h1, h2⟩
        refine ⟨h1, h2, ?_⟩
        intro p hpath
        rcases inv.src with ⟨r0, h0, h0le⟩
        rcases inv.frontier hw p s u r0 h0 hpath with ⟨rv, h3, h4⟩ | ⟨v, rv, h3, h4, h5⟩
        · rw [hu] at h3
          cases h3
          linarith
        · have := hmin v (List.mem_range.2 (inv.bound v rv h4)) h3 rv h4
          linarith
      · simp only [hut, if_false] at h
        exact ih _ _ r (inv.step hw hto u ru hp) h

/-- The solver's answer is a walk from the source to the target whose weight is the
sum of its edges' weights and is least among all such walks. -/
theorem BuildRoute_correct (g : DirectedWeightedGraph) (s t : Nat) (r : RouteInfo)
    (hw : ∀ e ∈ g.edges_, 0 ≤ e.weight) (hto : ∀ e ∈ g.edges_, e.to_ < g.vertex_count)
    (hs : s < g.vertex_count) (h : Router.BuildRoute { graph_ := g } s t = some r) :
    IsPath g s t r.edges ∧ pathWeight g r.edges = r.weight ∧
      ∀ p, IsPath g s t p → r.weight ≤ pathWeight g p :=
  dijkstra_correct g s t hw hto _ _ _ r (SearchInv.init g s hs) h

end graph

/-! ## The travel edges of the built graph -/

namespace transport

open transport_catalogue graph

theorem mapFind_mem {κ ν : Type} [DecidableEq κ] (k : κ) (v : ν) :
    ∀ (m : List (κ × ν)), mapFind k m = some v → (k, v) ∈ m := by
  intro m
  induction m with
  | nil => intro h; simp [mapFind] at h
  | cons x m ih =>
    intro h
    obtain ⟨k', v'⟩ := x
    simp only [mapFind] at h
    split at h
    · rename_i hk
      simp only [Option.some.injEq] at h
      subst hk; subst h
      exact List.mem_cons_self _ _
    · exact List.mem_cons_of_mem _ (ih h)

section
variable (ComputeDistance : Coordinates → Coordinates → ℚ)

theorem mem_fwdList (ids : List (String × Nat)) (velocity : ℚ) (cat : TransportCatalogue)
    (bus : Bus) (x : Edge × BusEdge) :
    x ∈ fwdList ComputeDistance ids velocity cat bus ↔
      ∃ i j, i < j ∧ j < bus.stops.length ∧ x = fwdEdge ComputeDistance ids velocity cat bus i j := by
  simp only [fwdList, List.mem_flatMap, List.mem_map, List.mem_range, List.mem_range']
  constructor
  · rintro ⟨i, hi, j, ⟨k, hk, rfl⟩, rfl⟩
    exact ⟨i, _, by omega, by omega, rfl⟩
  · rintro ⟨i, j, hij, hj, rfl⟩
    exact ⟨i, by omega, j, ⟨j - (i + 1), by omega, by omega⟩, rfl⟩

theorem mem_bwdList (ids : List (String × Nat)) (velocity : ℚ) (cat : TransportCatalogue)
    (bus : Bus) (x : Edge × BusEdge) :
    x ∈ bwdList ComputeDistance ids velocity cat bus ↔
      ∃ i j, j < i ∧ i < bus.stops.length ∧ x = bwdEdge ComputeDistance ids velocity cat bus i j := by
  simp only [bwdList, List.mem_flatMap, List.mem_map, List.mem_range, List.mem_range',
    List.mem_reverse]
  constructor
  · rintro ⟨i, ⟨k, hk, rfl⟩, j, hj, rfl⟩
    exact ⟨_, j, hj, by omega, rfl⟩
  · rintro ⟨i, j, hji, hi, rfl⟩
    exact ⟨i, ⟨i - 1, by omega, by omega⟩, j, hji, rfl⟩

/-- The travel edges of the catalogue are the forward rides of every bus and the
backward rides of every linear bus. -/
theorem mem_allTravel (settings : RoutingSettings) (cat : TransportCatalogue)
    (x : Edge × BusEdge) :
    x ∈ allTravel ComputeDistance settings cat ↔
      ∃ bus ∈ cat.buses_, ∃ i j, i < bus.stops.length ∧ j < bus.stops.length ∧
        ((i < j ∧ x = fwdEdge ComputeDistance (stopIds 0 cat.stops_ [])
            settings.bus_velocity cat bus i j) ∨
         (j < i ∧ bus.is_roundtrip = false ∧
            x = bwdEdge ComputeDistance (stopIds 0 cat.stops_ [])
              settings.bus_velocity cat bus i j)) := by
  simp only [allTravel, List.mem_flatMap]
  constructor
  · rintro ⟨bus, hb, hx⟩
    refine ⟨bus, hb, ?_⟩
    unfold busList at hx
    by_cases he : bus.stops.isEmpty = true
    · simp [he] at hx
    · by_cases hr : bus.is_roundtrip = true
      · simp only [he, hr, if_true, Bool.false_eq_true, if_false] at hx
        rcases (mem_fwdList ComputeDistance _ _ _ _ _).1 hx with ⟨i, j, h1, h2, h3⟩
        exact ⟨i, j, by omega, h2, Or.inl ⟨h1, h3⟩⟩
      · simp only [he, hr, Bool.false_eq_true, if_false, List.mem_append] at hx
        rcases hx with hx | hx
        · rcases (mem_fwdList ComputeDistance _ _ _ _ _).1 hx with ⟨i, j, h1, h2, h3⟩
          exact ⟨i, j, by omega, h2, Or.inl ⟨h1, h3⟩⟩
        · rcases (mem_bwdList ComputeDistance _ _ _ _ _).1 hx with ⟨i, j, h1, h2, h3⟩
          exact ⟨i, j, h2, by omega, Or.inr ⟨h1, by simpa using hr, h3⟩⟩
  · rintro ⟨bus, hb, i, j, hi, hj, h⟩
    refine ⟨bus, hb, ?_⟩
    have he : bus.stops.isEmpty = false := by
      cases hs : bus.stops with
      | nil => rw [hs] at hi; simp at hi
      | cons a l => rfl
    unfold busList
    rcases h with ⟨h1, h2⟩ | ⟨h1, h2, h3⟩
    · have := (mem_fwdList ComputeDistance (stopIds 0 cat.stops_ []) settings.bus_velocity
        cat bus x).2 ⟨i, j, h1, hj, h2⟩
      by_cases hr : bus.is_roundtrip = true
      · simp only [he, hr, if_true, Bool.false_eq_true, if_false]; exact this
      · simp only [he, hr, Bool.false_eq_true, if_false, List.mem_append]; exact Or.inl this
    · have := (mem_bwdList ComputeDistance (stopIds 0 cat.stops_ []) settings.bus_velocity
        cat bus x).2 ⟨i, j, h1, hi, h3⟩
      simp only [he, h2, Bool.false_eq_true, if_false, List.mem_append]
      exact Or.inr this

/-- A travel edge of the closed form sits in the built graph under an id above the
wait edges, and the metadata table maps that id to the edge's metadata. -/
theorem built_edge_of_mem (settings : RoutingSettings) (cat : TransportCatalogue)
    (x : Edge × BusEdge) (hx : x ∈ allTravel ComputeDistance settings cat) :
    ∃ edge_id, cat.stops_.length ≤ edge_id ∧
      (builtGraph ComputeDistance settings cat).edges_[edge_id]? = some x.1 ∧
      mapFind edge_id (builtRouter ComputeDistance settings cat).edge_to_bus_info_ =
        some x.2 := by
  rcases List.mem_iff_getElem?.1 hx with ⟨k, hk⟩
  refine ⟨cat.stops_.length + k, by omega, ?_, ?_⟩
  · simp only [builtGraph]
    rw [List.getElem?_append_right (by simp [waitEdges_length])]
    simp [waitEdges_length, hk]
  · simp only [builtRouter, routerWith, infoTable_find]
    simp [hk]

/-- Every edge of the built graph is a wait edge or a travel edge of the closed
form. -/
theorem built_edge_cases (settings : RoutingSettings) (cat : TransportCatalogue)
    (e : Edge) (he : e ∈ (builtGraph ComputeDistance settings cat).edges_) :
    (∃ i, i < cat.stops_.length ∧
        e = { from_ := 2 * i, to_ := 2 * i + 1, weight := settings.bus_wait_time }) ∨
      ∃ x ∈ allTravel ComputeDistance settings cat, e = x.1 := by
  simp only [builtGraph, List.mem_append, waitEdges, List.mem_map, List.mem_range] at he
  rcases he with ⟨i, hi, rfl⟩ | ⟨x, hx, rfl⟩
  · exact Or.inl ⟨i, hi, rfl⟩
  · exact Or.inr ⟨x, hx, rfl⟩

end

theorem truncToInt_nonneg (q : ℚ) (h : 0 ≤ q) : 0 ≤ truncToInt q := by
  simp only [truncToInt, h, if_true]
  exact Int.floor_nonneg.2 h

theorem GetDistance_nonneg (cat : TransportCatalogue)
    (hdist : ∀ entry ∈ cat.distances_, 0 ≤ entry.2) (a b : Nat) :
    0 ≤ cat.GetDistance a b := by
  unfold TransportCatalogue.GetDistance
  cases h1 : mapFind (a, b) cat.distances_ with
  | some d => exact hdist _ (mapFind_mem _ _ _ h1)
  | none =>
    cases h2 : mapFind (b, a) cat.distances_ with
    | some d => exact hdist _ (mapFind_mem _ _ _ h2)
    | none => exact le_refl _

section
variable (ComputeDistance : Coordinates → Coordinates → ℚ)

theorem seg_nonneg (cat : TransportCatalogue)
    (hdist : ∀ entry ∈ cat.distances_, 0 ≤ entry.2)
    (hgeo : ∀ a b, 0 ≤ ComputeDistance a b) (a b : Nat) :
    0 ≤ seg ComputeDistance cat a b := by
  unfold seg
  split
  · exact truncToInt_nonneg _ (hgeo _ _)
  · exact GetDistance_nonneg cat hdist a b

theorem fwdDist_nonneg (cat : TransportCatalogue)
    (hdist : ∀ entry ∈ cat.distances_, 0 ≤ entry.2)
    (hgeo : ∀ a b, 0 ≤ ComputeDistance a b) (bus : Bus) (i j : Nat) :
    0 ≤ fwdDist ComputeDistance cat bus i j := by
  apply List.sum_nonneg
  intro x hx
  rcases List.mem_map.1 hx with ⟨k, _, rfl⟩
  exact seg_nonneg ComputeDistance cat hdist hgeo _ _

theorem bwdDist_nonneg (cat : TransportCatalogue)
    (hdist : ∀ entry ∈ cat.distances_, 0 ≤ entry.2)
    (hgeo : ∀ a b, 0 ≤ ComputeDistance a b) (bus : Bus) (i j : Nat) :
    0 ≤ bwdDist ComputeDistance cat bus i j := by
  apply List.sum_nonneg
  intro x hx
  rcases List.mem_map.1 hx with ⟨k, _, rfl⟩
  exact seg_nonneg ComputeDistance cat hdist hgeo _ _

theorem travelEdge_weight_nonneg (ids : List (String × Nat)) (velocity : ℚ)
    (cat : TransportCatalogue) (bus : Bus) (i j : Nat) (span total : Int)
    (hvel : 0 < velocity) (ht : 0 ≤ total) :
    0 ≤ (travelEdge ids velocity cat bus i j span total).1.weight := by
  simp only [travelEdge]
  apply div_nonneg
  · exact_mod_cast ht
  · exact mul_nonneg (le_of_lt hvel) (by norm_num [VELOCITY_COEF])

/-- No edge of the built graph has a negative weight when the recorded distances and
the geometric estimate are non-negative, the wait time is non-negative and the
velocity is positive. -/
theorem builtGraph_weight_nonneg (settings : RoutingSettings) (cat : TransportCatalogue)
    (hwait : 0 ≤ settings.bus_wait_time) (hvel : 0 < settings.bus_velocity)
    (hdist : ∀ entry ∈ cat.distances_, 0 ≤ entry.2)
    (hgeo : ∀ a b, 0 ≤ ComputeDistance a b) :
    ∀ e ∈ (builtGraph ComputeDistance settings cat).edges_, 0 ≤ e.weight := by
  intro e he
  rcases built_edge_cases ComputeDistance settings cat e he with ⟨i, _, rfl⟩ | ⟨x, hx, rfl⟩
  · exact hwait
  · rcases (mem_allTravel ComputeDistance settings cat x).1 hx with
      ⟨bus, _, i, j, _, _, ⟨_, rfl⟩ | ⟨_, _, rfl⟩⟩
    · exact travelEdge_weight_nonneg _ _ _ _ _ _ _ _ hvel
        (fwdDist_nonneg ComputeDistance cat hdist hgeo bus i j)
    · exact travelEdge_weight_nonneg _ _ _ _ _ _ _ _ hvel
        (bwdDist_nonneg ComputeDistance cat hdist hgeo bus i j)

/-- The id of the stop that a position of a bus points to is below the stop count. -/
theorem idOf_stopAt_lt (cat : TransportCatalogue) (bus : Bus) (i : Nat)
    (hv : ∀ p ∈ bus.stops, p < cat.stops_.length) (hi : i < bus.stops.length) :
    idOf (stopIds 0 cat.stops_ []) (stopAt cat bus i).name < cat.stops_.length := by
  rcases stopIds_mem cat.stops_ _ (stopAt_mem cat bus i hv hi) with ⟨a, ha, hlt⟩
  simp [idOf, ha, hlt]

/-- Both endpoints of every edge of the built graph are vertices of the graph. -/
theorem builtGraph_endpoints (settings : RoutingSettings) (cat : TransportCatalogue)
    (hv : PointersValid cat) :
    ∀ e ∈ (builtGraph ComputeDistance settings cat).edges_,
      e.from_ < (builtGraph ComputeDistance settings cat).vertex_count ∧
      e.to_ < (builtGraph ComputeDistance settings cat).vertex_count := by
  intro e he
  simp only [builtGraph]
  rcases built_edge_cases ComputeDistance settings cat e he with ⟨i, hi, rfl⟩ | ⟨x, hx, rfl⟩
  · simp only; omega
  · rcases (mem_allTravel ComputeDistance settings cat x).1 hx with
      ⟨bus, hb, i, j, hi, hj, ⟨_, rfl⟩ | ⟨_, _, rfl⟩⟩
    · have h1 := idOf_stopAt_lt cat bus i (hv bus hb) hi
      have h2 := idOf_stopAt_lt cat bus j (hv bus hb) hj
      simp only [fwdEdge, travelEdge]; omega
    · have h1 := idOf_stopAt_lt cat bus i (hv bus hb) hi
      have h2 := idOf_stopAt_lt cat bus j (hv bus hb) hj
      simp only [bwdEdge, travelEdge]; omega

end

/-- What a successful query between two different names went through: both names
have an id, and the solver answered for their waiting vertices. -/
theorem FindRoute_some (r : TransportRouter) (from_ to_ : String) (res : RouteInfo)
    (hne : from_ ≠ to_) (h : r.FindRoute from_ to_ = .ok (some res)) :
    ∃ a b router route, mapFind from_ r.stop_ids_ = some a ∧
      mapFind to_ r.stop_ids_ = some b ∧ r.router_ = some router ∧
      router.BuildRoute (a * 2) (b * 2) = some route ∧
      route.edges.foldlM (TransportRouter.routeItemStep r) [] = .ok res.items ∧
      res.total_time = route.weight := by
  unfold TransportRouter.FindRoute at h
  simp only [hne, if_false] at h
  cases ha : mapFind from_ r.stop_ids_ with
  | none => simp [ha, pure, Except.pure] at h
  | some a =>
    cases hb : mapFind to_ r.stop_ids_ with
    | none => simp [ha, hb, pure, Except.pure] at h
    | some b =>
      cases hr : r.router_ with
      | none => simp [ha, hb, hr, mapAt, derefPtr, bind, Except.bind] at h
      | some router =>
        cases hq : router.BuildRoute (a * 2) (b * 2) with
        | none =>
          simp [ha, hb, hr, hq, mapAt, derefPtr, bind, Except.bind, pure, Except.pure] at h
        | some route =>
          simp only [ha, hb, hr, hq, mapAt, derefPtr, bind, Except.bind, pure, Except.pure,
            Option.isNone_some, Bool.or_self, Bool.false_eq_true, if_false] at h
          cases hi : route.edges.foldlM (TransportRouter.routeItemStep r) [] with
          | error err =>
            rw [hi] at h; cases h
          | ok items =>
            rw [hi] at h
            simp only [Except.ok.injEq, Option.some.injEq] at h
            subst h
            exact ⟨a, b, router, route, rfl, rfl, rfl, hq, hi, rfl⟩

end transport

/-! ## Itinerary reconstruction on the built router -/

namespace graph

theorem IsPath_valid (g : DirectedWeightedGraph) :
    ∀ (p : List Nat) (u v : Nat), IsPath g u v p → ∀ e ∈ p, ∃ ed, g.edges_[e]? = some ed := by
  intro p
  induction p with
  | nil => intro u v _ e he; cases he
  | cons e0 es ih =>
    intro u v h e he
    rcases h with ⟨ed, h1, _, h3⟩
    rcases List.mem_cons.1 he with rfl | he
    · exact ⟨ed, h1⟩
    · exact ih _ _ h3 e he

/-- A label returned by the search is realised by a walk from the source whose weight
is the label's weight, whatever the edge weights are. -/
theorem dijkstra_real (g : DirectedWeightedGraph) (s t : Nat) :
    ∀ (fuel : Nat) (lab : Nat → Option RouteInfo) (done : List Nat) (r : RouteInfo),
      (∀ v r, lab v = some r → IsPath g s v r.edges ∧ pathWeight g r.edges = r.weight) →
      dijkstra g t fuel lab done = some r →
        IsPath g s t r.edges ∧ pathWeight g r.edges = r.weight := by
  intro fuel
  induction fuel with
  | zero => intro lab done r _ h; simp [dijkstra] at h
  | succ fuel ih =>
    intro lab done r hreal h
    simp only [dijkstra] at h
    cases hp : pickMin lab done (List.range g.vertex_count) with
    | none => rw [hp] at h; simp at h
    | some q =>
      obtain ⟨u, ru⟩ := q
      rw [hp] at h
      simp only at h
      rcases pickMin_spec lab done _ u ru hp with ⟨_, _, hu, _⟩
      by_cases hut : u = t
      · simp only [hut, if_true, Option.some.injEq] at h
        subst h
        subst hut
        exact hreal u ru hu
      · simp only [hut, if_false] at h
        apply ih _ _ r _ h
        intro v r' hv
        rcases relaxEdges_origin u ru g.edges_ 0 lab v r' hv with h1 | ⟨i, e, h1, h2, h3, h4, _⟩
        · exact hreal v r' h1
        · rcases hreal u ru hu with ⟨h5, h6⟩
          rw [h4]
          simp only [Nat.zero_add]
          constructor
          · apply IsPath_append g u v [i] ru.edges s h5
            exact ⟨e, h1, h2, h3⟩
          · rw [pathWeight_append, h6, pathWeight_cons g i e [] h1]
            simp [pathWeight]

/-- The solver's answer is a walk from the source to the target, and its weight is the
sum of the weights of its edges. -/
theorem BuildRoute_real (g : DirectedWeightedGraph) (s t : Nat) (r : RouteInfo)
    (h : Router.BuildRoute { graph_ := g } s t = some r) :
    IsPath g s t r.edges ∧ pathWeight g r.edges = r.weight := by
  apply dijkstra_real g s t _ _ _ r _ h
  intro v r' hv
  by_cases hvs : v = s
  · simp only [hvs, if_true, Option.some.injEq] at hv
    subst hv; subst hvs
    simp [IsPath, pathWeight]
  · simp [hvs] at hv

end graph

namespace transport

open transport_catalogue graph

section
variable (ComputeDistance : Coordinates → Coordinates → ℚ)

/-- An edge id of the built graph is the number of a stop, for its wait edge, or the
stop count plus the rank of a travel edge. -/
theorem built_edge_id_cases (settings : RoutingSettings) (cat : TransportCatalogue)
    (edge_id : Nat) (ed : Edge)
    (h : (builtGraph ComputeDistance settings cat).edges_[edge_id]? = some ed) :
    (edge_id < cat.stops_.length ∧
        ed = { from_ := 2 * edge_id, to_ := 2 * edge_id + 1,
               weight := settings.bus_wait_time }) ∨
      (cat.stops_.length ≤ edge_id ∧
        ∃ x, (allTravel ComputeDistance settings cat)[edge_id - cat.stops_.length]? = some x ∧
          ed = x.1) := by
  simp only [builtGraph] at h
  by_cases hlt : edge_id < cat.stops_.length
  · left
    rw [List.getElem?_append_left (by simpa [waitEdges_length] using hlt)] at h
    simp only [waitEdges, List.getElem?_map, List.getElem?_range hlt, Option.map_some',
      Option.some.injEq] at h
    exact ⟨hlt, h.symm⟩
  · right
    rw [List.getElem?_append_right (by simp [waitEdges_length]; omega)] at h
    simp only [waitEdges_length, List.getElem?_map, Option.map_eq_some'] at h
    rcases h with ⟨x, hx, rfl⟩
    exact ⟨by omega, x, hx, rfl⟩

/-- One round of the reconstruction on the built router: exactly one item is added
for an edge of the graph, a `WAIT` item for the wait edge of a stop and a `BUS` item
with the recorded metadata for a travel edge; its time is the edge's weight. -/
theorem routeItemStep_built (settings : RoutingSettings) (cat : TransportCatalogue)
    (items : List RouteItem) (edge_id : Nat) (ed : Edge)
    (h : (builtGraph ComputeDistance settings cat).edges_[edge_id]? = some ed) :
    ∃ item,
      TransportRouter.routeItemStep (builtRouter ComputeDistance settings cat) items edge_id =
        .ok (items ++ [item]) ∧
      item.time = ed.weight ∧
      ((edge_id < cat.stops_.length ∧ ed.from_ = 2 * edge_id ∧ ed.to_ = 2 * edge_id + 1 ∧
          ∃ s, cat.stops_[edge_id]? = some s ∧
            item = { type := .WAIT, stop_name := s.name, bus_name := "",
                     time := ed.weight, span_count := 0 }) ∨
        (cat.stops_.length ≤ edge_id ∧ ed.from_ % 2 = 1 ∧
          ∃ x ∈ allTravel ComputeDistance settings cat, ed = x.1 ∧
            mapFind edge_id (builtRouter ComputeDistance settings cat).edge_to_bus_info_ =
              some x.2 ∧
            item = { type := .BUS, stop_name := "", bus_name := x.2.bus_name,
                     time := x.2.time, span_count := x.2.span_count })) := by
  have hg : (builtRouter ComputeDistance settings cat).graph_ =
      some (builtGraph ComputeDistance settings cat) := rfl
  have hst : (builtRouter ComputeDistance settings cat).stops_ = cat.stops_.map Stop.name := rfl
  rcases built_edge_id_cases ComputeDistance settings cat edge_id ed h with
    ⟨hlt, rfl⟩ | ⟨hge, x, hx, rfl⟩
  · have hs : cat.stops_[edge_id]? = some cat.stops_[edge_id] := List.getElem?_eq_getElem hlt
    refine ⟨{ type := .WAIT, stop_name := cat.stops_[edge_id].name, bus_name := "",
              time := settings.bus_wait_time, span_count := 0 }, ?_, rfl,
      Or.inl ⟨hlt, rfl, rfl, _, hs, rfl⟩⟩
    have h2 : (2 * edge_id) / 2 = edge_id := by omega
    have h3 : (2 * edge_id) % 2 = 0 := by omega
    simp only [TransportRouter.routeItemStep, hg, derefPtr, DirectedWeightedGraph.GetEdge,
      vecAt, h, bind, Except.bind, h2, h3, hst, List.getElem?_map, hs, Option.map_some',
      true_and, if_true, pure, Except.pure]
  · have hmem : x ∈ allTravel ComputeDistance settings cat := List.getElem?_mem hx
    have hodd : x.1.from_ % 2 = 1 := by
      rcases (mem_allTravel ComputeDistance settings cat x).1 hmem with
        ⟨bus, _, i, j, _, _, ⟨_, rfl⟩ | ⟨_, _, rfl⟩⟩
      · simp only [fwdEdge, travelEdge]; omega
      · simp only [bwdEdge, travelEdge]; omega
    have htime : x.2.time = x.1.weight := by
      rcases (mem_allTravel ComputeDistance settings cat x).1 hmem with
        ⟨bus, _, i, j, _, _, ⟨_, rfl⟩ | ⟨_, _, rfl⟩⟩
      · rfl
      · rfl
    have hinfo : mapFind edge_id (builtRouter ComputeDistance settings cat).edge_to_bus_info_ =
        some x.2 := by
      simp only [builtRouter, routerWith, infoTable_find, hge, if_true, List.getElem?_map, hx,
        Option.map_some']
    refine ⟨{ type := .BUS, stop_name := "", bus_name := x.2.bus_name,
              time := x.2.time, span_count := x.2.span_count }, ?_, htime,
      Or.inr ⟨hge, hodd, x, hmem, rfl, hinfo, rfl⟩⟩
    have hne : ¬ (x.1.from_ % 2 = 0 ∧ x.1.to_ = x.1.from_ + 1) := by
      intro hc; omega
    simp only [TransportRouter.routeItemStep, hg, derefPtr, DirectedWeightedGraph.GetEdge,
      vecAt, h, bind, Except.bind, hne, if_false, hinfo, pure, Except.pure]

/-- The reconstruction loop on the built router emits one item per edge id, and the
times of the items are the weights of the edges, in order. -/
theorem routeItems_built (settings : RoutingSettings) (cat : TransportCatalogue) :
    ∀ (p : List Nat) (acc : List RouteItem),
      (∀ e ∈ p, ∃ ed, (builtGraph ComputeDistance settings cat).edges_[e]? = some ed) →
      ∃ its, p.foldlM
            (TransportRouter.routeItemStep (builtRouter ComputeDistance settings cat)) acc =
          .ok (acc ++ its) ∧
        its.map RouteItem.time =
          p.map (fun e =>
            (((builtGraph ComputeDistance settings cat).edges_[e]?).map Edge.weight).getD 0) := by
  intro p
  induction p with
  | nil => intro acc _; exact ⟨[], by simp [pure, Except.pure], rfl⟩
  | cons e es ih =>
    intro acc h
    rcases h e (List.mem_cons_self _ _) with ⟨ed, hed⟩
    rcases routeItemStep_built ComputeDistance settings cat acc e ed hed with
      ⟨item, h1, h2, _⟩
    rcases ih (acc ++ [item]) (fun e' he' => h e' (List.mem_cons_of_mem _ he')) with
      ⟨its, h3, h4⟩
    refine ⟨item :: its, ?_, ?_⟩
    · rw [List.foldlM_cons, h1]
      simp only [bind, Except.bind]
      rw [h3]
      simp
    · simp [h4, h2, hed]

end

end transport

/-! ## Queries without a route -/

namespace graph

/-- A set of vertices that no edge leaves contains the end of every walk that starts
in it. -/
theorem IsPath_closed (g : DirectedWeightedGraph) (P : Nat → Prop)
    (hP : ∀ e ∈ g.edges_, P e.from_ → P e.to_) :
    ∀ (p : List Nat) (u v : Nat), IsPath g u v p → P u → P v := by
  intro p
  induction p with
  | nil => intro u v h hu; simp only [IsPath] at h; exact h ▸ hu
  | cons e es ih =>
    intro u v h hu
    rcases h with ⟨ed, h1, h2, h3⟩
    exact ih _ _ h3 (hP ed (List.getElem?_mem h1) (h2 ▸ hu))

end graph

namespace transport

open transport_catalogue graph

/-- On the built router a query between two known names whose waiting vertices no walk
connects returns the empty optional. -/
theorem FindRoute_no_path (ComputeDistance : Coordinates → Coordinates → ℚ)
    (settings : RoutingSettings) (cat : TransportCatalogue) (from_ to_ : String) (a b : Nat)
    (ha : mapFind from_ (builtRouter ComputeDistance settings cat).stop_ids_ = some a)
    (hb : mapFind to_ (builtRouter ComputeDistance settings cat).stop_ids_ = some b)
    (hno : ∀ p, ¬ IsPath (builtGraph ComputeDistance settings cat) (2 * a) (2 * b) p) :
    (builtRouter ComputeDistance settings cat).FindRoute from_ to_ = .ok none := by
  have hne : from_ ≠ to_ := by
    intro h
    subst h
    rw [ha] at hb
    simp only [Option.some.injEq] at hb
    subst hb
    exact hno [] rfl
  have hr : (builtRouter ComputeDistance settings cat).router_ =
      some { graph_ := builtGraph ComputeDistance settings cat } := rfl
  cases hq : Router.BuildRoute { graph_ := builtGraph ComputeDistance settings cat }
      (a * 2) (b * 2) with
  | some route =>
    exfalso
    have := (BuildRoute_real _ _ _ route hq).1
    rw [Nat.mul_comm a 2, Nat.mul_comm b 2] at this
    exact hno _ this
  | none =>
    simp only [TransportRouter.FindRoute, hne, if_false, ha, hb, hr, mapAt, derefPtr, bind,
      Except.bind, hq, pure, Except.pure, Option.isNone_some, Bool.or_self,
      Bool.false_eq_true]

end transport

namespace transport

/-- In every state of the router a query for two different names of which one has no
entry in the stop index table returns the empty optional. -/
theorem FindRoute_unknown (r : TransportRouter) (from_ to_ : String) (hne : from_ ≠ to_)
    (hunk : mapFind from_ r.stop_ids_ = none ∨ mapFind to_ r.stop_ids_ = none) :
    r.FindRoute from_ to_ = .ok none := by
  unfold TransportRouter.FindRoute
  simp only [hne, if_false]
  rcases hunk with h | h
  · simp [h, pure, Except.pure]
  · simp [h, pure, Except.pure]

end transport

namespace JsonReader

open json transport

/-- The document that the handler returns for a single `Route` request whose query
gives the empty optional: one dict with the request id and the message `not found`. -/
theorem ParsingRouteRequests_not_found (router : TransportRouter) (request_id : Int)
    (from_ to_ : String) (h : router.FindRoute from_ to_ = .ok none) :
    ParsingRouteRequests router [(request_id, from_, to_)] =
      .ok (.array [.dict [("request_id", .int request_id),
                          ("error_message", .string "not found")]]) := by
  simp only [ParsingRouteRequests, processRouteRequest, List.foldlM, h, bind, Except.bind]
  rfl

end JsonReader

/-! ## Positions of a bus and the edges between them -/

namespace transport

open transport_catalogue graph

/-- What the builder reads at position `i` of a bus: the pointer stored there, the
stop it designates and the id of that stop's name. -/
theorem position_lookup (cat : TransportCatalogue) (bus : Bus) (i : Nat)
    (hv : ∀ p ∈ bus.stops, p < cat.stops_.length) (hi : i < bus.stops.length) :
    bus.stops[i]? = some (bus.stops.getD i 0) ∧
    cat.stops_[bus.stops.getD i 0]? = some (stopAt cat bus i) ∧
    mapFind (stopAt cat bus i).name (stopIds 0 cat.stops_ []) =
      some (idOf (stopIds 0 cat.stops_ []) (stopAt cat bus i).name) := by
  have hp := hv _ (getD_mem_of_lt bus.stops i 0 hi)
  refine ⟨?_, ?_, ?_⟩
  · rw [List.getD_eq_getElem _ _ hi]; exact List.getElem?_eq_getElem hi
  · simp only [stopAt]
    rw [List.getD_eq_getElem _ _ hp]; exact List.getElem?_eq_getElem hp
  · rcases stopIds_mem cat.stops_ _ (stopAt_mem cat bus i hv hi) with ⟨a, ha, _⟩
    simp [idOf, ha]

/-- Two names with the same id in the stop index table are the same name. -/
theorem stopIds_injective (stops : List Stop) (n1 n2 : String) (a : Nat)
    (h1 : mapFind n1 (stopIds 0 stops []) = some a)
    (h2 : mapFind n2 (stopIds 0 stops []) = some a) : n1 = n2 := by
  rcases stopIds_bound stops n1 a h1 with ⟨_, s, hs, hn⟩
  rcases stopIds_bound stops n2 a h2 with ⟨_, t, ht, hm⟩
  rw [hs] at ht
  cases ht
  rw [← hn, ← hm]

/-- The ids of the stops at two positions of a bus agree exactly when the names do. -/
theorem idOf_stopAt_eq_iff (cat : TransportCatalogue) (bus : Bus) (i j : Nat)
    (hv : ∀ p ∈ bus.stops, p < cat.stops_.length) (hi : i < bus.stops.length)
    (hj : j < bus.stops.length) :
    idOf (stopIds 0 cat.stops_ []) (stopAt cat bus i).name =
        idOf (stopIds 0 cat.stops_ []) (stopAt cat bus j).name ↔
      (stopAt cat bus i).name = (stopAt cat bus j).name := by
  constructor
  · intro h
    have h1 := (position_lookup cat bus i hv hi).2.2
    have h2 := (position_lookup cat bus j hv hj).2.2
    rw [h] at h1
    exact stopIds_injective cat.stops_ _ _ _ h1 h2
  · intro h; rw [h]

/-- The edges that `ProcessRoundTripBus` adds for a bus, in any state reached after
`InitializeStops`: the first components of the forward rides. -/
theorem generatedEdges_roundTrip (ComputeDistance : Coordinates → Coordinates → ℚ)
    (settings : RoutingSettings) (cat : TransportCatalogue) (bus : Bus)
    (hv : ∀ p ∈ bus.stops, p < cat.stops_.length) (L : List (Edge × BusEdge)) :
    ∃ r', TransportRouter.ProcessRoundTripBus ComputeDistance cat bus
          (routerWith settings cat L) = .ok r' ∧
      generatedEdges (routerWith settings cat L) r' =
        (fwdList ComputeDistance (stopIds 0 cat.stops_ []) settings.bus_velocity cat bus).map
          Prod.fst := by
  refine ⟨_, forwardLoops_routerWith ComputeDistance settings cat bus hv L, ?_⟩
  simp only [generatedEdges, routerWith, List.map_append, ← List.append_assoc]
  rw [List.drop_left]

end transport

namespace transport

open transport_catalogue graph

section
variable (ComputeDistance : Coordinates → Coordinates → ℚ)

/-- The forward ride between two positions of any bus of the catalogue is an edge of
the built graph, with its metadata recorded under the edge's id. -/
theorem forward_ride_built (settings : RoutingSettings) (cat : TransportCatalogue)
    (bus : Bus) (i j : Nat) (hbus : bus ∈ cat.buses_) (hij : i < j)
    (hj : j < bus.stops.length) :
    ∃ edge_id, cat.stops_.length ≤ edge_id ∧
      (builtGraph ComputeDistance settings cat).edges_[edge_id]? =
        some (fwdEdge ComputeDistance (stopIds 0 cat.stops_ []) settings.bus_velocity
          cat bus i j).1 ∧
      mapFind edge_id (builtRouter ComputeDistance settings cat).edge_to_bus_info_ =
        some (fwdEdge ComputeDistance (stopIds 0 cat.stops_ []) settings.bus_velocity
          cat bus i j).2 :=
  built_edge_of_mem ComputeDistance settings cat _
    ((mem_allTravel ComputeDistance settings cat _).2
      ⟨bus, hbus, i, j, by omega, hj, Or.inl ⟨hij, rfl⟩⟩)

/-- The backward ride between two positions of a linear bus of the catalogue is an edge
of the built graph, with its metadata recorded under the edge's id. -/
theorem backward_ride_built (settings : RoutingSettings) (cat : TransportCatalogue)
    (bus : Bus) (i j : Nat) (hbus : bus ∈ cat.buses_) (hlin : bus.is_roundtrip = false)
    (hji : j < i) (hi : i < bus.stops.length) :
    ∃ edge_id, cat.stops_.length ≤ edge_id ∧
      (builtGraph ComputeDistance settings cat).edges_[edge_id]? =
        some (bwdEdge ComputeDistance (stopIds 0 cat.stops_ []) settings.bus_velocity
          cat bus i j).1 ∧
      mapFind edge_id (builtRouter ComputeDistance settings cat).edge_to_bus_info_ =
        some (bwdEdge ComputeDistance (stopIds 0 cat.stops_ []) settings.bus_velocity
          cat bus i j).2 :=
  built_edge_of_mem ComputeDistance settings cat _
    ((mem_allTravel ComputeDistance settings cat _).2
      ⟨bus, hbus, i, j, hi, by omega, Or.inr ⟨hji, hlin, rfl⟩⟩)

end

end transport

/-! ## Claims -/

namespace transport

open transport_catalogue graph

/-- C1: on a router built from a catalogue with valid stop pointers, a non-negative
wait time, a positive velocity and non-negative recorded and geometric distances, a
route that `FindRoute` returns for two different names has a `total_time` that is the
weight of a walk of the built graph from the waiting vertex `2 * id(from)` to the
waiting vertex `2 * id(to)`, and no walk between those two vertices weighs less. -/
theorem C1_total_time_is_minimum (ComputeDistance : Coordinates → Coordinates → ℚ)
    (cat : TransportCatalogue) (r0 r : TransportRouter) (from_ to_ : String)
    (res : RouteInfo) (hv : PointersValid cat)
    (hwait : 0 ≤ r0.settings_.bus_wait_time) (hvel : 0 < r0.settings_.bus_velocity)
    (hdist : ∀ entry ∈ cat.distances_, 0 ≤ entry.2)
    (hgeo : ∀ a b, 0 ≤ ComputeDistance a b)
    (hb : TransportRouter.BuildGraph ComputeDistance cat r0 = .ok r)
    (hne : from_ ≠ to_) (hf : r.FindRoute from_ to_ = .ok (some res)) :
    ∃ g a b, r.graph_ = some g ∧ mapFind from_ r.stop_ids_ = some a ∧
      mapFind to_ r.stop_ids_ = some b ∧
      (∃ p, IsPath g (2 * a) (2 * b) p ∧ pathWeight g p = res.total_time) ∧
      ∀ p, IsPath g (2 * a) (2 * b) p → res.total_time ≤ pathWeight g p := by
  rw [BuildGraph_eq ComputeDistance cat r0 hv] at hb
  simp only [Except.ok.injEq] at hb
  subst hb
  rcases FindRoute_some _ from_ to_ res hne hf with ⟨a, b, router, route, ha, hb, hr, hq, _, ht⟩
  simp only [builtRouter, Option.some.injEq] at hr
  subst hr
  have hend := builtGraph_endpoints ComputeDistance r0.settings_ cat hv
  have ha' : a * 2 < (builtGraph ComputeDistance r0.settings_ cat).vertex_count := by
    have := (stopIds_bound cat.stops_ from_ a ha).1
    simp only [builtGraph]; omega
  rcases BuildRoute_correct (builtGraph ComputeDistance r0.settings_ cat) (a * 2) (b * 2) route
    (builtGraph_weight_nonneg ComputeDistance r0.settings_ cat hwait hvel hdist hgeo)
    (fun e he => (hend e he).2) ha' hq with ⟨h1, h2, h3⟩
  refine ⟨builtGraph ComputeDistance r0.settings_ cat, a, b, rfl, ha, hb, ?_, ?_⟩
  · exact ⟨route.edges, by rw [Nat.mul_comm 2 a, Nat.mul_comm 2 b]; exact h1, by rw [h2, ht]⟩
  · intro p hp
    rw [ht]
    apply h3
    rw [Nat.mul_comm a 2, Nat.mul_comm b 2]; exact hp

/-- Witness of C1 on the worked example: the route from `A` to `C` takes 7 minutes and
no walk between the two waiting vertices is shorter. -/
theorem C1_total_time_is_minimum_witness :
    (TransportRouter.BuildGraph Examples.taxicab Examples.catABC Examples.router5x60 =
        .ok (builtRouter Examples.taxicab Examples.router5x60.settings_ Examples.catABC)) ∧
    ((builtRouter Examples.taxicab Examples.router5x60.settings_ Examples.catABC).FindRoute
        "A" "C" =
      .ok (some
        { total_time := 7
          items :=
            [{ type := .WAIT, stop_name := "A", bus_name := "", time := 5, span_count := 0 },
             { type := .BUS, stop_name := "", bus_name := "1", time := 2,
               span_count := 2 }] })) ∧
    ∃ g a b,
      (builtRouter Examples.taxicab Examples.router5x60.settings_ Examples.catABC).graph_ =
        some g ∧
      mapFind "A"
        (builtRouter Examples.taxicab Examples.router5x60.settings_ Examples.catABC).stop_ids_ =
        some a ∧
      mapFind "C"
        (builtRouter Examples.taxicab Examples.router5x60.settings_ Examples.catABC).stop_ids_ =
        some b ∧
      (∃ p, IsPath g (2 * a) (2 * b) p ∧ pathWeight g p = 7) ∧
      ∀ p, IsPath g (2 * a) (2 * b) p → (7 : ℚ) ≤ pathWeight g p :=
  ⟨by decide!, by decide!,
    C1_total_time_is_minimum Examples.taxicab Examples.catABC Examples.router5x60
      (builtRouter Examples.taxicab Examples.router5x60.settings_ Examples.catABC) "A" "C"
      { total_time := 7
        items :=
          [{ type := .WAIT, stop_name := "A", bus_name := "", time := 5, span_count := 0 },
           { type := .BUS, stop_name := "", bus_name := "1", time := 2, span_count := 2 }] }
      (by unfold PointersValid; decide) (by decide!) (by decide!) (by decide!)
      (fun a b => by unfold Examples.taxicab; positivity)
      (by decide!) (by decide) (by decide!)⟩

/-- C2: on a built router, whenever `FindRoute` returns a route (for equal or
different names) its `total_time` is exactly the sum of the `time` fields of its
items. -/
theorem C2_total_time_is_sum_of_items (ComputeDistance : Coordinates → Coordinates → ℚ)
    (cat : TransportCatalogue) (r0 r : TransportRouter) (from_ to_ : String)
    (res : RouteInfo) (hv : PointersValid cat)
    (hb : TransportRouter.BuildGraph ComputeDistance cat r0 = .ok r)
    (hf : r.FindRoute from_ to_ = .ok (some res)) :
    res.total_time = (res.items.map RouteItem.time).sum := by
  by_cases hne : from_ = to_
  · simp only [TransportRouter.FindRoute, hne, if_true, pure, Except.pure, Except.ok.injEq,
      Option.some.injEq] at hf
    subst hf
    simp
  · rw [BuildGraph_eq ComputeDistance cat r0 hv] at hb
    simp only [Except.ok.injEq] at hb
    subst hb
    rcases FindRoute_some _ from_ to_ res hne hf with
      ⟨a, b, router, route, _, _, hr, hq, hitems, ht⟩
    simp only [builtRouter, Option.some.injEq] at hr
    subst hr
    rcases BuildRoute_real (builtGraph ComputeDistance r0.settings_ cat) _ _ route hq with
      ⟨h1, h2⟩
    rcases routeItems_built ComputeDistance r0.settings_ cat route.edges []
      (IsPath_valid _ _ _ _ h1) with ⟨its, h3, h4⟩
    rw [h3] at hitems
    simp only [List.nil_append, Except.ok.injEq] at hitems
    rw [ht, ← h2, ← hitems, h4]
    rfl

/-- Witness of C2 on the worked example: 7 = 5 + 2. -/
theorem C2_total_time_is_sum_of_items_witness :
    ((builtRouter Examples.taxicab Examples.router5x60.settings_ Examples.catABC).FindRoute
        "A" "C" =
      .ok (some
        { total_time := 7
          items :=
            [{ type := .WAIT, stop_name := "A", bus_name := "", time := 5, span_count := 0 },
             { type := .BUS, stop_name := "", bus_name := "1", time := 2,
               span_count := 2 }] })) ∧
    (7 : ℚ) = ([5, 2] : List ℚ).sum :=
  ⟨by decide!,
    C2_total_time_is_sum_of_items Examples.taxicab Examples.catABC Examples.router5x60
      (builtRouter Examples.taxicab Examples.router5x60.settings_ Examples.catABC) "A" "C"
      { total_time := 7
        items :=
          [{ type := .WAIT, stop_name := "A", bus_name := "", time := 5, span_count := 0 },
           { type := .BUS, stop_name := "", bus_name := "1", time := 2, span_count := 2 }] }
      (by unfold PointersValid; decide) (by decide!) (by decide!)⟩

/-- C3: for every name `A`, in particular the name of every stop of the catalogue,
served by a bus or not, and in every state of the router, `FindRoute(A, A)` returns a
route with `total_time = 0` and no items. -/
theorem C3_same_stop_zero_route (r : TransportRouter) (A : String) :
    r.FindRoute A A = .ok (some { total_time := 0, items := [] }) := by
  simp [TransportRouter.FindRoute, pure, Except.pure]

/-- C4 fails as stated: the name `X` is unknown to the router built for the worked
example, yet `FindRoute(X, X)` returns the zero-time route. -/
theorem C4_counterexample :
    mapFind "X"
        (builtRouter Examples.taxicab Examples.router5x60.settings_ Examples.catABC).stop_ids_ =
      none ∧
    (builtRouter Examples.taxicab Examples.router5x60.settings_ Examples.catABC).FindRoute
        "X" "X" =
      .ok (some { total_time := 0, items := [] }) := by
  decide!

/-- C4 as amended: for every pair of different names of which at least one has no
entry in the router's stop index table, `FindRoute` returns the empty optional. -/
theorem C4_unknown_name_not_found (r : TransportRouter) (from_ to_ : String)
    (hne : from_ ≠ to_)
    (hunk : mapFind from_ r.stop_ids_ = none ∨ mapFind to_ r.stop_ids_ = none) :
    r.FindRoute from_ to_ = .ok none :=
  FindRoute_unknown r from_ to_ hne hunk

/-- Witness of C4 as amended: `FindRoute(A, X)` on the worked example. -/
theorem C4_unknown_name_not_found_witness :
    (builtRouter Examples.taxicab Examples.router5x60.settings_ Examples.catABC).FindRoute
        "A" "X" = .ok none :=
  C4_unknown_name_not_found
    (builtRouter Examples.taxicab Examples.router5x60.settings_ Examples.catABC) "A" "X"
    (by decide) (Or.inr (by decide!))

/-- C5 fails as stated: on the worked example `FindRoute(A, X)`, with `X` unknown, and
`FindRoute(C, A)`, with both stops known and no walk from the waiting vertex of `C` to
that of `A`, return the same result, and the handler builds the same document. -/
theorem C5_counterexample :
    mapFind "X"
        (builtRouter Examples.taxicab Examples.router5x60.settings_ Examples.catABC).stop_ids_ =
      none ∧
    mapFind "C"
        (builtRouter Examples.taxicab Examples.router5x60.settings_ Examples.catABC).stop_ids_ =
      some 2 ∧
    mapFind "A"
        (builtRouter Examples.taxicab Examples.router5x60.settings_ Examples.catABC).stop_ids_ =
      some 0 ∧
    (∀ p, ¬ IsPath
      (builtGraph Examples.taxicab Examples.router5x60.settings_ Examples.catABC) 4 0 p) ∧
    (builtRouter Examples.taxicab Examples.router5x60.settings_ Examples.catABC).FindRoute
        "A" "X" =
      (builtRouter Examples.taxicab Examples.router5x60.settings_ Examples.catABC).FindRoute
        "C" "A" ∧
    JsonReader.ParsingRouteRequests
        (builtRouter Examples.taxicab Examples.router5x60.settings_ Examples.catABC)
        [(1, "A", "X")] =
      JsonReader.ParsingRouteRequests
        (builtRouter Examples.taxicab Examples.router5x60.settings_ Examples.catABC)
        [(1, "C", "A")] := by
  have h1 : (builtRouter Examples.taxicab Examples.router5x60.settings_
      Examples.catABC).FindRoute "A" "X" = .ok none := by decide!
  have h2 : (builtRouter Examples.taxicab Examples.router5x60.settings_
      Examples.catABC).FindRoute "C" "A" = .ok none := by decide!
  refine ⟨by decide!, by decide!, by decide!, ?_, by rw [h1, h2], ?_⟩
  · intro p hp
    have := IsPath_closed _ (fun v => v = 4 ∨ v = 5) (by decide!) p 4 0 hp (Or.inl rfl)
    omega
  · rw [JsonReader.ParsingRouteRequests_not_found _ 1 "A" "X" h1,
      JsonReader.ParsingRouteRequests_not_found _ 1 "C" "A" h2]

/-- C5 as amended: on a built router `FindRoute` answers a pair of different names of
which one is unknown and a pair of known names whose waiting vertices no walk connects
with the same empty optional, and for each of them the handler builds the same
document, the request id with the message `not found`. -/
theorem C5_not_found_and_no_route_coincide
    (ComputeDistance : Coordinates → Coordinates → ℚ) (cat : TransportCatalogue)
    (r0 r : TransportRouter) (g : DirectedWeightedGraph) (hv : PointersValid cat)
    (hb : TransportRouter.BuildGraph ComputeDistance cat r0 = .ok r)
    (hg : r.graph_ = some g)
    (from1 to1 : String) (hne : from1 ≠ to1)
    (hunk : mapFind from1 r.stop_ids_ = none ∨ mapFind to1 r.stop_ids_ = none)
    (from2 to2 : String) (a b : Nat)
    (hfrom : mapFind from2 r.stop_ids_ = some a) (hto : mapFind to2 r.stop_ids_ = some b)
    (hno : ∀ p, ¬ IsPath g (2 * a) (2 * b) p) (request_id : Int) :
    r.FindRoute from1 to1 = .ok none ∧ r.FindRoute from2 to2 = .ok none ∧
    JsonReader.ParsingRouteRequests r [(request_id, from1, to1)] =
      .ok (.array [.dict [("request_id", .int request_id),
                          ("error_message", .string "not found")]]) ∧
    JsonReader.ParsingRouteRequests r [(request_id, from2, to2)] =
      .ok (.array [.dict [("request_id", .int request_id),
                          ("error_message", .string "not found")]]) := by
  rw [BuildGraph_eq ComputeDistance cat r0 hv] at hb
  simp only [Except.ok.injEq] at hb
  subst hb
  have hg' : g = builtGraph ComputeDistance r0.settings_ cat := by
    simp only [builtRouter, routerWith, Option.some.injEq] at hg
    rw [← hg]; rfl
  subst hg'
  have h1 := FindRoute_unknown _ from1 to1 hne hunk
  have h2 := FindRoute_no_path ComputeDistance r0.settings_ cat from2 to2 a b hfrom hto hno
  exact ⟨h1, h2, JsonReader.ParsingRouteRequests_not_found _ _ _ _ h1,
    JsonReader.ParsingRouteRequests_not_found _ _ _ _ h2⟩

/-- Witness of C5 as amended on the worked example: `FindRoute(A, X)` and
`FindRoute(C, A)`. -/
theorem C5_not_found_and_no_route_coincide_witness :
    (builtRouter Examples.taxicab Examples.router5x60.settings_ Examples.catABC).FindRoute
        "A" "X" = .ok none ∧
    (builtRouter Examples.taxicab Examples.router5x60.settings_ Examples.catABC).FindRoute
        "C" "A" = .ok none ∧
    JsonReader.ParsingRouteRequests
        (builtRouter Examples.taxicab Examples.router5x60.settings_ Examples.catABC)
        [(1, "A", "X")] =
      .ok (.array [.dict [("request_id", .int 1), ("error_message", .string "not found")]]) ∧
    JsonReader.ParsingRouteRequests
        (builtRouter Examples.taxicab Examples.router5x60.settings_ Examples.catABC)
        [(1, "C", "A")] =
      .ok (.array [.dict [("request_id", .int 1), ("error_message", .string "not found")]]) :=
  C5_not_found_and_no_route_coincide Examples.taxicab Examples.catABC Examples.router5x60
    (builtRouter Examples.taxicab Examples.router5x60.settings_ Examples.catABC)
    (builtGraph Examples.taxicab Examples.router5x60.settings_ Examples.catABC)
    (by unfold PointersValid; decide) (by decide!) (by decide!)
    "A" "X" (by decide) (Or.inr (by decide!))
    "C" "A" 2 0 (by decide!) (by decide!)
    (fun p hp => by
      have := IsPath_closed _ (fun v => v = 4 ∨ v = 5) (by decide!) p (2 * 2) (2 * 0) hp
        (Or.inl rfl)
      omega)
    1

/-- C6: for every roundtrip bus of the catalogue and every pair of positions `i < j`
of its stored stops, the graph that `BuildGraph` produces has an edge from the boarded
vertex `2 * id(s_i) + 1` to the waiting vertex `2 * id(s_j)`, and the metadata recorded
under that edge's id has the bus's name and `span_count = j - i`. -/
theorem C6_roundtrip_travel_edges (ComputeDistance : Coordinates → Coordinates → ℚ)
    (cat : TransportCatalogue) (r0 r : TransportRouter) (bus : Bus) (i j : Nat)
    (hv : PointersValid cat)
    (hb : TransportRouter.BuildGraph ComputeDistance cat r0 = .ok r)
    (hbus : bus ∈ cat.buses_) (_hrt : bus.is_roundtrip = true)
    (hij : i < j) (hj : j < bus.stops.length) :
    ∃ g pi pj si sj a b edge_id edge info,
      r.graph_ = some g ∧ bus.stops[i]? = some pi ∧ bus.stops[j]? = some pj ∧
      cat.stops_[pi]? = some si ∧ cat.stops_[pj]? = some sj ∧
      mapFind si.name r.stop_ids_ = some a ∧ mapFind sj.name r.stop_ids_ = some b ∧
      g.edges_[edge_id]? = some edge ∧ edge.from_ = 2 * a + 1 ∧ edge.to_ = 2 * b ∧
      mapFind edge_id r.edge_to_bus_info_ = some info ∧
      info.bus_name = bus.name ∧ info.span_count = (j : Int) - (i : Int) := by
  rw [BuildGraph_eq ComputeDistance cat r0 hv] at hb
  simp only [Except.ok.injEq] at hb
  subst hb
  rcases forward_ride_built ComputeDistance r0.settings_ cat bus i j hbus hij hj with
    ⟨edge_id, _, h1, h2⟩
  rcases position_lookup cat bus i (hv bus hbus) (by omega) with ⟨hi1, hi2, hi3⟩
  rcases position_lookup cat bus j (hv bus hbus) hj with ⟨hj1, hj2, hj3⟩
  exact ⟨_, _, _, _, _, _, _, edge_id, _, _, rfl, hi1, hj1, hi2, hj2, hi3, hj3, h1,
    by simp only [fwdEdge, travelEdge]; omega, by simp only [fwdEdge, travelEdge]; omega,
    h2, rfl, rfl⟩

/-- Witness of C6 on the worked example: the ride of bus `1` from `A` (position 0) to
`C` (position 2). -/
theorem C6_roundtrip_travel_edges_witness :
    ∃ g pi pj si sj a b edge_id edge info,
      (builtRouter Examples.taxicab Examples.router5x60.settings_ Examples.catABC).graph_ =
        some g ∧
      ([0, 1, 2] : List Nat)[0]? = some pi ∧ ([0, 1, 2] : List Nat)[2]? = some pj ∧
      Examples.catABC.stops_[pi]? = some si ∧ Examples.catABC.stops_[pj]? = some sj ∧
      mapFind si.name
        (builtRouter Examples.taxicab Examples.router5x60.settings_ Examples.catABC).stop_ids_ =
        some a ∧
      mapFind sj.name
        (builtRouter Examples.taxicab Examples.router5x60.settings_ Examples.catABC).stop_ids_ =
        some b ∧
      g.edges_[edge_id]? = some edge ∧ edge.from_ = 2 * a + 1 ∧ edge.to_ = 2 * b ∧
      mapFind edge_id
        (builtRouter Examples.taxicab Examples.router5x60.settings_
          Examples.catABC).edge_to_bus_info_ = some info ∧
      info.bus_name = "1" ∧ info.span_count = ((2 : Nat) : Int) - ((0 : Nat) : Int) :=
  C6_roundtrip_travel_edges Examples.taxicab Examples.catABC Examples.router5x60
    (builtRouter Examples.taxicab Examples.router5x60.settings_ Examples.catABC)
    { name := "1", stops := [0, 1, 2], is_roundtrip := true } 0 2
    (by unfold PointersValid; decide) (by decide!) (by decide) rfl (by decide) (by decide)

/-- C7 fails as stated: for the roundtrip bus `2` with the stop list `A, B, A` and the
positions `0 < 1`, `ProcessRoundTripBus` generates an edge from the boarded vertex of
`s_1 = B` (vertex 3) to the waiting vertex of `s_0 = A` (vertex 0). -/
theorem C7_counterexample :
    mapFind "A" (routerWith Examples.router5x60.settings_ Examples.catABA []).stop_ids_ =
      some 0 ∧
    mapFind "B" (routerWith Examples.router5x60.settings_ Examples.catABA []).stop_ids_ =
      some 1 ∧
    ∃ r', TransportRouter.ProcessRoundTripBus Examples.taxicab Examples.catABA
          { name := "2", stops := [0, 1, 0], is_roundtrip := true }
          (routerWith Examples.router5x60.settings_ Examples.catABA []) = .ok r' ∧
      ∃ e ∈ generatedEdges (routerWith Examples.router5x60.settings_ Examples.catABA []) r',
        e.from_ = 2 * 1 + 1 ∧ e.to_ = 2 * 0 :=
  ⟨by decide!, by decide!,
    routerWith Examples.router5x60.settings_ Examples.catABA
      (fwdList Examples.taxicab (stopIds 0 Examples.catABA.stops_ []) 60 Examples.catABA
        { name := "2", stops := [0, 1, 0], is_roundtrip := true }),
    by decide!, by decide!⟩

/-- C7 as amended: among the edges that `ProcessRoundTripBus` generates for a roundtrip
bus there is, for positions `i < j`, an edge from the boarded vertex of `s_j` to the
waiting vertex of `s_i` exactly when the stop list has a stop with the name of `s_j`
at some position and a stop with the name of `s_i` at a later position (so there is
none when the names of the stored stops are pairwise different). The state in which
the bus is processed is any state reached after `InitializeStops`. -/
theorem C7_roundtrip_back_edge_iff (ComputeDistance : Coordinates → Coordinates → ℚ)
    (settings : RoutingSettings) (cat : TransportCatalogue) (bus : Bus)
    (L : List (Edge × BusEdge)) (i j : Nat)
    (hv : ∀ p ∈ bus.stops, p < cat.stops_.length) (_hrt : bus.is_roundtrip = true)
    (hij : i < j) (hj : j < bus.stops.length) :
    ∃ r', TransportRouter.ProcessRoundTripBus ComputeDistance cat bus
          (routerWith settings cat L) = .ok r' ∧
      ((∃ e ∈ generatedEdges (routerWith settings cat L) r',
          e.from_ = 2 * idOf r'.stop_ids_ (stopAt cat bus j).name + 1 ∧
          e.to_ = 2 * idOf r'.stop_ids_ (stopAt cat bus i).name) ↔
        ∃ i' j', i' < j' ∧ j' < bus.stops.length ∧
          (stopAt cat bus i').name = (stopAt cat bus j).name ∧
          (stopAt cat bus j').name = (stopAt cat bus i).name) := by
  rcases generatedEdges_roundTrip ComputeDistance settings cat bus hv L with ⟨r', h1, h2⟩
  have hr' : r' = routerWith settings cat
      (L ++ fwdList ComputeDistance (stopIds 0 cat.stops_ []) settings.bus_velocity cat bus) := by
    have := forwardLoops_routerWith ComputeDistance settings cat bus hv L
    simp only [TransportRouter.ProcessRoundTripBus] at h1
    rw [this] at h1
    simp only [Except.ok.injEq] at h1
    exact h1.symm
  have hids : r'.stop_ids_ = stopIds 0 cat.stops_ [] := by rw [hr']; rfl
  refine ⟨r', h1, ?_⟩
  rw [h2, hids]
  constructor
  · rintro ⟨e, he, hf, ht⟩
    rcases List.mem_map.1 he with ⟨x, hx, rfl⟩
    rcases (mem_fwdList ComputeDistance _ _ _ _ _).1 hx with ⟨i', j', h3, h4, rfl⟩
    simp only [fwdEdge, travelEdge] at hf ht
    refine ⟨i', j', h3, h4, ?_, ?_⟩
    · exact (idOf_stopAt_eq_iff cat bus i' j hv (by omega) hj).1 (by omega)
    · exact (idOf_stopAt_eq_iff cat bus j' i hv h4 (by omega)).1 (by omega)
  · rintro ⟨i', j', h3, h4, h5, h6⟩
    refine ⟨_, List.mem_map.2 ⟨_, (mem_fwdList ComputeDistance _ _ _ _ _).2
      ⟨i', j', h3, h4, rfl⟩, rfl⟩, ?_, ?_⟩
    · simp only [fwdEdge, travelEdge, h5]; omega
    · simp only [fwdEdge, travelEdge, h6]; omega

/-- Witness of C7 as amended on the bus `2` with the stop list `A, B, A`. -/
theorem C7_roundtrip_back_edge_iff_witness :
    ∃ r', TransportRouter.ProcessRoundTripBus Examples.taxicab Examples.catABA
          { name := "2", stops := [0, 1, 0], is_roundtrip := true }
          (routerWith Examples.router5x60.settings_ Examples.catABA []) = .ok r' ∧
      ((∃ e ∈ generatedEdges (routerWith Examples.router5x60.settings_ Examples.catABA []) r',
          e.from_ = 2 * idOf r'.stop_ids_
            (stopAt Examples.catABA { name := "2", stops := [0, 1, 0], is_roundtrip := true }
              1).name + 1 ∧
          e.to_ = 2 * idOf r'.stop_ids_
            (stopAt Examples.catABA { name := "2", stops := [0, 1, 0], is_roundtrip := true }
              0).name) ↔
        ∃ i' j', i' < j' ∧ j' < 3 ∧
          (stopAt Examples.catABA { name := "2", stops := [0, 1, 0], is_roundtrip := true }
            i').name =
          (stopAt Examples.catABA { name := "2", stops := [0, 1, 0], is_roundtrip := true }
            1).name ∧
          (stopAt Examples.catABA { name := "2", stops := [0, 1, 0], is_roundtrip := true }
            j').name =
          (stopAt Examples.catABA { name := "2", stops := [0, 1, 0], is_roundtrip := true }
            0).name) :=
  C7_roundtrip_back_edge_iff Examples.taxicab Examples.router5x60.settings_ Examples.catABA
    { name := "2", stops := [0, 1, 0], is_roundtrip := true } [] 0 1
    (by decide) rfl (by decide) (by decide)

/-- C8: for every linear (non-roundtrip) bus of the catalogue and every pair of
positions `i < j` of its stored stops, the graph that `BuildGraph` produces has a
forward edge `board(s_i) → wait(s_j)` and a reverse edge `board(s_j) → wait(s_i)`, and
the metadata recorded under the id of each has the bus's name and
`span_count = j - i`. -/
theorem C8_linear_travel_edges (ComputeDistance : Coordinates → Coordinates → ℚ)
    (cat : TransportCatalogue) (r0 r : TransportRouter) (bus : Bus) (i j : Nat)
    (hv : PointersValid cat)
    (hb : TransportRouter.BuildGraph ComputeDistance cat r0 = .ok r)
    (hbus : bus ∈ cat.buses_) (hlin : bus.is_roundtrip = false)
    (hij : i < j) (hj : j < bus.stops.length) :
    ∃ g pi pj si sj a b,
      r.graph_ = some g ∧ bus.stops[i]? = some pi ∧ bus.stops[j]? = some pj ∧
      cat.stops_[pi]? = some si ∧ cat.stops_[pj]? = some sj ∧
      mapFind si.name r.stop_ids_ = some a ∧ mapFind sj.name r.stop_ids_ = some b ∧
      (∃ edge_id edge info,
        g.edges_[edge_id]? = some edge ∧ edge.from_ = 2 * a + 1 ∧ edge.to_ = 2 * b ∧
        mapFind edge_id r.edge_to_bus_info_ = some info ∧
        info.bus_name = bus.name ∧ info.span_count = (j : Int) - (i : Int)) ∧
      (∃ edge_id edge info,
        g.edges_[edge_id]? = some edge ∧ edge.from_ = 2 * b + 1 ∧ edge.to_ = 2 * a ∧
        mapFind edge_id r.edge_to_bus_info_ = some info ∧
        info.bus_name = bus.name ∧ info.span_count = (j : Int) - (i : Int)) := by
  rw [BuildGraph_eq ComputeDistance cat r0 hv] at hb
  simp only [Except.ok.injEq] at hb
  subst hb
  rcases forward_ride_built ComputeDistance r0.settings_ cat bus i j hbus hij hj with
    ⟨fwd_id, _, h1, h2⟩
  rcases backward_ride_built ComputeDistance r0.settings_ cat bus j i hbus hlin hij hj with
    ⟨bwd_id, _, h3, h4⟩
  rcases position_lookup cat bus i (hv bus hbus) (by omega) with ⟨hi1, hi2, hi3⟩
  rcases position_lookup cat bus j (hv bus hbus) hj with ⟨hj1, hj2, hj3⟩
  refine ⟨_, _, _, _, _, _, _, rfl, hi1, hj1, hi2, hj2, hi3, hj3, ?_, ?_⟩
  · exact ⟨fwd_id, _, _, h1, by simp only [fwdEdge, travelEdge]; omega,
      by simp only [fwdEdge, travelEdge]; omega, h2, rfl, rfl⟩
  · exact ⟨bwd_id, _, _, h3, by simp only [bwdEdge, travelEdge]; omega,
      by simp only [bwdEdge, travelEdge]; omega, h4, rfl, rfl⟩

/-- Witness of C8 on the linear bus `3` through `A`, `B`, `C`: the rides between `A`
(position 0) and `C` (position 2). -/
theorem C8_linear_travel_edges_witness :
    ∃ g pi pj si sj a b,
      (builtRouter Examples.taxicab Examples.router5x60.settings_ Examples.catLinear).graph_ =
        some g ∧
      ([0, 1, 2] : List Nat)[0]? = some pi ∧ ([0, 1, 2] : List Nat)[2]? = some pj ∧
      Examples.catLinear.stops_[pi]? = some si ∧ Examples.catLinear.stops_[pj]? = some sj ∧
      mapFind si.name
        (builtRouter Examples.taxicab Examples.router5x60.settings_
          Examples.catLinear).stop_ids_ = some a ∧
      mapFind sj.name
        (builtRouter Examples.taxicab Examples.router5x60.settings_
          Examples.catLinear).stop_ids_ = some b ∧
      (∃ edge_id edge info,
        g.edges_[edge_id]? = some edge ∧ edge.from_ = 2 * a + 1 ∧ edge.to_ = 2 * b ∧
        mapFind edge_id
          (builtRouter Examples.taxicab Examples.router5x60.settings_
            Examples.catLinear).edge_to_bus_info_ = some info ∧
        info.bus_name = "3" ∧ info.span_count = ((2 : Nat) : Int) - ((0 : Nat) : Int)) ∧
      (∃ edge_id edge info,
        g.edges_[edge_id]? = some edge ∧ edge.from_ = 2 * b + 1 ∧ edge.to_ = 2 * a ∧
        mapFind edge_id
          (builtRouter Examples.taxicab Examples.router5x60.settings_
            Examples.catLinear).edge_to_bus_info_ = some info ∧
        info.bus_name = "3" ∧ info.span_count = ((2 : Nat) : Int) - ((0 : Nat) : Int)) :=
  C8_linear_travel_edges Examples.taxicab Examples.catLinear Examples.router5x60
    (builtRouter Examples.taxicab Examples.router5x60.settings_ Examples.catLinear)
    { name := "3", stops := [0, 1, 2], is_roundtrip := false } 0 2
    (by unfold PointersValid; decide) (by decide!) (by decide) rfl (by decide) (by decide)

/-- C10, the code at the failing input: the pair `X → Y` is recorded with the value 0,
`GetDistance` returns that 0, and the builder replaces it by the truncated geometric
estimate 100000, so that the ride from `X` to `Y` weighs 100 minutes instead of 0. -/
theorem C10_recorded_zero_is_replaced :
    mapFind (0, 1) Examples.catZero.distances_ = some 0 ∧
    Examples.catZero.GetDistance 0 1 = 0 ∧
    truncToInt (Examples.taxicab { lat := 0, lng := 0 } { lat := 0, lng := 1 }) = 100000 ∧
    TransportRouter.segmentDistance Examples.taxicab Examples.catZero 0 1 = .ok 100000 ∧
    TransportRouter.BuildGraph Examples.taxicab Examples.catZero Examples.router5x60 =
      .ok (builtRouter Examples.taxicab Examples.router5x60.settings_ Examples.catZero) ∧
    (builtGraph Examples.taxicab Examples.router5x60.settings_ Examples.catZero).edges_[2]? =
      some { from_ := 1, to_ := 2, weight := 100 } := by
  decide!

end transport

/-! ## Claims on the distance table and the shape of the built graph -/

namespace transport_catalogue

theorem mapFind_mapAssign_same {κ ν : Type} [DecidableEq κ] (m : List (κ × ν)) (k : κ) (v : ν) :
    mapFind k (mapAssign m k v) = some v := by
  simp [mapAssign, mapFind]

theorem mapFind_mapAssign_other {κ ν : Type} [DecidableEq κ] (m : List (κ × ν)) (k k' : κ)
    (v : ν) (h : k' ≠ k) : mapFind k (mapAssign m k' v) = mapFind k m := by
  simp [mapAssign, mapFind, h]

/-- A pair that is recorded is answered with its own value, whatever the table holds
for other pairs. -/
theorem GetDistance_recorded (c : TransportCatalogue) (a b : Nat) (d : Int)
    (h : mapFind (a, b) c.distances_ = some d) : c.GetDistance a b = d := by
  simp [TransportCatalogue.GetDistance, h]

/-- A pair that is not recorded is answered with the value of the opposite pair when
that one is recorded. -/
theorem GetDistance_fallback (c : TransportCatalogue) (a b : Nat) (d : Int)
    (h1 : mapFind (a, b) c.distances_ = none) (h2 : mapFind (b, a) c.distances_ = some d) :
    c.GetDistance a b = d := by
  simp [TransportCatalogue.GetDistance, h1, h2]

/-- Recordings for the pair `(b, a)` leave the entry of a different pair `(a, b)` as it
is. -/
theorem mapFind_later_recordings (a b : Nat) (hne : a ≠ b) (later : List Int) :
    ∀ (c : TransportCatalogue),
      mapFind (a, b) (later.foldl (fun c x => c.SetDistance b a x) c).distances_ =
        mapFind (a, b) c.distances_ := by
  induction later with
  | nil => intro c; rfl
  | cons x xs ih =>
    intro c
    rw [List.foldl_cons, ih]
    apply mapFind_mapAssign_other
    intro h
    simp only [Prod.mk.injEq] at h
    exact hne h.2

/-- C11: when only the pair `A → B` is recorded in the distance table and `B → A` is
not, `GetDistance(B, A)` returns the same number as `GetDistance(A, B)`, the recorded
`A → B` value. -/
theorem C11_reverse_lookup_returns_forward_value (c : TransportCatalogue) (a b : Nat)
    (d : Int) (h1 : mapFind (a, b) c.distances_ = some d)
    (h2 : mapFind (b, a) c.distances_ = none) :
    c.GetDistance b a = d ∧ c.GetDistance a b = d ∧ c.GetDistance b a = c.GetDistance a b := by
  have hf := GetDistance_recorded c a b d h1
  have hr := GetDistance_fallback c b a d h2 h1
  exact ⟨hr, hf, by rw [hr, hf]⟩

/-- Witness of C11 on the worked example, where `A → B = 1000` is recorded and `B → A`
is not. -/
theorem C11_reverse_lookup_returns_forward_value_witness :
    transport.Examples.catABC.GetDistance 1 0 = 1000 ∧
    transport.Examples.catABC.GetDistance 0 1 = 1000 ∧
    transport.Examples.catABC.GetDistance 1 0 = transport.Examples.catABC.GetDistance 0 1 :=
  C11_reverse_lookup_returns_forward_value transport.Examples.catABC 0 1 1000
    (by decide) (by decide)

/-- C12: after `SetDistance(A, B, d)`, `GetDistance(A, B)` returns `d` whatever the
table held before; for two different stops it still returns `d` after any later
recordings for the opposite pair `(B, A)`, and when both pairs are recorded each
lookup returns the value of its own pair. -/
theorem C12_lookup_is_directional (c : TransportCatalogue) (a b : Nat) (d d' : Int)
    (later : List Int) :
    (c.SetDistance a b d).GetDistance a b = d ∧
    (a ≠ b →
      (later.foldl (fun c x => c.SetDistance b a x) (c.SetDistance a b d)).GetDistance a b = d ∧
      ((c.SetDistance a b d).SetDistance b a d').GetDistance a b = d ∧
      ((c.SetDistance a b d).SetDistance b a d').GetDistance b a = d') ∧
    (∀ (c' : TransportCatalogue), mapFind (a, b) c'.distances_ = some d →
      mapFind (b, a) c'.distances_ = some d' →
      c'.GetDistance a b = d ∧ c'.GetDistance b a = d') := by
  refine ⟨?_, ?_, ?_⟩
  · exact GetDistance_recorded _ a b d (mapFind_mapAssign_same _ _ _)
  · intro hne
    refine ⟨?_, ?_, ?_⟩
    · apply GetDistance_recorded
      rw [mapFind_later_recordings a b hne later]
      exact mapFind_mapAssign_same _ _ _
    · apply GetDistance_recorded
      have := mapFind_later_recordings a b hne [d'] (c.SetDistance a b d)
      simp only [List.foldl_cons, List.foldl_nil] at this
      rw [this]
      exact mapFind_mapAssign_same _ _ _
    · exact GetDistance_recorded _ b a d' (mapFind_mapAssign_same _ _ _)
  · intro c' h1 h2
    exact ⟨GetDistance_recorded c' a b d h1, GetDistance_recorded c' b a d' h2⟩

/-- Witness of C12 on the stops 0 and 1 of the worked example, with `A → B = 700`
followed by the recordings 1, 2, 3 for `B → A`, and on the network whose table has
`A → B = 1000` and `B → A = 2000`. -/
theorem C12_lookup_is_directional_witness :
    ((([1, 2, 3] : List Int).foldl (fun c x => c.SetDistance 1 0 x)
        (transport.Examples.catABC.SetDistance 0 1 700)).GetDistance 0 1 = 700 ∧
      ((transport.Examples.catABC.SetDistance 0 1 700).SetDistance 1 0 900).GetDistance 0 1 =
        700 ∧
      ((transport.Examples.catABC.SetDistance 0 1 700).SetDistance 1 0 900).GetDistance 1 0 =
        900) ∧
    (transport.Examples.catLinear.GetDistance 0 1 = 1000 ∧
      transport.Examples.catLinear.GetDistance 1 0 = 2000) :=
  ⟨(C12_lookup_is_directional transport.Examples.catABC 0 1 700 900 [1, 2, 3]).2.1
      (by decide),
    (C12_lookup_is_directional transport.Examples.catABC 0 1 1000 2000 []).2.2
      transport.Examples.catLinear (by decide) (by decide)⟩

end transport_catalogue

namespace transport

open transport_catalogue graph

/-- C13: in the graph that `BuildGraph` produces, the edge with id `k` is, for every
position `k` of the catalogue's stop sequence, the wait edge from the waiting vertex
`2k` to the boarded vertex `2k + 1` with the weight `bus_wait_time`, and every edge
that starts at an even vertex is the wait edge of the stop at half that vertex: each
stop has exactly one wait edge and no other edge starts at a waiting vertex. -/
theorem C13_one_wait_edge_per_stop (ComputeDistance : Coordinates → Coordinates → ℚ)
    (cat : TransportCatalogue) (r0 r : TransportRouter) (hv : PointersValid cat)
    (hb : TransportRouter.BuildGraph ComputeDistance cat r0 = .ok r) :
    ∃ g, r.graph_ = some g ∧
      (∀ k, k < cat.stops_.length →
        g.edges_[k]? =
          some { from_ := 2 * k, to_ := 2 * k + 1, weight := r0.settings_.bus_wait_time }) ∧
      (∀ edge_id edge, g.edges_[edge_id]? = some edge → edge.from_ % 2 = 0 →
        edge_id < cat.stops_.length ∧ edge.from_ = 2 * edge_id ∧
          edge.to_ = 2 * edge_id + 1 ∧ edge.weight = r0.settings_.bus_wait_time) := by
  rw [BuildGraph_eq ComputeDistance cat r0 hv] at hb
  simp only [Except.ok.injEq] at hb
  subst hb
  refine ⟨builtGraph ComputeDistance r0.settings_ cat, rfl, ?_, ?_⟩
  · intro k hk
    simp only [builtGraph]
    rw [List.getElem?_append_left (by simpa [waitEdges_length] using hk)]
    simp [waitEdges, List.getElem?_range hk]
  · intro edge_id edge he heven
    rcases built_edge_id_cases ComputeDistance r0.settings_ cat edge_id edge he with
      ⟨hlt, rfl⟩ | ⟨_, x, hx, rfl⟩
    · exact ⟨hlt, rfl, rfl, rfl⟩
    · exfalso
      rcases (mem_allTravel ComputeDistance r0.settings_ cat x).1 (List.getElem?_mem hx) with
        ⟨bus, _, i, j, _, _, ⟨_, rfl⟩ | ⟨_, _, rfl⟩⟩
      · simp only [fwdEdge, travelEdge] at heven; omega
      · simp only [bwdEdge, travelEdge] at heven; omega

/-- Witness of C13 on the worked example. -/
theorem C13_one_wait_edge_per_stop_witness :
    ∃ g,
      (builtRouter Examples.taxicab Examples.router5x60.settings_ Examples.catABC).graph_ =
        some g ∧
      (∀ k, k < Examples.catABC.stops_.length →
        g.edges_[k]? =
          some { from_ := 2 * k, to_ := 2 * k + 1,
                 weight := Examples.router5x60.settings_.bus_wait_time }) ∧
      (∀ edge_id edge, g.edges_[edge_id]? = some edge → edge.from_ % 2 = 0 →
        edge_id < Examples.catABC.stops_.length ∧ edge.from_ = 2 * edge_id ∧
          edge.to_ = 2 * edge_id + 1 ∧
          edge.weight = Examples.router5x60.settings_.bus_wait_time) :=
  C13_one_wait_edge_per_stop Examples.taxicab Examples.catABC Examples.router5x60
    (builtRouter Examples.taxicab Examples.router5x60.settings_ Examples.catABC)
    (by unfold PointersValid; decide) (by decide!)

theorem sum_range_descending (n : Nat) :
    2 * ((List.range n).map (fun i => n - (i + 1))).sum = n * (n - 1) := by
  induction n with
  | zero => simp
  | succ n ih =>
    rw [List.range_succ_eq_map, List.map_cons, List.map_map, List.sum_cons]
    have h : ((fun i => n + 1 - (i + 1)) ∘ Nat.succ) = fun i => n - (i + 1) := by
      funext i; simp only [Function.comp, Nat.succ_eq_add_one]; omega
    rw [h, Nat.mul_add, ih]
    cases n with
    | zero => simp
    | succ m => simp only [Nat.add_sub_cancel]; ring

theorem sum_range_ascending (m : Nat) :
    2 * (List.range' 1 m).sum = m * (m + 1) := by
  induction m with
  | zero => simp
  | succ m ih =>
    rw [List.range'_concat, List.sum_append, Nat.mul_add, ih]
    simp only [List.sum_cons, List.sum_nil]
    ring

section
variable (ComputeDistance : Coordinates → Coordinates → ℚ)

theorem fwdList_length (ids : List (String × Nat)) (velocity : ℚ) (cat : TransportCatalogue)
    (bus : Bus) :
    (fwdList ComputeDistance ids velocity cat bus).length =
      bus.stops.length * (bus.stops.length - 1) / 2 := by
  have h : (fwdList ComputeDistance ids velocity cat bus).length =
      ((List.range bus.stops.length).map (fun i => bus.stops.length - (i + 1))).sum := by
    simp only [fwdList, List.length_flatMap]
    congr 1
    apply List.map_congr_left
    intro i _
    simp
  rw [h, ← sum_range_descending bus.stops.length]
  omega

theorem bwdList_length (ids : List (String × Nat)) (velocity : ℚ) (cat : TransportCatalogue)
    (bus : Bus) :
    (bwdList ComputeDistance ids velocity cat bus).length =
      bus.stops.length * (bus.stops.length - 1) / 2 := by
  have h : (bwdList ComputeDistance ids velocity cat bus).length =
      (List.range' 1 (bus.stops.length - 1)).sum := by
    simp only [bwdList, List.length_flatMap]
    rw [List.map_reverse, List.sum_reverse]
    congr 1
    have : ∀ l : List Nat,
        l.map (List.length ∘ fun i =>
          (List.range i).reverse.map (bwdEdge ComputeDistance ids velocity cat bus i)) = l := by
      intro l
      induction l with
      | nil => rfl
      | cons a l ih =>
        rw [List.map_cons, ih]
        simp
    exact this _
  have h2 := sum_range_ascending (bus.stops.length - 1)
  rw [h]
  cases hn : bus.stops.length with
  | zero => simp
  | succ n =>
    rw [hn] at h2
    simp only [Nat.add_sub_cancel] at h2 ⊢
    have h3 : (n + 1) * n = n * (n + 1) := Nat.mul_comm _ _
    omega

/-- The number of travel edges of a bus: `N (N - 1) / 2` for a roundtrip bus with `N`
stored stops and `N (N - 1)` for a linear one. -/
theorem busList_length (ids : List (String × Nat)) (velocity : ℚ) (cat : TransportCatalogue)
    (bus : Bus) :
    (busList ComputeDistance ids velocity cat bus).length =
      if bus.is_roundtrip then bus.stops.length * (bus.stops.length - 1) / 2
      else bus.stops.length * (bus.stops.length - 1) := by
  unfold busList
  by_cases he : bus.stops.isEmpty = true
  · have : bus.stops = [] := List.isEmpty_iff.1 he
    simp [he, this]
  · by_cases hr : bus.is_roundtrip = true
    · simp only [he, hr, if_true, Bool.false_eq_true, if_false]
      exact fwdList_length ComputeDistance ids velocity cat bus
    · simp only [he, hr, Bool.false_eq_true, if_false, List.length_append,
        fwdList_length, bwdList_length]
      have hev : 2 ∣ bus.stops.length * (bus.stops.length - 1) := by
        have := sum_range_descending bus.stops.length
        exact ⟨_, this.symm⟩
      omega

end

theorem sum_map_ite_filter {α : Type} (p : α → Bool) (f g : α → Nat) (l : List α) :
    (l.map (fun b => if p b then f b else g b)).sum =
      ((l.filter p).map f).sum + ((l.filter (fun b => !p b)).map g).sum := by
  induction l with
  | nil => rfl
  | cons a l ih =>
    by_cases h : p a = true
    · simp only [List.map_cons, List.sum_cons, h, if_true, List.filter_cons_of_pos,
        Bool.not_true, Bool.false_eq_true, not_false_eq_true, List.filter_cons_of_neg, ih]
      omega
    · have h' : p a = false := by simpa using h
      simp only [List.map_cons, List.sum_cons, h', Bool.false_eq_true, if_false,
        not_false_eq_true, List.filter_cons_of_neg, Bool.not_false, List.filter_cons_of_pos, ih]
      omega

/-- The number of edges of the built graph. -/
theorem builtGraph_length (ComputeDistance : Coordinates → Coordinates → ℚ)
    (settings : RoutingSettings) (cat : TransportCatalogue) :
    (builtGraph ComputeDistance settings cat).edges_.length =
      cat.stops_.length +
        ((cat.buses_.filter (fun b => b.is_roundtrip)).map
          (fun b => b.stops.length * (b.stops.length - 1) / 2)).sum +
        ((cat.buses_.filter (fun b => !b.is_roundtrip)).map
          (fun b => b.stops.length * (b.stops.length - 1))).sum := by
  simp only [builtGraph, List.length_append, waitEdges_length, List.length_map, allTravel,
    List.length_flatMap]
  have h : (cat.buses_.map (List.length ∘
      busList ComputeDistance (stopIds 0 cat.stops_ []) settings.bus_velocity cat)) =
      cat.buses_.map (fun b =>
        if b.is_roundtrip then b.stops.length * (b.stops.length - 1) / 2
        else b.stops.length * (b.stops.length - 1)) := by
    apply List.map_congr_left
    intro b _
    exact busList_length ComputeDistance _ _ cat b
  rw [h, sum_map_ite_filter]
  exact (Nat.add_assoc _ _ _).symm

/-- C14: on a catalogue with `S` stops `BuildGraph` completes, buses without stops
included, and the graph it produces has `S` edges plus `N (N - 1) / 2` for every
roundtrip bus and `N (N - 1)` for every linear bus, `N` being the number of stops
stored in the bus (none for a bus with no stop or one stop). -/
theorem C14_edge_count (ComputeDistance : Coordinates → Coordinates → ℚ)
    (cat : TransportCatalogue) (r0 : TransportRouter) (hv : PointersValid cat) :
    ∃ r g, TransportRouter.BuildGraph ComputeDistance cat r0 = .ok r ∧ r.graph_ = some g ∧
      g.edges_.length =
        cat.stops_.length +
          ((cat.buses_.filter (fun b => b.is_roundtrip)).map
            (fun b => b.stops.length * (b.stops.length - 1) / 2)).sum +
          ((cat.buses_.filter (fun b => !b.is_roundtrip)).map
            (fun b => b.stops.length * (b.stops.length - 1))).sum :=
  ⟨_, _, BuildGraph_eq ComputeDistance cat r0 hv, rfl,
    builtGraph_length ComputeDistance r0.settings_ cat⟩

/-- Witness of C14 on a network with three stops, a roundtrip bus of three stops, a
linear bus without stops, a linear bus of two stops and a roundtrip bus of one stop:
3 + 3 + 0 + 2 + 0 = 8 edges. -/
theorem C14_edge_count_witness :
    (Examples.catMixed.stops_.length = 3 ∧
      Examples.catMixed.buses_.map (fun b => (b.stops.length, b.is_roundtrip)) =
        [(3, true), (0, false), (2, false), (1, true)] ∧
      (builtGraph Examples.taxicab Examples.router5x60.settings_
        Examples.catMixed).edges_.length = 8) ∧
    ∃ r g, TransportRouter.BuildGraph Examples.taxicab Examples.catMixed Examples.router5x60 =
        .ok r ∧ r.graph_ = some g ∧
      g.edges_.length =
        Examples.catMixed.stops_.length +
          ((Examples.catMixed.buses_.filter (fun b => b.is_roundtrip)).map
            (fun b => b.stops.length * (b.stops.length - 1) / 2)).sum +
          ((Examples.catMixed.buses_.filter (fun b => !b.is_roundtrip)).map
            (fun b => b.stops.length * (b.stops.length - 1))).sum :=
  ⟨by decide!,
    C14_edge_count Examples.taxicab Examples.catMixed Examples.router5x60
      (by unfold PointersValid; decide)⟩

end transport

/-! ## Claims on the population of the catalogue and on rebuilding -/

namespace transport_catalogue

/-- A pointer that `FindStop` returns designates a stop with the name asked for. -/
theorem FindStop_valid (c : TransportCatalogue) (hn : NamesValid c) (name : String) (p : Nat)
    (h : c.FindStop name = some p) : (c.stops_[p]?).map Stop.name = some name :=
  hn (name, p) (transport.mapFind_mem name p _ h)

theorem FindStop_lt (c : TransportCatalogue) (hn : NamesValid c) (name : String) (p : Nat)
    (h : c.FindStop name = some p) : p < c.stops_.length := by
  have := FindStop_valid c hn name p h
  by_contra hlt
  rw [List.getElem?_eq_none (by omega)] at this
  simp at this

/-- The stops that `AddBus` stores are valid pointers when the name table is valid. -/
theorem PointersValid_AddBus (c : TransportCatalogue) (name : String)
    (stop_names : List String) (is_roundtrip : Bool) (hn : NamesValid c)
    (hv : transport.PointersValid c) :
    transport.PointersValid (c.AddBus name stop_names is_roundtrip) := by
  intro bus hbus p hp
  simp only [TransportCatalogue.AddBus, List.mem_append, List.mem_singleton] at hbus ⊢
  rcases hbus with hbus | rfl
  · exact hv bus hbus p hp
  · simp only [List.mem_filterMap] at hp
    rcases hp with ⟨n, _, hn'⟩
    exact FindStop_lt c hn n p hn'

/-- The names of the stops that `filterMap FindStop` keeps are the known names among
the given ones, in order. -/
theorem filterMap_FindStop_names (c : TransportCatalogue) (hn : NamesValid c) :
    ∀ (stop_names : List String),
      (stop_names.filterMap c.FindStop).map (fun p => (c.stops_[p]?).map Stop.name) =
        (stop_names.filter (fun n => (c.FindStop n).isSome)).map some := by
  intro stop_names
  induction stop_names with
  | nil => rfl
  | cons n ns ih =>
    cases h : c.FindStop n with
    | none => simp [List.filterMap_cons, h, ih]
    | some p =>
      have := FindStop_valid c hn n p h
      simp [List.filterMap_cons, h, ih, this]

/-- C16: `AddBus` is total, and for every list of stop names the bus it stores has
exactly the stops that `FindStop` knows at the time of the call, in the given order
and with repetitions: the names of the stored stops are the known names among the
given ones. The stops, the name table and the distance table are left as they are. -/
theorem C16_AddBus_stores_known_stops (c : TransportCatalogue) (name : String)
    (stop_names : List String) (is_roundtrip : Bool) (hn : NamesValid c) :
    (c.AddBus name stop_names is_roundtrip).buses_ =
      c.buses_ ++ [{ name := name, stops := stop_names.filterMap c.FindStop,
                     is_roundtrip := is_roundtrip }] ∧
    (stop_names.filterMap c.FindStop).map (fun p => (c.stops_[p]?).map Stop.name) =
      (stop_names.filter (fun n => (c.FindStop n).isSome)).map some ∧
    (c.AddBus name stop_names is_roundtrip).FindBus name = some c.buses_.length ∧
    (c.AddBus name stop_names is_roundtrip).stops_ = c.stops_ ∧
    (c.AddBus name stop_names is_roundtrip).stopname_to_stop_ = c.stopname_to_stop_ ∧
    (c.AddBus name stop_names is_roundtrip).distances_ = c.distances_ :=
  ⟨rfl, filterMap_FindStop_names c hn stop_names,
    by simp [TransportCatalogue.AddBus, TransportCatalogue.FindBus, mapAssign, mapFind],
    rfl, rfl, rfl⟩

/-- Witness of C16: the names `A, Z, C, A, Q` given to `AddBus` on the worked example,
of which `Z` and `Q` are unknown; the stops `A, C, A` are stored. -/
theorem C16_AddBus_stores_known_stops_witness :
    ((transport.Examples.catABC.AddBus "8" ["A", "Z", "C", "A", "Q"] false).buses_ =
        transport.Examples.catABC.buses_ ++
          [{ name := "8", stops := [0, 2, 0], is_roundtrip := false }]) ∧
    ((["A", "Z", "C", "A", "Q"].filterMap transport.Examples.catABC.FindStop).map
        (fun p => (transport.Examples.catABC.stops_[p]?).map Stop.name) =
      [some "A", some "C", some "A"]) :=
  ⟨(C16_AddBus_stores_known_stops transport.Examples.catABC "8" ["A", "Z", "C", "A", "Q"]
      false (by unfold NamesValid; decide)).1,
    by decide⟩

end transport_catalogue

namespace JsonReader

open transport_catalogue

theorem knownDistances_cons (c : TransportCatalogue) (name : String) (kv : String × Int)
    (rest : List (String × Int)) :
    knownDistances c name (kv :: rest) =
      knownDistances c name [kv] ++ knownDistances c name rest := by
  have : kv :: rest = [kv] ++ rest := rfl
  simp only [knownDistances]
  rw [this, List.filterMap_append]

/-- One round of the loop of `ProcessRoadDistances` in a catalogue that has the name
table of `c`. -/
theorem roadDistances_step (c c1 : TransportCatalogue) (name : String) (kv : String × Int)
    (h1 : c1.stopname_to_stop_ = c.stopname_to_stop_) :
    (match c.FindStop name, c1.FindStop kv.1 with
      | some from_, some to_ => c1.SetDistance from_ to_ kv.2
      | _, _ => c1) =
      { c1 with distances_ := (knownDistances c name [kv]).reverse ++ c1.distances_ } := by
  have hfind : c1.FindStop kv.1 = c.FindStop kv.1 := by
    simp only [TransportCatalogue.FindStop, h1]
  rw [hfind]
  cases hf : c.FindStop name with
  | none => simp [knownDistances, hf]
  | some from_ =>
    cases ht : c.FindStop kv.1 with
    | none => simp [knownDistances, hf, ht]
    | some to_ => simp [knownDistances, hf, ht, TransportCatalogue.SetDistance, mapAssign]

/-- The loop of `ProcessRoadDistances` from any catalogue that has the name table of
`c`: the entries with a known source and a known destination are put in front of the
distance table, the last one first, and nothing else changes. -/
theorem roadDistances_fold (c : TransportCatalogue) (name : String) :
    ∀ (road_distances : List (String × Int)) (c1 : TransportCatalogue),
      c1.stopname_to_stop_ = c.stopname_to_stop_ →
      road_distances.foldl
          (fun c' kv =>
            match c.FindStop name, c'.FindStop kv.1 with
            | some from_, some to_ => c'.SetDistance from_ to_ kv.2
            | _, _ => c')
          c1 =
        { c1 with
          distances_ := (knownDistances c name road_distances).reverse ++ c1.distances_ } := by
  intro road_distances
  induction road_distances with
  | nil => intro c1 _; simp [knownDistances]
  | cons kv rest ih =>
    intro c1 h1
    rw [List.foldl_cons]
    have hstep := roadDistances_step c c1 name kv h1
    simp only [] at hstep ⊢
    rw [hstep,
      ih { c1 with distances_ := (knownDistances c name [kv]).reverse ++ c1.distances_ } h1,
      knownDistances_cons c name kv rest, List.reverse_append, List.append_assoc]

/-- The result of `ProcessRoadDistances`. -/
theorem ProcessRoadDistances_eq (c : TransportCatalogue) (name : String)
    (road_distances : List (String × Int)) :
    ProcessRoadDistances c name road_distances =
      { c with
        distances_ := (knownDistances c name road_distances).reverse ++ c.distances_ } :=
  roadDistances_fold c name road_distances c rfl

/-- C17: `ProcessRoadDistances` is total; the distance table gains exactly the entries
of the request whose source name and destination name are both known stops, each with
its value and in the order of the request, and none for an entry with an unknown
name; the request has the same effect as the request without those entries, and the
rest of the catalogue is unchanged. -/
theorem C17_unknown_road_distances_ignored (c : TransportCatalogue) (name : String)
    (road_distances : List (String × Int)) :
    (ProcessRoadDistances c name road_distances).distances_ =
      (knownDistances c name road_distances).reverse ++ c.distances_ ∧
    (∀ entry, entry ∈ knownDistances c name road_distances ↔
      ∃ kv ∈ road_distances, ∃ from_ to_, c.FindStop name = some from_ ∧
        c.FindStop kv.1 = some to_ ∧ entry = ((from_, to_), kv.2)) ∧
    ProcessRoadDistances c name road_distances =
      ProcessRoadDistances c name
        (road_distances.filter
          (fun kv => (c.FindStop name).isSome && (c.FindStop kv.1).isSome)) ∧
    (ProcessRoadDistances c name road_distances).stops_ = c.stops_ ∧
    (ProcessRoadDistances c name road_distances).buses_ = c.buses_ ∧
    (ProcessRoadDistances c name road_distances).stopname_to_stop_ = c.stopname_to_stop_ ∧
    (ProcessRoadDistances c name road_distances).busname_to_bus_ = c.busname_to_bus_ ∧
    (ProcessRoadDistances c name road_distances).stop_to_buses_ = c.stop_to_buses_ := by
  refine ⟨by rw [ProcessRoadDistances_eq], ?_, ?_, by rw [ProcessRoadDistances_eq],
    by rw [ProcessRoadDistances_eq], by rw [ProcessRoadDistances_eq],
    by rw [ProcessRoadDistances_eq], by rw [ProcessRoadDistances_eq]⟩
  · intro entry
    simp only [knownDistances, List.mem_filterMap]
    constructor
    · rintro ⟨kv, hkv, h⟩
      cases hf : c.FindStop name with
      | none => simp [hf] at h
      | some from_ =>
        cases ht : c.FindStop kv.1 with
        | none => simp [hf, ht] at h
        | some to_ =>
          simp only [hf, ht, Option.some.injEq] at h
          exact ⟨kv, hkv, from_, to_, rfl, ht, h.symm⟩
    · rintro ⟨kv, hkv, from_, to_, hf, ht, rfl⟩
      exact ⟨kv, hkv, by simp [hf, ht]⟩
  · rw [ProcessRoadDistances_eq, ProcessRoadDistances_eq]
    congr 2
    simp only [knownDistances]
    congr 1
    induction road_distances with
    | nil => rfl
    | cons kv rest ih =>
      cases hf : c.FindStop name with
      | none => simp [hf, List.filterMap_cons]
      | some from_ =>
        cases ht : c.FindStop kv.1 with
        | none =>
          simp only [hf] at ih
          simp [hf, ht, List.filterMap_cons, ih]
        | some to_ =>
          simp only [hf] at ih
          simp [hf, ht, List.filterMap_cons, ih]

end JsonReader

namespace transport

open transport_catalogue graph

/-- C15: the router that `BuildGraph` produces depends on the routing settings and the
catalogue only: every router with the same settings, whatever its earlier state,
builds the same router; building again right away reproduces it; and building again
after a bus was added gives what a fresh router with the same settings builds from
the enlarged catalogue. -/
theorem C15_build_depends_on_catalogue_only
    (ComputeDistance : Coordinates → Coordinates → ℚ) (cat : TransportCatalogue)
    (r0 r1 : TransportRouter) (bus_name : String) (stop_names : List String)
    (is_roundtrip : Bool) (hv : PointersValid cat) (hn : NamesValid cat)
    (hb : TransportRouter.BuildGraph ComputeDistance cat r0 = .ok r1) :
    (∀ r0' : TransportRouter, r0'.settings_ = r0.settings_ →
      TransportRouter.BuildGraph ComputeDistance cat r0' = .ok r1) ∧
    TransportRouter.BuildGraph ComputeDistance cat r1 = .ok r1 ∧
    ∃ r2,
      TransportRouter.BuildGraph ComputeDistance
          (cat.AddBus bus_name stop_names is_roundtrip) r1 = .ok r2 ∧
      TransportRouter.BuildGraph ComputeDistance
          (cat.AddBus bus_name stop_names is_roundtrip) { settings_ := r0.settings_ } =
        .ok r2 := by
  rw [BuildGraph_eq ComputeDistance cat r0 hv] at hb
  simp only [Except.ok.injEq] at hb
  subst hb
  have hv' := PointersValid_AddBus cat bus_name stop_names is_roundtrip hn hv
  refine ⟨?_, ?_, _, BuildGraph_eq ComputeDistance _ _ hv', ?_⟩
  · intro r0' hs
    rw [BuildGraph_eq ComputeDistance cat r0' hv, hs]
  · rw [BuildGraph_eq ComputeDistance cat _ hv]
    rfl
  · rw [BuildGraph_eq ComputeDistance _ _ hv']
    rfl

/-- Witness of C15 on the worked example: a second build from the built router, a
build from a router with the same settings left over from another network, and a
build after the linear bus `9` through `C`, `A` was added. -/
theorem C15_build_depends_on_catalogue_only_witness :
    (∀ r0' : TransportRouter, r0'.settings_ = Examples.router5x60.settings_ →
      TransportRouter.BuildGraph Examples.taxicab Examples.catABC r0' =
        .ok (builtRouter Examples.taxicab Examples.router5x60.settings_ Examples.catABC)) ∧
    TransportRouter.BuildGraph Examples.taxicab Examples.catABC
        (builtRouter Examples.taxicab Examples.router5x60.settings_ Examples.catABC) =
      .ok (builtRouter Examples.taxicab Examples.router5x60.settings_ Examples.catABC) ∧
    ∃ r2,
      TransportRouter.BuildGraph Examples.taxicab
          (Examples.catABC.AddBus "9" ["C", "A"] false)
          (builtRouter Examples.taxicab Examples.router5x60.settings_ Examples.catABC) =
        .ok r2 ∧
      TransportRouter.BuildGraph Examples.taxicab
          (Examples.catABC.AddBus "9" ["C", "A"] false)
          { settings_ := Examples.router5x60.settings_ } = .ok r2 :=
  C15_build_depends_on_catalogue_only Examples.taxicab Examples.catABC Examples.router5x60
    (builtRouter Examples.taxicab Examples.router5x60.settings_ Examples.catABC)
    "9" ["C", "A"] false
    (by unfold PointersValid; decide) (by unfold NamesValid; decide) (by decide!)

/-- A bus with at most one stop gives no travel edge. -/
theorem busList_of_short (ComputeDistance : Coordinates → Coordinates → ℚ)
    (ids : List (String × Nat)) (velocity : ℚ) (cat : TransportCatalogue) (bus : Bus)
    (h : bus.stops.length ≤ 1) : busList ComputeDistance ids velocity cat bus = [] := by
  have hf : fwdList ComputeDistance ids velocity cat bus = [] := by
    apply List.eq_nil_iff_forall_not_mem.2
    intro x hx
    rcases (mem_fwdList ComputeDistance ids velocity cat bus x).1 hx with ⟨i, j, _, _, _⟩
    omega
  have hb : bwdList ComputeDistance ids velocity cat bus = [] := by
    apply List.eq_nil_iff_forall_not_mem.2
    intro x hx
    rcases (mem_bwdList ComputeDistance ids velocity cat bus x).1 hx with ⟨i, j, _, _, _⟩
    omega
  unfold busList
  rw [hf, hb]
  simp

theorem allTravel_of_short (ComputeDistance : Coordinates → Coordinates → ℚ)
    (settings : RoutingSettings) (cat : TransportCatalogue)
    (h : ∀ bus ∈ cat.buses_, bus.stops.length ≤ 1) :
    allTravel ComputeDistance settings cat = [] := by
  apply List.eq_nil_iff_forall_not_mem.2
  intro x hx
  rcases (mem_allTravel ComputeDistance settings cat x).1 hx with ⟨bus, hb, i, j, _, _, _⟩
  have := h bus hb
  omega

/-- C18 fails as stated: with the default-constructed settings (`bus_wait_time = 0`,
`bus_velocity = 0`) on a network of two stops without a bus the build call returns
normally and produces the graph of the two wait edges, of weight 0 (no division is
involved). -/
theorem C18_counterexample :
    Examples.routerDefault.settings_.bus_velocity ≤ 0 ∧
    Examples.catStops.buses_ = [] ∧
    ∃ r, TransportRouter.BuildGraph Examples.taxicab Examples.catStops
          Examples.routerDefault = .ok r ∧
      r.graph_ =
        some { vertex_count := 4
               edges_ := [{ from_ := 0, to_ := 1, weight := 0 },
                          { from_ := 2, to_ := 3, weight := 0 }] } :=
  ⟨by decide!, by decide,
    builtRouter Examples.taxicab Examples.routerDefault.settings_ Examples.catStops,
    by decide!, by decide!⟩

/-- C18 as amended: `BuildGraph` performs no check of the configuration. For every
routing configuration (a velocity `≤ 0`, a negative wait time and the default settings
included) its graph-building steps, `InitializeStops` and `ProcessBusRoutes` on the
cleared router, return normally with the settings kept and with the graph on `2 S`
vertices whose first `S` edges are the wait edges weighted `bus_wait_time` and, for a
velocity other than `0`, whose other edges are weighted
`total_distance / (bus_velocity * VELOCITY_COEF)`; for the velocity `0` the divisor
`bus_velocity * VELOCITY_COEF` is `0`. When the wait time is not negative and no bus
has more than one stop, so that all weights are the wait time, the build call
returns normally with the graph of the wait edges, whatever the velocity. -/
theorem C18_build_accepts_every_configuration
    (ComputeDistance : Coordinates → Coordinates → ℚ) (cat : TransportCatalogue)
    (r0 : TransportRouter) (hv : PointersValid cat) :
    (∃ r1 g,
      TransportRouter.ProcessBusRoutes ComputeDistance cat
          (TransportRouter.InitializeStops cat
            { r0 with
              stops_ := [], stop_ids_ := [], edges_ := [], edge_to_bus_info_ := []
              graph_ := none, router_ := none }) = .ok r1 ∧
      r1.settings_ = r0.settings_ ∧ r1.graph_ = some g ∧
      g.vertex_count = cat.stops_.length * 2 ∧
      g.edges_.take cat.stops_.length =
        (List.range cat.stops_.length).map
          (fun i => { from_ := 2 * i, to_ := 2 * i + 1,
                      weight := r0.settings_.bus_wait_time }) ∧
      (r0.settings_.bus_velocity ≠ 0 →
        ∀ e ∈ g.edges_.drop cat.stops_.length, ∃ total_distance : Int,
          e.weight =
            (total_distance : ℚ) / (r0.settings_.bus_velocity * VELOCITY_COEF)) ∧
      (r0.settings_.bus_velocity = 0 → r0.settings_.bus_velocity * VELOCITY_COEF = 0)) ∧
    (0 ≤ r0.settings_.bus_wait_time → (∀ bus ∈ cat.buses_, bus.stops.length ≤ 1) →
      ∃ r, TransportRouter.BuildGraph ComputeDistance cat r0 = .ok r ∧
        r.settings_ = r0.settings_ ∧
        r.graph_ =
          some { vertex_count := cat.stops_.length * 2
                 edges_ := (List.range cat.stops_.length).map
                   (fun i => { from_ := 2 * i, to_ := 2 * i + 1,
                               weight := r0.settings_.bus_wait_time }) }) := by
  refine ⟨⟨routerWith r0.settings_ cat (allTravel ComputeDistance r0.settings_ cat),
    builtGraph ComputeDistance r0.settings_ cat, ?_, rfl, rfl, rfl, ?_, ?_, ?_⟩, ?_⟩
  · have h0 := InitializeStops_eq r0.settings_ cat
    have h1 := processBuses_routerWith ComputeDistance r0.settings_ cat cat.buses_ [] hv
    simp only [List.nil_append] at h1
    simp only [TransportRouter.ProcessBusRoutes, TransportCatalogue.GetBuses]
    rw [h0, h1]
    rfl
  · simp only [builtGraph]
    rw [List.take_left' (waitEdges_length _ _)]
    rfl
  · intro _ e he
    simp only [builtGraph] at he
    rw [List.drop_left' (waitEdges_length _ _)] at he
    rcases List.mem_map.1 he with ⟨x, hx, rfl⟩
    rcases (mem_allTravel ComputeDistance r0.settings_ cat x).1 hx with
      ⟨bus, _, i, j, _, _, ⟨_, rfl⟩ | ⟨_, _, rfl⟩⟩
    · exact ⟨fwdDist ComputeDistance cat bus i j, rfl⟩
    · exact ⟨bwdDist ComputeDistance cat bus i j, rfl⟩
  · intro h
    rw [h, zero_mul]
  · intro _ hshort
    refine ⟨_, BuildGraph_eq ComputeDistance cat r0 hv, rfl, ?_⟩
    simp only [builtRouter, routerWith,
      allTravel_of_short ComputeDistance r0.settings_ cat hshort, List.map_nil,
      List.append_nil, waitEdges]

/-- Witness of C18 as amended: the default-constructed settings on the network of two
stops without a bus. -/
theorem C18_build_accepts_every_configuration_witness :
    PointersValid Examples.catStops ∧
    (0 : ℚ) ≤ Examples.routerDefault.settings_.bus_wait_time ∧
    (∀ bus ∈ Examples.catStops.buses_, bus.stops.length ≤ 1) ∧
    ∃ r, TransportRouter.BuildGraph Examples.taxicab Examples.catStops
        Examples.routerDefault = .ok r ∧
      r.settings_ = Examples.routerDefault.settings_ ∧
      r.graph_ =
        some { vertex_count := Examples.catStops.stops_.length * 2
               edges_ := (List.range Examples.catStops.stops_.length).map
                 (fun i => { from_ := 2 * i, to_ := 2 * i + 1,
                             weight := Examples.routerDefault.settings_.bus_wait_time }) } :=
  ⟨by unfold PointersValid; decide, by decide!, by decide,
    (C18_build_accepts_every_configuration Examples.taxicab Examples.catStops
      Examples.routerDefault (by unfold PointersValid; decide)).2 (by decide!) (by decide)⟩

/-- C19 fails as stated: on a router on which `BuildGraph` was never called,
`FindRoute(A, B)` returns the empty optional and `FindRoute(A, A)` returns the
zero-time route; neither call fails. -/
theorem C19_counterexample :
    Examples.router5x60.FindRoute "A" "B" = .ok none ∧
    Examples.router5x60.FindRoute "A" "A" = .ok (some { total_time := 0, items := [] }) := by
  decide!

/-- C19 as amended: on a router on which `BuildGraph` was never called, `FindRoute`
returns normally for every pair of names: the zero-time route without items when the
two names are equal, the empty optional otherwise. -/
theorem C19_query_before_build (settings : RoutingSettings) (from_ to_ : String) :
    TransportRouter.FindRoute { settings_ := settings } from_ to_ =
      .ok (if from_ = to_ then some { total_time := 0, items := [] } else none) := by
  by_cases h : from_ = to_
  · simp [TransportRouter.FindRoute, h, pure, Except.pure]
  · simp only [h, if_false]
    exact FindRoute_unknown _ from_ to_ h (Or.inl rfl)

/-- C20: for every catalogue whose recorded distances are non-negative, with a
non-negative geometric distance, `bus_wait_time ≥ 0` and `bus_velocity > 0`, every
edge of the graph that `BuildGraph` produces, wait edge or travel edge, has a weight
`≥ 0`, and so has the `time` of every metadata entry. -/
theorem C20_weights_nonnegative (ComputeDistance : Coordinates → Coordinates → ℚ)
    (cat : TransportCatalogue) (r0 r : TransportRouter) (hv : PointersValid cat)
    (hwait : 0 ≤ r0.settings_.bus_wait_time) (hvel : 0 < r0.settings_.bus_velocity)
    (hdist : ∀ entry ∈ cat.distances_, 0 ≤ entry.2)
    (hgeo : ∀ a b, 0 ≤ ComputeDistance a b)
    (hb : TransportRouter.BuildGraph ComputeDistance cat r0 = .ok r) :
    ∃ g, r.graph_ = some g ∧ (∀ e ∈ g.edges_, 0 ≤ e.weight) ∧
      ∀ entry ∈ r.edge_to_bus_info_, 0 ≤ entry.2.time := by
  rw [BuildGraph_eq ComputeDistance cat r0 hv] at hb
  simp only [Except.ok.injEq] at hb
  subst hb
  have hw := builtGraph_weight_nonneg ComputeDistance r0.settings_ cat hwait hvel hdist hgeo
  refine ⟨builtGraph ComputeDistance r0.settings_ cat, rfl, hw, ?_⟩
  intro entry he
  simp only [builtRouter, routerWith, infoTable, List.mem_reverse] at he
  obtain ⟨k, m⟩ := entry
  have hmem : m ∈ (allTravel ComputeDistance r0.settings_ cat).map Prod.snd :=
    List.getElem?_mem (List.mk_mem_enumFrom_iff_le_and_getElem?_sub.1 he).2
  rcases List.mem_map.1 hmem with ⟨x, hx, hxe⟩
  rw [← hxe]
  have htime : x.2.time = x.1.weight := by
    rcases (mem_allTravel ComputeDistance r0.settings_ cat x).1 hx with
      ⟨bus, _, i, j, _, _, ⟨_, rfl⟩ | ⟨_, _, rfl⟩⟩
    · rfl
    · rfl
  rw [htime]
  apply hw
  simp only [builtGraph, List.mem_append, List.mem_map]
  exact Or.inr ⟨x, hx, rfl⟩

/-- Witness of C20 on the network with the linear bus `3`. -/
theorem C20_weights_nonnegative_witness :
    ∃ g,
      (builtRouter Examples.taxicab Examples.router5x60.settings_ Examples.catLinear).graph_ =
        some g ∧
      (∀ e ∈ g.edges_, 0 ≤ e.weight) ∧
      ∀ entry ∈ (builtRouter Examples.taxicab Examples.router5x60.settings_
          Examples.catLinear).edge_to_bus_info_, 0 ≤ entry.2.time :=
  C20_weights_nonnegative Examples.taxicab Examples.catLinear Examples.router5x60
    (builtRouter Examples.taxicab Examples.router5x60.settings_ Examples.catLinear)
    (by unfold PointersValid; decide) (by decide!) (by decide!) (by decide!)
    (fun a b => by unfold Examples.taxicab; positivity) (by decide!)

end transport

/-! ## The invariants hold for every catalogue populated through its operations -/

namespace transport_catalogue

theorem NamesValid_empty : NamesValid {} := by
  intro entry he
  cases he

theorem PointersValid_empty : transport.PointersValid {} := by
  intro bus hb
  cases hb

theorem NamesValid_AddStop (c : TransportCatalogue) (name : String) (coord : Coordinates)
    (hn : NamesValid c) : NamesValid (c.AddStop name coord) := by
  intro entry he
  simp only [TransportCatalogue.AddStop, mapAssign, List.mem_cons] at he ⊢
  rcases he with rfl | he
  · simp
  · have h := hn entry he
    have hlt : entry.2 < c.stops_.length := by
      by_contra hlt
      rw [List.getElem?_eq_none (by omega)] at h
      simp at h
    rw [List.getElem?_append_left hlt]
    exact h

theorem PointersValid_AddStop (c : TransportCatalogue) (name : String) (coord : Coordinates)
    (hv : transport.PointersValid c) : transport.PointersValid (c.AddStop name coord) := by
  intro bus hb p hp
  have := hv bus hb p hp
  simp only [TransportCatalogue.AddStop, List.length_append, List.length_singleton]
  omega

theorem NamesValid_AddBus (c : TransportCatalogue) (name : String) (stop_names : List String)
    (is_roundtrip : Bool) (hn : NamesValid c) :
    NamesValid (c.AddBus name stop_names is_roundtrip) :=
  hn

theorem NamesValid_SetDistance (c : TransportCatalogue) (a b : Nat) (d : Int)
    (hn : NamesValid c) : NamesValid (c.SetDistance a b d) :=
  hn

theorem PointersValid_SetDistance (c : TransportCatalogue) (a b : Nat) (d : Int)
    (hv : transport.PointersValid c) : transport.PointersValid (c.SetDistance a b d) :=
  hv

end transport_catalogue

/-! ## Claims on the worked example and on the itinerary -/

namespace transport

open transport_catalogue graph

/-- The reconstruction loop on the built router, item by item: the list of edge ids
and the list of items correspond position by position. -/
theorem routeItems_built_forall (ComputeDistance : Coordinates → Coordinates → ℚ)
    (settings : RoutingSettings) (cat : TransportCatalogue) :
    ∀ (p : List Nat) (acc : List RouteItem),
      (∀ e ∈ p, ∃ ed, (builtGraph ComputeDistance settings cat).edges_[e]? = some ed) →
      ∃ its, p.foldlM
            (TransportRouter.routeItemStep (builtRouter ComputeDistance settings cat)) acc =
          .ok (acc ++ its) ∧
        List.Forall₂
          (ItemOfEdge cat (builtRouter ComputeDistance settings cat)
            (builtGraph ComputeDistance settings cat)) p its := by
  intro p
  induction p with
  | nil => intro acc _; exact ⟨[], by simp [pure, Except.pure], List.Forall₂.nil⟩
  | cons e es ih =>
    intro acc h
    rcases h e (List.mem_cons_self _ _) with ⟨ed, hed⟩
    rcases routeItemStep_built ComputeDistance settings cat acc e ed hed with
      ⟨item, h1, h2, h3⟩
    rcases ih (acc ++ [item]) (fun e' he' => h e' (List.mem_cons_of_mem _ he')) with
      ⟨its, h4, h5⟩
    refine ⟨item :: its, ?_, List.Forall₂.cons ?_ h5⟩
    · rw [List.foldlM_cons, h1]
      simp only [bind, Except.bind]
      rw [h4]
      simp
    · refine ⟨ed, hed, h2, ?_⟩
      rcases h3 with ⟨_, hf, ht, s, hs, rfl⟩ | ⟨_, hodd, x, hx, rfl, hinfo, rfl⟩
      · exact Or.inl ⟨e, s, hf, ht, hs, rfl, rfl⟩
      · rcases (mem_allTravel ComputeDistance settings cat x).1 hx with
          ⟨bus, _, i, j, _, _, ⟨_, rfl⟩ | ⟨_, _, rfl⟩⟩
        · exact Or.inr ⟨hodd, by simp [fwdEdge, travelEdge], _, hinfo, rfl, rfl, rfl, rfl⟩
        · exact Or.inr ⟨hodd, by simp [bwdEdge, travelEdge], _, hinfo, rfl, rfl, rfl, rfl⟩

/-- A successful query between two different names on the built router: the solver's
answer is a walk between the two waiting vertices and the items correspond to its
edges position by position. -/
theorem FindRoute_items_built (ComputeDistance : Coordinates → Coordinates → ℚ)
    (settings : RoutingSettings) (cat : TransportCatalogue) (from_ to_ : String)
    (res : RouteInfo) (hne : from_ ≠ to_)
    (hf : (builtRouter ComputeDistance settings cat).FindRoute from_ to_ = .ok (some res)) :
    ∃ a b route, mapFind from_ (stopIds 0 cat.stops_ []) = some a ∧
      mapFind to_ (stopIds 0 cat.stops_ []) = some b ∧
      Router.BuildRoute { graph_ := builtGraph ComputeDistance settings cat } (a * 2) (b * 2) =
        some route ∧
      IsPath (builtGraph ComputeDistance settings cat) (a * 2) (b * 2) route.edges ∧
      List.Forall₂
        (ItemOfEdge cat (builtRouter ComputeDistance settings cat)
          (builtGraph ComputeDistance settings cat)) route.edges res.items := by
  rcases FindRoute_some _ from_ to_ res hne hf with
    ⟨a, b, router, route, ha, hb, hr, hq, hitems, _⟩
  simp only [builtRouter, Option.some.injEq] at hr
  subst hr
  rcases BuildRoute_real (builtGraph ComputeDistance settings cat) _ _ route hq with ⟨h1, _⟩
  rcases routeItems_built_forall ComputeDistance settings cat route.edges []
    (IsPath_valid _ _ _ _ h1) with ⟨its, h3, h4⟩
  rw [h3] at hitems
  simp only [List.nil_append, Except.ok.injEq] at hitems
  subst hitems
  exact ⟨a, b, route, ha, hb, hq, h1, h4⟩

/-- Along a walk of the built graph the items follow the parity of the vertices: the
item at position `i` of a walk from `u` is a `WAIT` item when `u + i` is even and a
`BUS` item otherwise, and the walk ends at a vertex of the parity of `u + length`. -/
theorem items_follow_parity (cat : TransportCatalogue) (r : TransportRouter)
    (g : DirectedWeightedGraph) :
    ∀ (p : List Nat) (its : List RouteItem) (u v : Nat), IsPath g u v p →
      List.Forall₂ (ItemOfEdge cat r g) p its →
      (u + its.length) % 2 = v % 2 ∧
      ∀ i item, its[i]? = some item →
        item.type = if (u + i) % 2 = 0 then RouteItem.Type.WAIT else RouteItem.Type.BUS := by
  intro p
  induction p with
  | nil =>
    intro its u v hp hfa
    cases hfa
    simp only [IsPath] at hp
    subst hp
    exact ⟨rfl, fun i item h => by simp at h⟩
  | cons e es ih =>
    intro its u v hp hfa
    cases hfa with
    | cons hx hrest =>
      rename_i x xs
      rcases hp with ⟨ed, hed, hfrom, hp⟩
      rcases hx with ⟨edge, hedge, _, hcase⟩
      rw [hed] at hedge
      cases hedge
      rcases ih xs ed.to_ v hp hrest with ⟨h1, h2⟩
      have hpar : ed.to_ % 2 = (u + 1) % 2 ∧
          x.type = if u % 2 = 0 then RouteItem.Type.WAIT else RouteItem.Type.BUS := by
        rcases hcase with ⟨k, s, hf, ht, _, hty, _⟩ | ⟨hodd, heven, info, _, hty, _⟩
        · have hu : u % 2 = 0 := by omega
          exact ⟨by omega, by rw [hty, if_pos hu]⟩
        · have hu : ¬ u % 2 = 0 := by omega
          exact ⟨by omega, by rw [hty, if_neg hu]⟩
      refine ⟨?_, ?_⟩
      · simp only [List.length_cons]
        omega
      · intro i item hi
        cases i with
        | zero =>
          simp only [List.getElem?_cons_zero, Option.some.injEq] at hi
          subst hi
          simpa using hpar.2
        | succ i =>
          simp only [List.getElem?_cons_succ] at hi
          rw [h2 i item hi]
          have : (ed.to_ + i) % 2 = (u + (i + 1)) % 2 := by omega
          rw [this]

/-- A query between two different known names for which the solver returns a route:
`FindRoute` returns the route's weight as total time and the items of the route's
edges. -/
theorem FindRoute_built_of_route (ComputeDistance : Coordinates → Coordinates → ℚ)
    (settings : RoutingSettings) (cat : TransportCatalogue) (from_ to_ : String)
    (a b : Nat) (route : graph.RouteInfo) (hne : from_ ≠ to_)
    (ha : mapFind from_ (stopIds 0 cat.stops_ []) = some a)
    (hb : mapFind to_ (stopIds 0 cat.stops_ []) = some b)
    (hq : Router.BuildRoute { graph_ := builtGraph ComputeDistance settings cat } (a * 2)
      (b * 2) = some route) :
    ∃ items, (builtRouter ComputeDistance settings cat).FindRoute from_ to_ =
        .ok (some { total_time := route.weight, items := items }) ∧
      List.Forall₂
        (ItemOfEdge cat (builtRouter ComputeDistance settings cat)
          (builtGraph ComputeDistance settings cat)) route.edges items := by
  rcases BuildRoute_real (builtGraph ComputeDistance settings cat) _ _ route hq with ⟨h1, _⟩
  rcases routeItems_built_forall ComputeDistance settings cat route.edges []
    (IsPath_valid _ _ _ _ h1) with ⟨its, h3, h4⟩
  refine ⟨its, ?_, h4⟩
  have hids : (builtRouter ComputeDistance settings cat).stop_ids_ =
      stopIds 0 cat.stops_ [] := rfl
  have hrouter : (builtRouter ComputeDistance settings cat).router_ =
      some { graph_ := builtGraph ComputeDistance settings cat } := rfl
  simp only [List.nil_append] at h3
  simp only [TransportRouter.FindRoute, hne, if_false, hids, ha, hb, hrouter,
    Option.isNone_some, Bool.or_self, Bool.false_eq_true, mapAt, derefPtr, bind, Except.bind,
    pure, Except.pure, hq, h3]

/-- C22: on a built router the reconstruction emits exactly one item per edge, in
order, and never fails on an edge of the graph. For every list of edge ids of the
graph the loop returns a list of items that corresponds to it position by position
(wait edge `2k → 2k+1`: a `WAIT` item with the name of stop `k` and the weight as
time; any other edge: it starts at an odd vertex, has a metadata entry recorded
under its id and gives a `BUS` item with the entry's bus name and span count and the
weight as time). Whenever the solver returns a route for two different known names,
`FindRoute` returns a result whose total time is the route's weight and whose items
correspond in this way to the route's edges; and every result of `FindRoute` for two
different names arises so. -/
theorem C22_one_item_per_path_edge (ComputeDistance : Coordinates → Coordinates → ℚ)
    (cat : TransportCatalogue) (r0 r : TransportRouter) (hv : PointersValid cat)
    (hb : TransportRouter.BuildGraph ComputeDistance cat r0 = .ok r) :
    ∃ g router, r.graph_ = some g ∧ r.router_ = some router ∧
      (∀ p : List Nat, (∀ e ∈ p, e < g.edges_.length) →
        ∃ items, p.foldlM (TransportRouter.routeItemStep r) [] = .ok items ∧
          List.Forall₂ (ItemOfEdge cat r g) p items) ∧
      (∀ (from_ to_ : String) (a b : Nat) (route : graph.RouteInfo), from_ ≠ to_ →
        mapFind from_ r.stop_ids_ = some a → mapFind to_ r.stop_ids_ = some b →
        router.BuildRoute (a * 2) (b * 2) = some route →
        ∃ res, r.FindRoute from_ to_ = .ok (some res) ∧ res.total_time = route.weight ∧
          res.items.length = route.edges.length ∧
          List.Forall₂ (ItemOfEdge cat r g) route.edges res.items) ∧
      (∀ (from_ to_ : String) (res : RouteInfo), from_ ≠ to_ →
        r.FindRoute from_ to_ = .ok (some res) →
        ∃ a b route, mapFind from_ r.stop_ids_ = some a ∧
          mapFind to_ r.stop_ids_ = some b ∧
          router.BuildRoute (a * 2) (b * 2) = some route ∧
          List.Forall₂ (ItemOfEdge cat r g) route.edges res.items) := by
  rw [BuildGraph_eq ComputeDistance cat r0 hv] at hb
  simp only [Except.ok.injEq] at hb
  subst hb
  refine ⟨builtGraph ComputeDistance r0.settings_ cat,
    { graph_ := builtGraph ComputeDistance r0.settings_ cat }, rfl, rfl, ?_, ?_, ?_⟩
  · intro p hp
    rcases routeItems_built_forall ComputeDistance r0.settings_ cat p []
      (fun e he => ⟨_, List.getElem?_eq_getElem (hp e he)⟩) with ⟨its, h1, h2⟩
    exact ⟨its, by simpa using h1, h2⟩
  · intro from_ to_ a b route hne ha hb hq
    rcases FindRoute_built_of_route ComputeDistance r0.settings_ cat from_ to_ a b route hne
      ha hb hq with ⟨items, h1, h2⟩
    exact ⟨_, h1, rfl, h2.length_eq.symm, h2⟩
  · intro from_ to_ res hne hf
    rcases FindRoute_items_built ComputeDistance r0.settings_ cat from_ to_ res hne hf with
      ⟨a, b, route, ha, hb, hq, _, hfa⟩
    exact ⟨a, b, route, ha, hb, hq, hfa⟩

/-- Witness of C22 on the worked example: for the query from `A` to `C` the solver
returns the route of weight 7 over the wait edge `0` of `A` and the travel edge `4`
from `A` to `C`, and `FindRoute` returns the two items of these edges. -/
theorem C22_one_item_per_path_edge_witness :
    PointersValid Examples.catABC ∧
    Router.BuildRoute
        { graph_ := builtGraph Examples.taxicab Examples.router5x60.settings_
            Examples.catABC } (0 * 2) (2 * 2) =
      some { weight := 7, edges := [0, 4] } ∧
    (builtRouter Examples.taxicab Examples.router5x60.settings_ Examples.catABC).FindRoute
        "A" "C" =
      .ok (some
        { total_time := 7
          items :=
            [{ type := .WAIT, stop_name := "A", bus_name := "", time := 5, span_count := 0 },
             { type := .BUS, stop_name := "", bus_name := "1", time := 2,
               span_count := 2 }] }) ∧
    (∃ res,
      (builtRouter Examples.taxicab Examples.router5x60.settings_ Examples.catABC).FindRoute
          "A" "C" = .ok (some res) ∧
        res.total_time = 7 ∧ res.items.length = 2 ∧
        List.Forall₂
          (ItemOfEdge Examples.catABC
            (builtRouter Examples.taxicab Examples.router5x60.settings_ Examples.catABC)
            (builtGraph Examples.taxicab Examples.router5x60.settings_ Examples.catABC))
          [0, 4] res.items) :=
  ⟨by unfold PointersValid; decide, by decide!, by decide!,
    by
      rcases C22_one_item_per_path_edge Examples.taxicab Examples.catABC Examples.router5x60
        (builtRouter Examples.taxicab Examples.router5x60.settings_ Examples.catABC)
        (by unfold PointersValid; decide) (by decide!) with
        ⟨g, router, hg, hr, _, h2, _⟩
      simp only [builtRouter, routerWith, Option.some.injEq] at hg hr
      subst hg
      subst hr
      exact h2 "A" "C" 0 2 { weight := 7, edges := [0, 4] } (by decide) (by decide)
        (by decide) (by decide!)⟩

/-- C24: on a built router, the items of every successful `FindRoute(from, to)` with
`from ≠ to` are `2 n` many for some `n ≥ 1`, the item at every even position is a
`WAIT` and the item at every odd position is a `BUS`, so no two neighbours have the
same type; the first item is a `WAIT` at the stop `from` and the last one is a
`BUS`. -/
theorem C24_wait_and_bus_alternate (ComputeDistance : Coordinates → Coordinates → ℚ)
    (cat : TransportCatalogue) (r0 r : TransportRouter) (from_ to_ : String)
    (res : RouteInfo) (hv : PointersValid cat)
    (hb : TransportRouter.BuildGraph ComputeDistance cat r0 = .ok r)
    (hne : from_ ≠ to_) (hf : r.FindRoute from_ to_ = .ok (some res)) :
    (∃ n, 0 < n ∧ res.items.length = 2 * n) ∧
    (∀ i item, res.items[i]? = some item →
      item.type = if i % 2 = 0 then RouteItem.Type.WAIT else RouteItem.Type.BUS) ∧
    (∀ i x y, res.items[i]? = some x → res.items[i + 1]? = some y → x.type ≠ y.type) ∧
    (∃ first, res.items.head? = some first ∧ first.type = .WAIT ∧
      first.stop_name = from_) ∧
    (∃ last, res.items.getLast? = some last ∧ last.type = .BUS) := by
  rw [BuildGraph_eq ComputeDistance cat r0 hv] at hb
  simp only [Except.ok.injEq] at hb
  subst hb
  rcases FindRoute_items_built ComputeDistance r0.settings_ cat from_ to_ res hne hf with
    ⟨a, b, route, ha, hb, _, hp, hfa⟩
  generalize route.edges = p at hp hfa
  generalize res.items = its at hfa ⊢
  rcases items_follow_parity cat _ _ p its (a * 2) (b * 2) hp hfa with ⟨hlen, hty⟩
  have hty2 : ∀ i item, its[i]? = some item →
      item.type = if i % 2 = 0 then RouteItem.Type.WAIT else RouteItem.Type.BUS := by
    intro i item hi
    rw [hty i item hi]
    have : (a * 2 + i) % 2 = i % 2 := by omega
    rw [this]
  have hab : a ≠ b := by
    intro h
    subst h
    exact hne (stopIds_injective cat.stops_ from_ to_ a ha hb)
  have hpos : 0 < its.length := by
    cases hfa with
    | nil =>
      simp only [IsPath] at hp
      omega
    | cons _ _ => simp
  have hfirst : ∃ first, its.head? = some first ∧ first.type = .WAIT ∧
      first.stop_name = from_ := by
    cases hfa with
    | nil => simp at hpos
    | cons hx _ =>
      rename_i e x es xs _
      refine ⟨x, by simp, ?_, ?_⟩
      · have := hty2 0 x (by simp)
        simpa using this
      · rcases hp with ⟨ed, hed, hfrom, _⟩
        rcases hx with ⟨edge, hedge, _, hcase⟩
        rw [hed] at hedge
        cases hedge
        rcases hcase with ⟨k, s, hf2, _, hs, _, hname⟩ | ⟨hodd, _⟩
        · have hk : k = a := by omega
          subst hk
          rcases stopIds_bound cat.stops_ from_ k ha with ⟨_, s2, hs2, hn2⟩
          rw [hs] at hs2
          cases hs2
          rw [hname, hn2]
        · omega
  refine ⟨⟨its.length / 2, by omega, by omega⟩, hty2, ?_, hfirst, ?_⟩
  · intro i x y hx hy
    rw [hty2 i x hx, hty2 (i + 1) y hy]
    by_cases h : i % 2 = 0
    · have h2 : ¬ (i + 1) % 2 = 0 := by omega
      rw [if_pos h, if_neg h2]
      decide
    · have h2 : (i + 1) % 2 = 0 := by omega
      rw [if_neg h, if_pos h2]
      decide
  · have hl : its.getLast? = its[its.length - 1]? :=
      List.getLast?_eq_getElem? _
    have hlt : its.length - 1 < its.length := by omega
    refine ⟨its[its.length - 1], ?_, ?_⟩
    · rw [hl, List.getElem?_eq_getElem hlt]
    · have := hty2 (its.length - 1) _ (List.getElem?_eq_getElem hlt)
      have hodd : ¬ (its.length - 1) % 2 = 0 := by omega
      rw [if_neg hodd] at this
      exact this

/-- Witness of C24 on the worked example: the route from `A` to `C` is a `WAIT` at
`A` followed by a `BUS`. -/
theorem C24_wait_and_bus_alternate_witness :
    PointersValid Examples.catABC ∧
    TransportRouter.BuildGraph Examples.taxicab Examples.catABC Examples.router5x60 =
      .ok (builtRouter Examples.taxicab Examples.router5x60.settings_ Examples.catABC) ∧
    (builtRouter Examples.taxicab Examples.router5x60.settings_ Examples.catABC).FindRoute
        "A" "C" =
      .ok (some
        { total_time := 7
          items :=
            [{ type := .WAIT, stop_name := "A", bus_name := "", time := 5, span_count := 0 },
             { type := .BUS, stop_name := "", bus_name := "1", time := 2,
               span_count := 2 }] }) ∧
    (∃ first,
      ([{ type := .WAIT, stop_name := "A", bus_name := "", time := 5, span_count := 0 },
        { type := .BUS, stop_name := "", bus_name := "1", time := 2,
          span_count := 2 }] : List RouteItem).head? = some first ∧
      first.type = .WAIT ∧ first.stop_name = "A") :=
  ⟨by unfold PointersValid; decide, by decide!, by decide!,
    (C24_wait_and_bus_alternate Examples.taxicab Examples.catABC Examples.router5x60
      (builtRouter Examples.taxicab Examples.router5x60.settings_ Examples.catABC) "A" "C"
      { total_time := 7
        items :=
          [{ type := .WAIT, stop_name := "A", bus_name := "", time := 5, span_count := 0 },
           { type := .BUS, stop_name := "", bus_name := "1", time := 2, span_count := 2 }] }
      (by unfold PointersValid; decide) (by decide!) (by decide) (by decide!)).2.2.2.1⟩

theorem flatMap_congr_mem {α β : Type} (l : List α) (f g : α → List β)
    (h : ∀ a ∈ l, f a = g a) : l.flatMap f = l.flatMap g := by
  induction l with
  | nil => rfl
  | cons a l ih =>
    rw [List.flatMap_cons, List.flatMap_cons, h a (List.mem_cons_self _ _),
      ih (fun b hb => h b (List.mem_cons_of_mem _ hb))]

/-- A recorded distance other than `0` is the unit segment, whatever the geometric
function. -/
theorem seg_of_recorded (ComputeDistance : Coordinates → Coordinates → ℚ)
    (cat : TransportCatalogue) (a b : Nat) (h : cat.GetDistance a b ≠ 0) :
    seg ComputeDistance cat a b = cat.GetDistance a b := by
  simp [seg, h]

/-- The travel edges of a catalogue do not depend on the geometric function when the
road distance of every unit segment that a bus drives is other than `0`. -/
theorem allTravel_recorded (CD1 CD2 : Coordinates → Coordinates → ℚ)
    (settings : RoutingSettings) (cat : TransportCatalogue)
    (h : ∀ bus ∈ cat.buses_, ∀ k < bus.stops.length - 1,
      cat.GetDistance (bus.stops.getD k 0) (bus.stops.getD (k + 1) 0) ≠ 0 ∧
      cat.GetDistance (bus.stops.getD (k + 1) 0) (bus.stops.getD k 0) ≠ 0) :
    allTravel CD1 settings cat = allTravel CD2 settings cat := by
  have hseg : ∀ bus ∈ cat.buses_, ∀ k, k < bus.stops.length - 1 →
      seg CD1 cat (bus.stops.getD k 0) (bus.stops.getD (k + 1) 0) =
        seg CD2 cat (bus.stops.getD k 0) (bus.stops.getD (k + 1) 0) ∧
      seg CD1 cat (bus.stops.getD (k + 1) 0) (bus.stops.getD k 0) =
        seg CD2 cat (bus.stops.getD (k + 1) 0) (bus.stops.getD k 0) := by
    intro bus hb k hk
    rcases h bus hb k hk with ⟨h1, h2⟩
    exact ⟨by rw [seg_of_recorded CD1 cat _ _ h1, seg_of_recorded CD2 cat _ _ h1],
      by rw [seg_of_recorded CD1 cat _ _ h2, seg_of_recorded CD2 cat _ _ h2]⟩
  have hfwd : ∀ bus ∈ cat.buses_, ∀ i j, j < bus.stops.length →
      fwdDist CD1 cat bus i j = fwdDist CD2 cat bus i j := by
    intro bus hb i j hj
    unfold fwdDist
    congr 1
    apply List.map_congr_left
    intro k hk
    rw [List.mem_range'_1] at hk
    obtain ⟨m, rfl⟩ : ∃ m, k = m + 1 := ⟨k - 1, by omega⟩
    simp only [Nat.add_sub_cancel]
    exact (hseg bus hb m (by omega)).1
  have hbwd : ∀ bus ∈ cat.buses_, ∀ i j, i < bus.stops.length →
      bwdDist CD1 cat bus i j = bwdDist CD2 cat bus i j := by
    intro bus hb i j hi
    unfold bwdDist
    congr 1
    apply List.map_congr_left
    intro k hk
    rw [List.mem_range'_1] at hk
    exact (hseg bus hb k (by omega)).2
  unfold allTravel
  apply flatMap_congr_mem
  intro bus hb
  have h1 : fwdList CD1 (stopIds 0 cat.stops_ []) settings.bus_velocity cat bus =
      fwdList CD2 (stopIds 0 cat.stops_ []) settings.bus_velocity cat bus := by
    unfold fwdList
    apply flatMap_congr_mem
    intro i _
    apply List.map_congr_left
    intro j hj
    rw [List.mem_range'_1] at hj
    unfold fwdEdge
    rw [hfwd bus hb i j (by omega)]
  have h2 : bwdList CD1 (stopIds 0 cat.stops_ []) settings.bus_velocity cat bus =
      bwdList CD2 (stopIds 0 cat.stops_ []) settings.bus_velocity cat bus := by
    unfold bwdList
    apply flatMap_congr_mem
    intro i hi
    rw [List.mem_reverse, List.mem_range'_1] at hi
    apply List.map_congr_left
    intro j _
    unfold bwdEdge
    rw [hbwd bus hb i j (by omega)]
  unfold busList
  rw [h1, h2]

/-- C21 fails as stated: the `BUS` item of the worked example carries the time that
the loop body computes for the ride from position 0 to position 2 of bus `1`, over
the distance `2000` with the velocity `60`. In `double` arithmetic the constant
`1000.0 / 60.0` is `16.666666666666668`, the product `60 * VELOCITY_COEF` is
`1000.0000000000001` and the quotient is `1.9999999999999998 = 2 - 2 ^ (-52)`,
not `2`. -/
theorem C21_counterexample :
    fwdDist Examples.taxicab Examples.catABC
        { name := "1", stops := [0, 1, 2], is_roundtrip := true } 0 2 = 2000 ∧
    Examples.router5x60.settings_.bus_velocity = 60 ∧
    roundToDouble (1000 / 60) = 4691249611844267 / 281474976710656 ∧
    roundToDouble (60 * roundToDouble (1000 / 60)) = 1000 + 1 / 8796093022208 ∧
    travelTimeDouble 2000 60 = 2 - 1 / 4503599627370496 ∧
    travelTimeDouble 2000 60 ≠ 2 := by
  refine ⟨by decide!, by decide!, by decide!, by decide!, by decide!, by decide!⟩

/-- C21 as amended: the worked example. The base requests for the stops `A (0,0)`,
`B (0,1)`, `C (0,2)`, the distances `A → B = 1000`, `B → C = 1000` and the roundtrip
bus `1` through `A, B, C` load the example network; with `bus_wait_time = 5` and
`bus_velocity = 60`, and whatever the geometric distance function is, the build
succeeds and `FindRoute(A, C)` returns exactly the two items `WAIT` at `A` with time 5
and `BUS` `1` with span count 2 and time `2000 / (60 * (1000/60))`. Over exact
arithmetic this time is `2` and `total_time` is `7`; in `double` arithmetic the time is
`2 - 2 ^ (-52)` and the sum `5 + (2 - 2 ^ (-52))` rounds to `7`. -/
theorem C21_worked_example (ComputeDistance : Coordinates → Coordinates → ℚ) :
    JsonReader.ParsingBaseRequests {}
        [.Stop "A" 0 0 (some [("B", 1000)]), .Stop "B" 0 1 (some [("C", 1000)]),
         .Stop "C" 0 2 none, .Bus "1" ["A", "B", "C"] true] = Examples.catABC ∧
    (2000 : ℚ) / (60 * (1000 / 60)) = 2 ∧
    (∃ r, TransportRouter.BuildGraph ComputeDistance Examples.catABC Examples.router5x60 =
        .ok r ∧
      r.FindRoute "A" "C" =
        .ok (some
          { total_time := 7
            items :=
              [{ type := .WAIT, stop_name := "A", bus_name := "", time := 5, span_count := 0 },
               { type := .BUS, stop_name := "", bus_name := "1",
                 time := 2000 / (60 * VELOCITY_COEF), span_count := 2 }] })) ∧
    travelTimeDouble 2000 60 = 2 - 1 / 2 ^ 52 ∧
    roundToDouble (5 + travelTimeDouble 2000 60) = 7 := by
  have hall : allTravel ComputeDistance Examples.router5x60.settings_ Examples.catABC =
      allTravel Examples.taxicab Examples.router5x60.settings_ Examples.catABC :=
    allTravel_recorded _ _ _ _ (by decide)
  have hr : builtRouter ComputeDistance Examples.router5x60.settings_ Examples.catABC =
      builtRouter Examples.taxicab Examples.router5x60.settings_ Examples.catABC := by
    unfold builtRouter builtGraph
    rw [hall]
  refine ⟨by decide!, by norm_num, ⟨_,
    BuildGraph_eq ComputeDistance Examples.catABC Examples.router5x60
      (by unfold PointersValid; decide), ?_⟩, by decide!, by decide!⟩
  rw [hr]
  decide!

end transport

/-! ## Claims on the bus statistics -/

namespace transport_catalogue

open TransportCatalogue

theorem wrapInt32_of_inRange (x : Int) (h1 : INT_MIN ≤ x) (h2 : x ≤ INT_MAX) :
    wrapInt32 x = x := by
  unfold INT_MIN at h1
  unfold INT_MAX at h2
  unfold wrapInt32
  omega

/-- An `int` accumulation whose partial sums all stay in the range of `int` is the
exact sum. -/
theorem foldl_wrapInt32_exact (terms : List Int) :
    ∀ s : Int,
      (∀ n, n ≤ terms.length →
        INT_MIN ≤ s + (terms.take n).sum ∧ s + (terms.take n).sum ≤ INT_MAX) →
      terms.foldl (fun a d => wrapInt32 (a + d)) s = s + terms.sum := by
  induction terms with
  | nil => intro s _; simp
  | cons d ds ih =>
    intro s h
    have h1 := h 1 (by simp)
    simp only [List.take_succ_cons, List.take_zero, List.sum_cons, List.sum_nil,
      add_zero] at h1
    rw [List.foldl_cons, wrapInt32_of_inRange _ h1.1 h1.2, ih (s + d), List.sum_cons,
      add_assoc]
    intro n hn
    have h2 := h (n + 1) (by simpa using hn)
    simp only [List.take_succ_cons, List.sum_cons] at h2
    rw [add_assoc]
    exact h2

/-- One round of the loops of `GetBusInfo` on two positions inside the stop list of a
bus whose pointers are valid: it returns, and adds `GetDistance` of the two stops in
`int` arithmetic. -/
theorem lengthStep_ok (ComputeDistance : Coordinates → Coordinates → ℚ)
    (c : TransportCatalogue) (bus : Bus) (i j : Nat) (st : Int × ℚ)
    (hv : ∀ q ∈ bus.stops, q < c.stops_.length)
    (hi : i < bus.stops.length) (hj : j < bus.stops.length) :
    ∃ g, lengthStep ComputeDistance c bus i j st =
      .ok (wrapInt32 (st.1 + c.GetDistance (bus.stops.getD i 0) (bus.stops.getD j 0)), g) := by
  have h1 : bus.stops[i]? = some bus.stops[i] := List.getElem?_eq_getElem hi
  have h2 : bus.stops[j]? = some bus.stops[j] := List.getElem?_eq_getElem hj
  have h3 : bus.stops[i] < c.stops_.length := hv _ (List.getElem_mem hi)
  have h4 : bus.stops[j] < c.stops_.length := hv _ (List.getElem_mem hj)
  have h5 : c.stops_[bus.stops[i]]? = some c.stops_[bus.stops[i]] := List.getElem?_eq_getElem h3
  have h6 : c.stops_[bus.stops[j]]? = some c.stops_[bus.stops[j]] := List.getElem?_eq_getElem h4
  refine ⟨st.2 + ComputeDistance c.stops_[bus.stops[i]].coordinates
    c.stops_[bus.stops[j]].coordinates, ?_⟩
  simp only [lengthStep, vecAt, stopOf, h1, h2, h5, h6, bind, Except.bind, pure, Except.pure,
    List.getD_eq_getElem _ _ hi, List.getD_eq_getElem _ _ hj]

/-- The forward loop of `GetBusInfo` over the first `k` rounds. -/
theorem forwardLength_rounds (ComputeDistance : Coordinates → Coordinates → ℚ)
    (c : TransportCatalogue) (bus : Bus) (hv : ∀ q ∈ bus.stops, q < c.stops_.length) :
    ∀ (k : Nat), k < bus.stops.length → ∀ st : Int × ℚ,
      ∃ g, (List.range' 1 k).foldlM
          (fun st i => lengthStep ComputeDistance c bus (i - 1) i st) st =
        .ok (((List.range' 1 k).map (fun i =>
            c.GetDistance (bus.stops.getD (i - 1) 0) (bus.stops.getD i 0))).foldl
          (fun a d => wrapInt32 (a + d)) st.1, g) := by
  intro k
  induction k with
  | zero => intro _ st; exact ⟨st.2, by simp [pure, Except.pure]⟩
  | succ k ih =>
    intro hk st
    rcases ih (by omega) st with ⟨g, hg⟩
    rcases lengthStep_ok ComputeDistance c bus (1 + k - 1) (1 + k)
      (((List.range' 1 k).map (fun i =>
          c.GetDistance (bus.stops.getD (i - 1) 0) (bus.stops.getD i 0))).foldl
        (fun a d => wrapInt32 (a + d)) st.1, g) hv
      (by omega) (by omega) with ⟨g2, hg2⟩
    refine ⟨g2, ?_⟩
    rw [List.range'_concat, List.foldlM_append, hg]
    simp only [bind, Except.bind, List.foldlM_cons, List.foldlM_nil, Nat.one_mul]
    rw [hg2]
    simp only [pure, Except.pure, List.map_append, List.foldl_append, List.map_cons,
      List.map_nil, List.foldl_cons, List.foldl_nil]

/-- The backward loop of `GetBusInfo` started at position `k`. -/
theorem countDown_rounds (ComputeDistance : Coordinates → Coordinates → ℚ)
    (c : TransportCatalogue) (bus : Bus) (hv : ∀ q ∈ bus.stops, q < c.stops_.length) :
    ∀ (k : Nat), k < bus.stops.length → ∀ st : Int × ℚ,
      ∃ g, countDown (fun i st => lengthStep ComputeDistance c bus i (i - 1) st) k st =
        .ok (((List.range' 1 k).reverse.map (fun i =>
            c.GetDistance (bus.stops.getD i 0) (bus.stops.getD (i - 1) 0))).foldl
          (fun a d => wrapInt32 (a + d)) st.1, g) := by
  intro k
  induction k with
  | zero => intro _ st; exact ⟨st.2, by simp [countDown, pure, Except.pure]⟩
  | succ k ih =>
    intro hk st
    rcases lengthStep_ok ComputeDistance c bus (k + 1) (k + 1 - 1) st hv (by omega)
      (by omega) with ⟨g, hg⟩
    rcases ih (by omega)
      (wrapInt32 (st.1 +
        c.GetDistance (bus.stops.getD (k + 1) 0) (bus.stops.getD (k + 1 - 1) 0)), g) with
      ⟨g2, hg2⟩
    refine ⟨g2, ?_⟩
    simp only [countDown, bind, Except.bind]
    rw [hg]
    simp only []
    rw [hg2, List.range'_concat]
    have h1 : 1 + 1 * k = k + 1 := by omega
    simp only [List.reverse_append, List.reverse_cons, List.reverse_nil, List.nil_append,
      List.singleton_append, List.map_cons, List.foldl_cons, h1]

/-- The info that `GetBusInfo` returns for a known bus once the loops have returned. -/
theorem GetBusInfo_known (ComputeDistance : Coordinates → Coordinates → ℚ)
    (c : TransportCatalogue) (bus_name : String) (p : Nat) (bus : Bus) (st : Int × ℚ)
    (hf : c.FindBus bus_name = some p) (hb : c.buses_[p]? = some bus)
    (hacc : accumulateLengths ComputeDistance c bus = .ok st) :
    c.GetBusInfo ComputeDistance bus_name =
      .ok (some
        { stop_count :=
            if bus.is_roundtrip then bus.stops.length
            else ((bus.stops.length * 2) % SIZE_MODULUS + SIZE_MODULUS - 1) % SIZE_MODULUS
          unique_stop_count := bus.stops.dedup.length
          route_length := (st.1 : ℚ)
          geo_length := st.2
          curvature := if st.2 > 0 then (st.1 : ℚ) / st.2 else 0 }) := by
  have hvec : vecAt c.buses_ p = .ok bus := by simp [vecAt, hb]
  simp only [GetBusInfo, hf, hvec, hacc, bind, Except.bind, pure, Except.pure]

/-- The loops of `GetBusInfo` on a bus with at least one stop and valid pointers
return, and `road` is the `int` accumulation of the values in `roadTerms`. -/
theorem accumulateLengths_road (ComputeDistance : Coordinates → Coordinates → ℚ)
    (c : TransportCatalogue) (bus : Bus) (hone : 1 ≤ bus.stops.length)
    (hsize : bus.stops.length < SIZE_MODULUS)
    (hv : ∀ q ∈ bus.stops, q < c.stops_.length) :
    ∃ g, accumulateLengths ComputeDistance c bus =
      .ok ((roadTerms c bus).foldl (fun a d => wrapInt32 (a + d)) 0, g) := by
  rcases forwardLength_rounds ComputeDistance c bus hv (bus.stops.length - 1) (by omega)
    ((0 : Int), (0 : ℚ)) with ⟨g, hg⟩
  by_cases hr : bus.is_roundtrip = true
  · refine ⟨g, ?_⟩
    simp only [accumulateLengths, hr, if_true, forwardLength, hg, roadTerms,
      List.append_nil]
  · have hstart : (bus.stops.length + SIZE_MODULUS - 1) % SIZE_MODULUS =
        bus.stops.length - 1 := by
      unfold SIZE_MODULUS at hsize ⊢
      omega
    rcases countDown_rounds ComputeDistance c bus hv (bus.stops.length - 1) (by omega)
      (((List.range' 1 (bus.stops.length - 1)).map (fun i =>
          c.GetDistance (bus.stops.getD (i - 1) 0) (bus.stops.getD i 0))).foldl
        (fun a d => wrapInt32 (a + d)) 0, g) with ⟨g2, hg2⟩
    refine ⟨g2, ?_⟩
    simp only [accumulateLengths, hr, forwardLength, backwardLength, hstart, hg, hg2, bind,
      Except.bind, Bool.false_eq_true, if_false, roadTerms, List.foldl_append]

/-- Within the range of `int` the road length is exact: `GetBusInfo` returns the empty
optional exactly when `FindBus` does not know the name; for a known bus with at least
one stored stop and valid stop pointers it returns an info whose `route_length` is
the `int` accumulation of `roadTerms`, and, when no partial sum of that accumulation
leaves the range of `int`, the integer sum of `GetDistance(stops[i - 1], stops[i])`
over `i = 1 .. N - 1`, plus the sum of `GetDistance(stops[i], stops[i - 1])` over the
same `i` for a linear bus. -/
theorem GetBusInfo_route_length (ComputeDistance : Coordinates → Coordinates → ℚ)
    (c : TransportCatalogue) (bus_name : String) :
    (c.GetBusInfo ComputeDistance bus_name = .ok none ↔ c.FindBus bus_name = none) ∧
    (∀ p bus, c.FindBus bus_name = some p → c.buses_[p]? = some bus →
      1 ≤ bus.stops.length → bus.stops.length < SIZE_MODULUS →
      (∀ q ∈ bus.stops, q < c.stops_.length) →
      ∃ info, c.GetBusInfo ComputeDistance bus_name = .ok (some info) ∧
        info.route_length =
          (((roadTerms c bus).foldl (fun a d => wrapInt32 (a + d)) 0 : Int) : ℚ) ∧
        ((∀ n, n ≤ (roadTerms c bus).length →
            INT_MIN ≤ ((roadTerms c bus).take n).sum ∧
            ((roadTerms c bus).take n).sum ≤ INT_MAX) →
          info.route_length =
            (((((List.range' 1 (bus.stops.length - 1)).map (fun i =>
                c.GetDistance (bus.stops.getD (i - 1) 0) (bus.stops.getD i 0))).sum +
              if bus.is_roundtrip then 0
              else ((List.range' 1 (bus.stops.length - 1)).map (fun i =>
                c.GetDistance (bus.stops.getD i 0) (bus.stops.getD (i - 1) 0))).sum :
              Int)) : ℚ))) ∧
    (∀ a b, mapFind (a, b) c.distances_ = none → mapFind (b, a) c.distances_ = none →
      c.GetDistance a b = 0) := by
  refine ⟨?_, ?_, ?_⟩
  · constructor
    · intro h
      cases hf : c.FindBus bus_name with
      | none => rfl
      | some p =>
        exfalso
        simp only [GetBusInfo, hf] at h
        cases hb : vecAt c.buses_ p with
        | error e =>
          rw [hb] at h
          cases h
        | ok bus =>
          rw [hb] at h
          cases hst : accumulateLengths ComputeDistance c bus with
          | error e =>
            simp only [bind, Except.bind, hst] at h
            cases h
          | ok st =>
            simp only [bind, Except.bind, hst, pure, Except.pure] at h
            cases h
    · intro h
      simp only [GetBusInfo, h]
      rfl
  · intro p bus hf hb hone hsize hv
    rcases accumulateLengths_road ComputeDistance c bus hone hsize hv with ⟨g, hacc⟩
    refine ⟨_, GetBusInfo_known ComputeDistance c bus_name p bus _ hf hb hacc, rfl, ?_⟩
    intro hrange
    have hex := foldl_wrapInt32_exact (roadTerms c bus) 0
      (fun n hn => by simpa using hrange n hn)
    simp only [hex, zero_add]
    congr 1
    by_cases hr : bus.is_roundtrip = true
    · simp [roadTerms, hr]
    · simp only [roadTerms, hr, Bool.false_eq_true, if_false, List.sum_append,
        List.map_reverse, List.sum_reverse]
  · intro a b h1 h2
    simp [GetDistance, h1, h2]

/-- C27 fails on the code: in `catFar` the road `A → B` is recorded as `2000000000`
and the linear bus `8` drives it forth and back (`GetDistance` gives the same value
for the reverse pair); the exact sum is `4000000000`, yet the `int road` of
`GetBusInfo` overflows and the info holds `route_length = -294967296`
(`4000000000 - 2 ^ 32`). -/
theorem C27_road_sum_overflows :
    transport.Examples.catFar.FindBus "8" = some 0 ∧
    transport.Examples.catFar.buses_[0]? =
      some { name := "8", stops := [0, 1], is_roundtrip := false } ∧
    transport.Examples.catFar.GetDistance 0 1 = 2000000000 ∧
    transport.Examples.catFar.GetDistance 1 0 = 2000000000 ∧
    roadTerms transport.Examples.catFar
        { name := "8", stops := [0, 1], is_roundtrip := false } =
      [2000000000, 2000000000] ∧
    wrapInt32 (2000000000 + 2000000000) = -294967296 ∧
    transport.Examples.catFar.GetBusInfo transport.Examples.taxicab "8" =
      .ok (some { stop_count := 3, unique_stop_count := 2, route_length := -294967296,
                  geo_length := 200000, curvature := -294967296 / 200000 }) ∧
    ((-294967296 : ℚ) ≠ ((2000000000 + 2000000000 : Int) : ℚ)) := by
  refine ⟨by decide, by decide, by decide, by decide, by decide, by decide, by decide!,
    by norm_num⟩

/-- The road length of the linear bus `3` through `A`, `B`, `C` with `A → B = 1000`,
`B → A = 2000`, `B → C = 3000` stays in the range of `int`: forward `1000 + 3000`,
backward `3000 + 2000`. -/
theorem GetBusInfo_route_length_example :
    transport.Examples.catLinear.FindBus "3" = some 0 ∧
    transport.Examples.catLinear.buses_[0]? = some transport.Examples.bus3 ∧
    ∃ info, transport.Examples.catLinear.GetBusInfo transport.Examples.taxicab "3" =
        .ok (some info) ∧
      info.route_length = (((1000 + 3000 : Int) + (3000 + 2000 : Int) : Int) : ℚ) :=
  ⟨by decide, by decide,
    by
      rcases (GetBusInfo_route_length transport.Examples.taxicab transport.Examples.catLinear
        "3").2.1 0 transport.Examples.bus3 (by decide) (by decide) (by decide) (by decide)
        (by decide) with ⟨info, h1, _, h3⟩
      refine ⟨info, h1, ?_⟩
      rw [h3 (by decide)]
      decide!⟩

/-- C26 fails on the code: in `catMixed` the linear bus `5` is stored with an empty
stop list (its only stop name `Z` is unknown); the start value `size() - 1` of the
backward loop of `GetBusInfo` is `2 ^ 64 - 1` in `size_t`, the loop is entered and
reads position `2 ^ 64 - 1` of the empty stop list, so the query faults instead of
returning. A roundtrip bus with an empty stop list gets a result, and `BuildGraph`
passes over the same catalogue without a fault. -/
theorem C26_empty_linear_bus_read_out_of_bounds :
    transport.Examples.catMixed.FindBus "5" = some 1 ∧
    transport.Examples.catMixed.buses_[1]? =
      some { name := "5", stops := [], is_roundtrip := false } ∧
    (([] : List Nat).length + SIZE_MODULUS - 1) % SIZE_MODULUS = 18446744073709551615 ∧
    vecAt ([] : List Nat) 18446744073709551615 = .error .bad_pointer ∧
    transport.Examples.catMixed.GetBusInfo transport.Examples.taxicab "5" =
      .error .bad_pointer ∧
    (transport.Examples.catStops.AddBus "9" ["Z"] true).GetBusInfo
        transport.Examples.taxicab "9" =
      .ok (some { stop_count := 0, unique_stop_count := 0, route_length := 0,
                  geo_length := 0, curvature := 0 }) ∧
    (transport.TransportRouter.BuildGraph transport.Examples.taxicab
        transport.Examples.catMixed transport.Examples.router5x60).toBool = true := by
  refine ⟨by decide, by decide, by decide, by decide, by decide!, by decide!, by decide!⟩

/-- The calls of the populating interface keep the name table and the stop pointers of
the buses valid. -/
theorem CatalogueCall_run_valid (c : TransportCatalogue) (call : CatalogueCall)
    (hn : NamesValid c) (hv : transport.PointersValid c) :
    NamesValid (call.run c) ∧ transport.PointersValid (call.run c) := by
  cases call with
  | AddStop name coord =>
    exact ⟨NamesValid_AddStop c name coord hn, PointersValid_AddStop c name coord hv⟩
  | AddBus name stop_names is_roundtrip =>
    exact ⟨NamesValid_AddBus c name stop_names is_roundtrip hn,
      PointersValid_AddBus c name stop_names is_roundtrip hn hv⟩
  | SetDistance a b d =>
    exact ⟨NamesValid_SetDistance c a b d hn, PointersValid_SetDistance c a b d hv⟩

theorem foldl_run_valid (calls : List CatalogueCall) :
    ∀ c : TransportCatalogue, NamesValid c → transport.PointersValid c →
      NamesValid (calls.foldl CatalogueCall.run c) ∧
      transport.PointersValid (calls.foldl CatalogueCall.run c) := by
  induction calls with
  | nil => intro c hn hv; exact ⟨hn, hv⟩
  | cons call rest ih =>
    intro c hn hv
    have h := CatalogueCall_run_valid c call hn hv
    exact ih _ h.1 h.2

/-- Every catalogue populated through the interface has a valid name table and valid
stop pointers. -/
theorem populate_valid (calls : List CatalogueCall) :
    NamesValid (populate calls) ∧ transport.PointersValid (populate calls) :=
  foldl_run_valid calls {} NamesValid_empty PointersValid_empty

end transport_catalogue

namespace transport

open transport_catalogue graph

/-- C25: for every sequence of `AddStop`, `AddBus` and `SetDistance` calls on an empty
catalogue (repeated stop names and unknown names in bus lists included), every
geometric function and every prior state of the router, `BuildGraph` returns without
a fault; its graph has `2 * (number of stops)` vertices, every position of every
bus's stop list holds a pointer to a stop of the catalogue whose name has an entry in
the stop index table, with an id below the number of stops, and both endpoints of
every edge are below the vertex count. -/
theorem C25_build_has_no_failed_lookup (ComputeDistance : Coordinates → Coordinates → ℚ)
    (calls : List CatalogueCall) (r0 : TransportRouter) :
    ∃ r g, TransportRouter.BuildGraph ComputeDistance (populate calls) r0 = .ok r ∧
      r.graph_ = some g ∧ g.vertex_count = 2 * (populate calls).stops_.length ∧
      (∀ bus ∈ (populate calls).buses_, ∀ i, i < bus.stops.length →
        ∃ p s id, bus.stops[i]? = some p ∧ (populate calls).stops_[p]? = some s ∧
          mapFind s.name r.stop_ids_ = some id ∧ id < (populate calls).stops_.length) ∧
      (∀ e ∈ g.edges_, e.from_ < g.vertex_count ∧ e.to_ < g.vertex_count) := by
  have hv := (populate_valid calls).2
  refine ⟨_, builtGraph ComputeDistance r0.settings_ (populate calls),
    BuildGraph_eq ComputeDistance (populate calls) r0 hv, rfl, ?_, ?_, ?_⟩
  · simp only [builtGraph]
    omega
  · intro bus hbus i hi
    have hp : bus.stops[i] < (populate calls).stops_.length :=
      hv bus hbus _ (List.getElem_mem hi)
    rcases stopIds_mem (populate calls).stops_ _ (List.getElem_mem hp) with ⟨id, h1, h2⟩
    exact ⟨bus.stops[i], (populate calls).stops_[bus.stops[i]], id,
      List.getElem?_eq_getElem hi, List.getElem?_eq_getElem hp, h1, h2⟩
  · exact builtGraph_endpoints ComputeDistance r0.settings_ (populate calls) hv

/-- Witness of C25 on the catalogue with buses of every size, one of them with an
unknown stop name. -/
theorem C25_build_has_no_failed_lookup_witness :
    populate Examples.callsMixed = Examples.catMixed ∧
    ∃ r g, TransportRouter.BuildGraph Examples.taxicab (populate Examples.callsMixed)
        Examples.router5x60 = .ok r ∧
      r.graph_ = some g ∧ g.vertex_count = 2 * (populate Examples.callsMixed).stops_.length ∧
      (∀ bus ∈ (populate Examples.callsMixed).buses_, ∀ i, i < bus.stops.length →
        ∃ p s id, bus.stops[i]? = some p ∧
          (populate Examples.callsMixed).stops_[p]? = some s ∧
          mapFind s.name r.stop_ids_ = some id ∧
          id < (populate Examples.callsMixed).stops_.length) ∧
      (∀ e ∈ g.edges_, e.from_ < g.vertex_count ∧ e.to_ < g.vertex_count) :=
  ⟨by decide, C25_build_has_no_failed_lookup Examples.taxicab Examples.callsMixed
    Examples.router5x60⟩

end transport

/-! ## Claims on the loading of base requests -/

namespace JsonReader

open transport_catalogue

/-- The first loop of `ParsingBaseRequests` in closed form. -/
theorem collectRequests_fold (reqs : List BaseRequest) :
    ∀ (c : TransportCatalogue) (sd : List (String × List (String × Int)))
      (bs : List (String × List String × Bool)),
      reqs.foldl collectRequests (c, sd, bs) =
        (reqs.foldl BaseRequest.stopStep c, sd ++ reqs.filterMap BaseRequest.distancesOf,
          bs ++ reqs.filterMap BaseRequest.busOf) := by
  induction reqs with
  | nil => intro c sd bs; simp
  | cons r rest ih =>
    intro c sd bs
    cases r with
    | Stop name latitude longitude road_distances =>
      cases road_distances with
      | none =>
        simp only [List.foldl_cons, collectRequests, ih, BaseRequest.stopStep,
          BaseRequest.distancesOf, BaseRequest.busOf, List.filterMap_cons]
      | some d =>
        simp only [List.foldl_cons, collectRequests, ih, BaseRequest.stopStep,
          BaseRequest.distancesOf, BaseRequest.busOf, List.filterMap_cons, List.append_assoc,
          List.singleton_append]
    | Bus name stops is_roundtrip =>
      simp only [List.foldl_cons, collectRequests, ih, BaseRequest.stopStep,
        BaseRequest.distancesOf, BaseRequest.busOf, List.filterMap_cons, List.append_assoc,
        List.singleton_append]
    | Other type =>
      simp only [List.foldl_cons, collectRequests, ih, BaseRequest.stopStep,
        BaseRequest.distancesOf, BaseRequest.busOf, List.filterMap_cons]

theorem stopStep_filter (reqs : List BaseRequest) :
    ∀ c : TransportCatalogue,
      reqs.foldl BaseRequest.stopStep c =
        (reqs.filter BaseRequest.isStop).foldl BaseRequest.stopStep c := by
  induction reqs with
  | nil => intro c; rfl
  | cons r rest ih =>
    intro c
    cases r <;> simp [List.filter_cons, BaseRequest.isStop, BaseRequest.stopStep, ih]

theorem distancesOf_filter (reqs : List BaseRequest) :
    reqs.filterMap BaseRequest.distancesOf =
      (reqs.filter BaseRequest.isStop).filterMap BaseRequest.distancesOf := by
  induction reqs with
  | nil => rfl
  | cons r rest ih =>
    cases r <;> simp [List.filter_cons, List.filterMap_cons, BaseRequest.isStop,
      BaseRequest.distancesOf, ih]

theorem busOf_filter (reqs : List BaseRequest) :
    reqs.filterMap BaseRequest.busOf =
      (reqs.filter BaseRequest.isBus).filterMap BaseRequest.busOf := by
  induction reqs with
  | nil => rfl
  | cons r rest ih =>
    cases r <;> simp [List.filter_cons, List.filterMap_cons, BaseRequest.isBus,
      BaseRequest.busOf, ih]

/-- The function `ParsingBaseRequests` in closed form: the stops of all `Stop` requests
are added first, then the road distances of all `Stop` requests are processed, then
all `Bus` requests. -/
theorem ParsingBaseRequests_eq (c : TransportCatalogue) (reqs : List BaseRequest) :
    ParsingBaseRequests c reqs =
      (((reqs.filter BaseRequest.isBus).filterMap BaseRequest.busOf).foldl
        (fun c request => ProcessBus c request.1 request.2.1 request.2.2)
        ((((reqs.filter BaseRequest.isStop).filterMap BaseRequest.distancesOf).foldl
          (fun c request => ProcessRoadDistances c request.1 request.2)
          ((reqs.filter BaseRequest.isStop).foldl BaseRequest.stopStep c)))) := by
  simp only [ParsingBaseRequests, collectRequests_fold, List.nil_append]
  rw [← stopStep_filter, ← distancesOf_filter, ← busOf_filter]

/-- C28: the catalogue that `ParsingBaseRequests` leaves is determined by the sequence
of the `Stop` requests and the sequence of the `Bus` requests of the array: all stops
are added, then all road distances are processed, then all buses, so two arrays with
the same `Stop` requests in the same order and the same `Bus` requests in the same
order give the same catalogue, wherever the buses stand among the stops; in
particular the array gives the same catalogue as the one with all its `Stop` requests
moved ahead of all its `Bus` requests. -/
theorem C28_bus_position_is_irrelevant (c : TransportCatalogue)
    (reqs reqs' : List BaseRequest)
    (hs : reqs.filter BaseRequest.isStop = reqs'.filter BaseRequest.isStop)
    (hb : reqs.filter BaseRequest.isBus = reqs'.filter BaseRequest.isBus) :
    ParsingBaseRequests c reqs = ParsingBaseRequests c reqs' ∧
    ParsingBaseRequests c reqs =
      ParsingBaseRequests c
        (reqs.filter BaseRequest.isStop ++ reqs.filter BaseRequest.isBus) ∧
    ParsingBaseRequests c reqs =
      (((reqs.filter BaseRequest.isBus).filterMap BaseRequest.busOf).foldl
        (fun c request => ProcessBus c request.1 request.2.1 request.2.2)
        ((((reqs.filter BaseRequest.isStop).filterMap BaseRequest.distancesOf).foldl
          (fun c request => ProcessRoadDistances c request.1 request.2)
          ((reqs.filter BaseRequest.isStop).foldl BaseRequest.stopStep c)))) := by
  refine ⟨?_, ?_, ParsingBaseRequests_eq c reqs⟩
  · rw [ParsingBaseRequests_eq, ParsingBaseRequests_eq, hs, hb]
  · have h1 : (reqs.filter BaseRequest.isStop ++ reqs.filter BaseRequest.isBus).filter
        BaseRequest.isStop = reqs.filter BaseRequest.isStop := by
      rw [List.filter_append, List.filter_filter, List.filter_filter]
      have e1 : (fun a => BaseRequest.isStop a && BaseRequest.isStop a) =
          BaseRequest.isStop := by
        funext a; simp
      have e2 : (fun a => BaseRequest.isStop a && BaseRequest.isBus a) = fun _ => false := by
        funext a; cases a <;> rfl
      rw [e1, e2]
      simp
    have h2 : (reqs.filter BaseRequest.isStop ++ reqs.filter BaseRequest.isBus).filter
        BaseRequest.isBus = reqs.filter BaseRequest.isBus := by
      rw [List.filter_append, List.filter_filter, List.filter_filter]
      have e1 : (fun a => BaseRequest.isBus a && BaseRequest.isBus a) =
          BaseRequest.isBus := by
        funext a; simp
      have e2 : (fun a => BaseRequest.isBus a && BaseRequest.isStop a) = fun _ => false := by
        funext a; cases a <;> rfl
      rw [e1, e2]
      simp
    rw [ParsingBaseRequests_eq c reqs, ParsingBaseRequests_eq c (_ ++ _), h1, h2]

/-- Witness of C28: the requests of the worked example with the bus listed first, and
each road distance leading to a stop that is defined later in the array, load the
same catalogue as the array with the bus listed last, the network of the worked
example. -/
theorem C28_bus_position_is_irrelevant_witness :
    ParsingBaseRequests {}
        [.Bus "1" ["A", "B", "C"] true, .Stop "A" 0 0 (some [("B", 1000)]),
         .Stop "B" 0 1 (some [("C", 1000)]), .Stop "C" 0 2 none] =
      transport.Examples.catABC ∧
    ParsingBaseRequests {}
        [.Bus "1" ["A", "B", "C"] true, .Stop "A" 0 0 (some [("B", 1000)]),
         .Stop "B" 0 1 (some [("C", 1000)]), .Stop "C" 0 2 none] =
      ParsingBaseRequests {}
        [.Stop "A" 0 0 (some [("B", 1000)]), .Stop "B" 0 1 (some [("C", 1000)]),
         .Stop "C" 0 2 none, .Other "Route", .Bus "1" ["A", "B", "C"] true] :=
  ⟨by decide!,
    (C28_bus_position_is_irrelevant {}
      [.Bus "1" ["A", "B", "C"] true, .Stop "A" 0 0 (some [("B", 1000)]),
       .Stop "B" 0 1 (some [("C", 1000)]), .Stop "C" 0 2 none]
      [.Stop "A" 0 0 (some [("B", 1000)]), .Stop "B" 0 1 (some [("C", 1000)]),
       .Stop "C" 0 2 none, .Other "Route", .Bus "1" ["A", "B", "C"] true]
      (by decide!) (by decide!)).1⟩

end JsonReader

/-! ## Claims on the JSON builder -/

namespace json

/-- C23 fails on the code: after a root value that is `null` the builder is in the
state of a fresh builder (`root_` is null, both stacks are empty), so a second root
value, or a container started after it, is accepted and `Build` returns it: the
sequences `Value(null), Value(5)` and `Value(null), StartArray, EndArray` do not denote
one JSON value, yet `Build` returns a node. After a root value other than `null` the
second value is refused with `Multiple root values`. -/
theorem C23_second_root_value_after_null :
    (∃ b, Builder.apply {} (.Value .null) = .ok b ∧ b.root_.IsNull = true ∧
      b.state_stack_ = [] ∧ b.node_stack_ = [] ∧ b.built_ = false) ∧
    Builder.run [.Value .null, .Value (.int 5)] = .ok (.int 5) ∧
    Builder.run [.Value .null, .StartArray, .EndArray] = .ok (.array []) ∧
    Builder.run [.Value (.int 4), .Value (.int 5)] =
      .error (.logic_error "Multiple root values") :=
  ⟨⟨{}, rfl, rfl, rfl, rfl, rfl⟩, rfl, rfl, rfl⟩

/-- C29 fails on the code: the sequence `Value(null)` is well formed and denotes the
value `null`, yet `Build` throws `No root node set` instead of returning it. Inside an
array `null` is returned as an element; the elements of an array keep the order in
which they were added, and a repeated key of a dict keeps the value added last. -/
theorem C29_null_root_is_not_returned :
    Builder.run [.Value .null] = .error (.logic_error "No root node set") ∧
    Builder.run [.StartArray, .Value .null, .Value (.int 1), .Value (.int 2), .EndArray] =
      .ok (.array [.null, .int 1, .int 2]) ∧
    Builder.run
        [.StartDict, .Key "a", .Value (.int 1), .Key "b", .Value (.int 2), .Key "a",
         .Value (.int 3), .EndDict] =
      .ok (.dict [("a", .int 3), ("b", .int 2)]) :=
  ⟨rfl, rfl, rfl⟩

end json
